import Mathlib

/-!
The apt-worker client transport (src/src/apt-worker-client.cc).

A shallow embedding of the request dispatch table, the frame codec, the
blocking channel I/O, the progress stream reader and the startup handshake of
the apt-worker client, followed by theorems about them.

Conventions of the embedding

* C `int` values are `Int`; where the 32-bit width matters the wrap is explicit
  (`wrap32`).
* A callback (`apt_worker_callback *`) is a natural number naming the function,
  `Option Nat` where the pointer may be NULL.  Callbacks are not run: every
  invocation is appended to `State.invoked` as an `Invocation` record.
* A decoder argument is `Option (List Nat)`: `none` is the NULL decoder,
  `some bytes` is `&dec` after `dec.reset (response_data, res.len)`, a decoder
  over exactly those bytes.
* The operating system is an explicit argument: the results of the `read` calls
  on the inbound descriptor are a `List ReadEvent`, the results of the `write`
  calls on the outbound descriptor a `List WriteEvent`.  A call on an exhausted
  list never returns (`blocked`).  The outcomes of the non-blocking opens of the
  handshake are a function from the number of the open to its result.
* The C library function `atof` is a parameter of the progress stream reader.
-/

namespace AptWorkerClient

/-! ## Protocol constants -/

/-- Modelled from the spec: the enum bounds of apt-worker-proto.h, which is not
among the sources.  `APTCMD_MAX` is the number of command kinds (the size of the
`pending` table), `APTCMD_STATUS` the reserved status kind. -/
structure Proto where
  APTCMD_MAX : Nat
  APTCMD_STATUS : Nat

/-! ## Machine integers and the wire header -/

/-- The value of a C `int` after wrapping to 32 bits, two's complement. -/
def wrap32 (x : Int) : Int := (x + 2147483648) % 4294967296 - 2147483648

/-- The four bytes of a 32-bit `int` in memory (least significant byte first). -/
def int32_bytes (x : Int) : List Nat :=
  let u := (x % 4294967296).toNat
  [u % 256, u / 256 % 256, u / 65536 % 256, u / 16777216 % 256]

/-- The `int` held by four bytes of memory (least significant byte first). -/
def bytes_int32 (b0 b1 b2 b3 : Nat) : Int :=
  wrap32 ((b0 : Int) + 256 * (b1 : Int) + 65536 * (b2 : Int) + 16777216 * (b3 : Int))

/-- Modelled from the spec: `apt_request_header` and `apt_response_header` of
apt-worker-proto.h, which is not among the sources: four `int32` fields
command, state, sequence, length, without padding, the same in both directions. -/
structure apt_header where
  cmd : Int
  state : Int
  seq : Int
  len : Int
deriving DecidableEq, Repr

/-- The 16 bytes of a header as `must_write (&req, sizeof (req))` sends them. -/
def header_bytes (h : apt_header) : List Nat :=
  int32_bytes h.cmd ++ int32_bytes h.state ++ int32_bytes h.seq ++ int32_bytes h.len

/-- The header held by the 16 bytes that `must_read (&res, sizeof (res))` stored. -/
def bytes_header (b : List Nat) : apt_header :=
  { cmd := bytes_int32 (b.getD 0 0) (b.getD 1 0) (b.getD 2 0) (b.getD 3 0)
    state := bytes_int32 (b.getD 4 0) (b.getD 5 0) (b.getD 6 0) (b.getD 7 0)
    seq := bytes_int32 (b.getD 8 0) (b.getD 9 0) (b.getD 10 0) (b.getD 11 0)
    len := bytes_int32 (b.getD 12 0) (b.getD 13 0) (b.getD 14 0) (b.getD 15 0) }

/-! ## The operating system: read and write calls -/

/-- What the next `read` on the inbound descriptor finds. -/
inductive ReadEvent where
  | error                      -- read returns -1
  | eof                        -- read returns 0
  | chunk (bytes : List Nat)   -- these bytes are available (none: read returns 0)
deriving DecidableEq, Repr

/-- What the next `write` on the outbound descriptor does. -/
inductive WriteEvent where
  | error                      -- write returns -1
  | accept (room : Nat)        -- the descriptor takes up to `room` bytes
deriving DecidableEq, Repr

/-- The call `read (fd, buf, n)`: the return value, the bytes stored at `buf`, and
the events left.  An invalid descriptor gives -1 (EBADF).  A read returns at
most `n` bytes; what it does not take of a chunk stays for the next read.
`none`: nothing ever arrives and the call does not return. -/
def sys_read (fd : Int) (pipe : List ReadEvent) (n : Nat) :
    Option (Int × List Nat × List ReadEvent) :=
  if fd < 0 then some (-1, [], pipe)
  else
    match pipe with
    | [] => none
    | ReadEvent.error :: rest => some (-1, [], rest)
    | ReadEvent.eof :: rest => some (0, [], rest)
    | ReadEvent.chunk bs :: rest =>
      if bs.length ≤ n then some ((bs.length : Int), bs, rest)
      else some ((n : Int), bs.take n, ReadEvent.chunk (bs.drop n) :: rest)

/-- The call `write (fd, buf, n)`: the return value and the events left.  An
invalid descriptor gives -1 (EBADF).  `none`: the call does not return. -/
def sys_write (fd : Int) (wr : List WriteEvent) (n : Nat) :
    Option (Int × List WriteEvent) :=
  if fd < 0 then some (-1, wr)
  else
    match wr with
    | [] => none
    | WriteEvent.error :: rest => some (-1, rest)
    | WriteEvent.accept room :: rest => some ((min room n : Nat), rest)

/-- Result of `must_read`. -/
inductive ReadOutcome where
  | ok (buf : List Nat) (pipe : List ReadEvent)   -- returned true, `buf` filled
  | failed (pipe : List ReadEvent)                -- returned false
  | blocked                                       -- a read call never returned
deriving DecidableEq, Repr

/-- Result of `must_write`: the bytes the descriptor has taken so far and the
write events left. -/
inductive WriteOutcome where
  | ok (written : List Nat) (wr : List WriteEvent)       -- returned true
  | failed (written : List Nat) (wr : List WriteEvent)   -- returned false
  | blocked                                              -- a write call never returned
deriving DecidableEq, Repr

/-- The loop of `must_read (buf, n)`, lines 402-418; `got` is what has been stored
at the front of the original buffer so far. -/
def must_read_loop (fd : Int) (pipe : List ReadEvent) (n : Nat) (got : List Nat) :
    ReadOutcome :=
  if 0 < n then
    match sys_read fd pipe n with
    | none => ReadOutcome.blocked
    | some (r, bs, rest) =>
      if r < 0 then ReadOutcome.failed rest
      else if r = 0 then ReadOutcome.failed rest
      else must_read_loop fd rest (n - r.toNat) (got ++ bs)
  else ReadOutcome.ok got pipe
termination_by n
decreasing_by omega

/-- The function `must_read (void *buf, size_t n)` on descriptor `apt_worker_in_fd`. -/
def must_read (fd : Int) (pipe : List ReadEvent) (n : Nat) : ReadOutcome :=
  must_read_loop fd pipe n []

/-- The loop of `must_write (buf, n)`, lines 426-442; `buf` is what is still to be
sent, `out` what the descriptor has taken. -/
def must_write_loop (fd : Int) (wr : List WriteEvent) (buf : List Nat) (n : Int)
    (out : List Nat) : WriteOutcome :=
  if 0 < n then
    match sys_write fd wr n.toNat with
    | none => WriteOutcome.blocked
    | some (r, rest) =>
      if r < 0 then WriteOutcome.failed out rest
      else if r = 0 then WriteOutcome.failed out rest
      else must_write_loop fd rest (buf.drop r.toNat) (n - r) (out ++ buf.take r.toNat)
  else WriteOutcome.ok out wr
termination_by n.toNat
decreasing_by omega

/-- The function `must_write (void *buf, int n)` on descriptor `apt_worker_out_fd`;
`out` is everything the descriptor has taken before. -/
def must_write (fd : Int) (wr : List WriteEvent) (buf : List Nat) (n : Int)
    (out : List Nat) : WriteOutcome :=
  must_write_loop fd wr buf n out

/-! ## Global state -/

/-- The struct `pending_request`. -/
structure pending_request where
  seq : Int
  done_callback : Option Nat
  done_data : Nat
deriving DecidableEq, Repr

/-- One recorded callback invocation `callback (cmd, dec, data)`. -/
structure Invocation where
  callback : Nat
  cmd : Int
  dec : Option (List Nat)
  data : Nat
deriving DecidableEq, Repr

/-- The globals and function statics of apt-worker-client.cc that the dispatch
table uses, with three observation fields: `invoked` (callback invocations, in
order), `written` (bytes the outbound descriptor has taken) and `annoyed` (calls
of `annoy_user_with_log`). -/
structure State where
  apt_worker_out_fd : Int
  apt_worker_in_fd : Int
  apt_worker_cancel_fd : Int
  apt_worker_status_fd : Int
  apt_worker_started : Bool
  seq : Int                          -- static in next_seq
  pending : Nat → pending_request    -- pending[APTCMD_MAX]
  response_len : Int                 -- static in handle_one_apt_worker_response
  invoked : List Invocation
  written : List Nat
  annoyed : Nat

/-- Ways a call does not return normally. -/
inductive Fault where
  | assert_failed   -- an assert aborted the process
  | blocked         -- a read or write call never returned
  | bad_length      -- a negative res.len was converted to size_t
deriving DecidableEq, Repr

/-- The state at program start: static storage zeroed, descriptors -1. -/
def initial_state : State :=
  { apt_worker_out_fd := -1
    apt_worker_in_fd := -1
    apt_worker_cancel_fd := -1
    apt_worker_status_fd := -1
    apt_worker_started := false
    seq := 0
    pending := fun _ => { seq := 0, done_callback := none, done_data := 0 }
    response_len := 0
    invoked := []
    written := []
    annoyed := 0 }

/-- Assignment to `pending[i]`. -/
def set_slot (tbl : Nat → pending_request) (i : Nat) (p : pending_request) :
    Nat → pending_request :=
  fun j => if j = i then p else tbl j

/-- Record the invocation `callback (cmd, dec, data)`. -/
def invoke (s : State) (callback : Nat) (cmd : Int) (dec : Option (List Nat))
    (data : Nat) : State :=
  { s with invoked := s.invoked ++ [{ callback := callback, cmd := cmd, dec := dec, data := data }] }

/-- The external `annoy_user_with_log`: the user-visible failure notification. -/
def annoy_user_with_log (s : State) : State :=
  { s with annoyed := s.annoyed + 1 }

/-! ## The dispatch table -/

/-- The function `send_apt_worker_request`, lines 451-456. -/
def send_apt_worker_request (s : State) (cmd state seq : Int) (data : List Nat)
    (len : Int) (wr : List WriteEvent) : Option (Bool × State × List WriteEvent) :=
  let req : apt_header := { cmd := cmd, state := state, seq := seq, len := len }
  match must_write s.apt_worker_out_fd wr (header_bytes req) 16 s.written with
  | WriteOutcome.blocked => none
  | WriteOutcome.failed out rest => some (false, { s with written := out }, rest)
  | WriteOutcome.ok out rest =>
    match must_write s.apt_worker_out_fd rest data len out with
    | WriteOutcome.blocked => none
    | WriteOutcome.failed out2 rest2 => some (false, { s with written := out2 }, rest2)
    | WriteOutcome.ok out2 rest2 => some (true, { s with written := out2 }, rest2)

/-- The function `next_seq`, lines 458-463: `return seq++`. -/
def next_seq (s : State) : Int × State :=
  (s.seq, { s with seq := wrap32 (s.seq + 1) })

/-- The function `cancel_request`, lines 503-512. -/
def cancel_request (s : State) (cmd : Nat) : State :=
  let done_callback := (s.pending cmd).done_callback
  let done_data := (s.pending cmd).done_data
  let slot : pending_request := { s.pending cmd with done_callback := none }
  let s1 := { s with pending := set_slot s.pending cmd slot }
  match done_callback with
  | some cb => invoke s1 cb (cmd : Int) none done_data
  | none => s1

/-- The function `cancel_all_pending_requests`, lines 514-519. -/
def cancel_all_pending_requests (P : Proto) (s : State) : State :=
  (List.range P.APTCMD_MAX).foldl cancel_request s

/-- The function `notice_apt_worker_failure`, lines 381-395. -/
def notice_apt_worker_failure (P : Proto) (s : State) : State :=
  let s1 := { s with apt_worker_in_fd := -1, apt_worker_out_fd := -1, apt_worker_cancel_fd := -1 }
  annoy_user_with_log (cancel_all_pending_requests P s1)

/-- The function `call_apt_worker`, lines 473-501.  `done_callback` is a callable
function, `wr` the results of the write calls it may make. -/
def call_apt_worker (P : Proto) (s : State) (cmd state : Int) (data : List Nat) (len : Int)
    (done_callback : Nat) (done_data : Nat) (wr : List WriteEvent) :
    Except Fault (State × List WriteEvent) :=
  if ¬ (0 ≤ cmd ∧ cmd < (P.APTCMD_MAX : Int)) then Except.error Fault.assert_failed
  else if s.apt_worker_started = false then
    Except.ok (invoke s done_callback cmd none done_data, wr)
  else if (s.pending cmd.toNat).done_callback.isSome then
    Except.ok (invoke s done_callback cmd none done_data, wr)
  else
    let sq := (next_seq s).1
    let s1 := (next_seq s).2
    let slot : pending_request :=
      { seq := sq, done_callback := some done_callback, done_data := done_data }
    let s2 := { s1 with pending := set_slot s1.pending cmd.toNat slot }
    match send_apt_worker_request s2 cmd state (s2.pending cmd.toNat).seq data len wr with
    | none => Except.error Fault.blocked
    | some (true, s3, rest) => Except.ok (s3, rest)
    | some (false, s3, rest) => Except.ok (cancel_request (annoy_user_with_log s3) cmd.toNat, rest)

/-- Result of the reading part of `handle_one_apt_worker_response`; each case
carries the value of the static `response_len` and the read events left. -/
inductive FrameOutcome where
  | frame (res : apt_header) (payload : List Nat) (response_len : Int) (pipe : List ReadEvent)
  | failed (response_len : Int) (pipe : List ReadEvent)   -- a must_read returned false
  | blocked                                               -- a read call never returned
  | bad_length                                            -- res.len is negative
deriving DecidableEq, Repr

/-- Lines 535-556 of `handle_one_apt_worker_response`: read the 16-byte header,
grow the response buffer to `res.len` bytes if it is smaller, read `res.len`
payload bytes into it.  The allocation is taken to succeed.  A negative
`res.len` is outside the model (`bad_length`): converted to `size_t` it asks
`must_read` for more bytes than the buffer of `response_len` bytes holds. -/
def read_response (fd : Int) (response_len : Int) (pipe : List ReadEvent) : FrameOutcome :=
  match must_read fd pipe 16 with
  | ReadOutcome.blocked => FrameOutcome.blocked
  | ReadOutcome.failed rest => FrameOutcome.failed response_len rest
  | ReadOutcome.ok hdr rest =>
    let res := bytes_header hdr
    let response_len1 := if response_len < res.len then res.len else response_len
    if res.len < 0 then FrameOutcome.bad_length
    else
      match must_read fd rest res.len.toNat with
      | ReadOutcome.blocked => FrameOutcome.blocked
      | ReadOutcome.failed rest2 => FrameOutcome.failed response_len1 rest2
      | ReadOutcome.ok payload rest2 => FrameOutcome.frame res payload response_len1 rest2

/-- Lines 558-587 of `handle_one_apt_worker_response`: route a frame that was read
completely. -/
def dispatch_response (P : Proto) (s : State) (res : apt_header) (payload : List Nat) :
    Except Fault State :=
  let cmd := res.cmd
  if cmd < 0 ∨ cmd ≥ (P.APTCMD_MAX : Int) then Except.ok s
  else
    let dec : Option (List Nat) := some payload
    if cmd = (P.APTCMD_STATUS : Int) then
      match (s.pending cmd.toNat).done_callback with
      | some cb => Except.ok (invoke s cb cmd dec (s.pending cmd.toNat).done_data)
      | none => Except.ok s
    else if (s.pending cmd.toNat).seq ≠ res.seq then Except.ok s
    else
      let done_callback := (s.pending cmd.toNat).done_callback
      let slot : pending_request := { s.pending cmd.toNat with done_callback := none }
      let s1 := { s with pending := set_slot s.pending cmd.toNat slot }
      match done_callback with
      | none => Except.error Fault.assert_failed
      | some cb => Except.ok (invoke s1 cb cmd dec (s1.pending cmd.toNat).done_data)

/-- The function `handle_one_apt_worker_response`, lines 521-588.  The static
`running` is false at every entry because callbacks are recorded, not run, so
`assert (!running)` passes. -/
def handle_one_apt_worker_response (P : Proto) (s : State) (pipe : List ReadEvent) :
    Except Fault (State × List ReadEvent) :=
  match read_response s.apt_worker_in_fd s.response_len pipe with
  | FrameOutcome.blocked => Except.error Fault.blocked
  | FrameOutcome.bad_length => Except.error Fault.bad_length
  | FrameOutcome.failed rl rest =>
    Except.ok (notice_apt_worker_failure P { s with response_len := rl }, rest)
  | FrameOutcome.frame res payload rl rest =>
    match dispatch_response P { s with response_len := rl } res payload with
    | Except.error f => Except.error f
    | Except.ok s1 => Except.ok (s1, rest)

/-! ## Example values -/

/-- An example protocol: eight command kinds, kind 1 is the status kind. -/
def demo_proto : Proto := { APTCMD_MAX := 8, APTCMD_STATUS := 1 }

/-- An example state after a successful startup: commands 2 and 3 are
outstanding with sequence numbers 4 and 6, the next sequence number is 7. -/
def demo_state : State :=
  { apt_worker_out_fd := 3
    apt_worker_in_fd := 4
    apt_worker_cancel_fd := 5
    apt_worker_status_fd := 6
    apt_worker_started := true
    seq := 7
    pending := fun c =>
      if c = 2 then { seq := 4, done_callback := some 11, done_data := 5 }
      else if c = 3 then { seq := 6, done_callback := some 13, done_data := 7 }
      else { seq := 0, done_callback := none, done_data := 0 }
    response_len := 0
    invoked := []
    written := []
    annoyed := 0 }

/-! ## Read results, as the specification speaks of them -/

/-- The bytes that the read calls deliver before the first result that is not
positive (an error, an end of file, or an empty transfer), in arrival order. -/
def arrived : List ReadEvent → List Nat
  | ReadEvent.chunk (b :: bs) :: rest => (b :: bs) ++ arrived rest
  | _ => []

/-- Whether some read result is not positive, so that the reads do not just run
dry. -/
def interrupted : List ReadEvent → Bool
  | [] => false
  | ReadEvent.chunk (_ :: _) :: rest => interrupted rest
  | _ => true

/-! ## Runs of the dispatch table -/

/-- One event in the life of the dispatch table. -/
inductive Step where
  /-- A call `call_apt_worker (cmd, state, data, len, done_callback, _)`; `wr` is what
  the write calls it makes will find. -/
  | call (cmd state : Int) (data : List Nat) (len : Int) (done_callback : Nat)
      (wr : List WriteEvent)
  /-- A call of `handle_one_apt_worker_response`; `pipe` is what its read calls
  will find. -/
  | response (pipe : List ReadEvent)
  /-- A transport failure: `notice_apt_worker_failure`. -/
  | failure

/-- A state together with the record of the `call_apt_worker` calls made so far:
the command and the callback of each, in order. -/
structure Run where
  st : State
  issued : List (Int × Nat)

/-- One step of a run.  To tell the calls apart, the k-th `call_apt_worker` call of
a run (counting from 0) passes `done_data = k`. -/
def step (P : Proto) (r : Run) : Step → Except Fault Run
  | Step.call cmd state data len done_callback wr =>
    match call_apt_worker P r.st cmd state data len done_callback r.issued.length wr with
    | Except.ok (s, _) => Except.ok { st := s, issued := r.issued ++ [(cmd, done_callback)] }
    | Except.error f => Except.error f
  | Step.response pipe =>
    match handle_one_apt_worker_response P r.st pipe with
    | Except.ok (s, _) => Except.ok { st := s, issued := r.issued }
    | Except.error f => Except.error f
  | Step.failure => Except.ok { st := notice_apt_worker_failure P r.st, issued := r.issued }

/-- A run of several steps; it ends where a step does not return. -/
def run (P : Proto) : Run → List Step → Except Fault Run
  | r, [] => Except.ok r
  | r, e :: es =>
    match step P r e with
    | Except.ok r1 => run P r1 es
    | Except.error f => Except.error f

/-- How often the callback of call `k` has been invoked. -/
def times_invoked (invoked : List Invocation) (k : Nat) : Nat :=
  (invoked.filter (fun e => e.data = k)).length

/-- Whether the request of call `k`, a call for command `cmd`, occupies
`pending[cmd]`. -/
def occupies (pending : Nat → pending_request) (cmd : Int) (k : Nat) : Bool :=
  (pending cmd.toNat).done_callback.isSome && (pending cmd.toNat).done_data == k

/-- The invariant of the dispatch table along a run: an occupied slot holds the
callback and the number of a call made for its command; calls are for
non-status kinds; a call has been answered exactly once unless its request
occupies its slot, and then not at all; every invocation answers a call. -/
structure DispatchInv (P : Proto) (pending : Nat → pending_request)
    (invoked : List Invocation) (issued : List (Int × Nat)) : Prop where
  slot : ∀ (c cb : Nat), (pending c).done_callback = some cb →
    issued[(pending c).done_data]? = some ((c : Int), cb)
  kind : ∀ (k : Nat) (cmd : Int) (cb : Nat), issued[k]? = some (cmd, cb) → 0 ≤ cmd ∧ cmd ≠ (P.APTCMD_STATUS : Int)
  count : ∀ (k : Nat) (cmd : Int) (cb : Nat), issued[k]? = some (cmd, cb) →
    times_invoked invoked k = if occupies pending cmd k then 0 else 1
  answer : ∀ e ∈ invoked, issued[e.data]? = some (e.cmd, e.callback)

/-- The `call_apt_worker` calls among some steps: command and callback of each. -/
def calls_of : List Step → List (Int × Nat)
  | [] => []
  | Step.call cmd _ _ _ done_callback _ :: es => (cmd, done_callback) :: calls_of es
  | _ :: es => calls_of es

/-- An example state right after a successful startup: nothing outstanding. -/
def demo_started : State :=
  { initial_state with
      apt_worker_out_fd := 3
      apt_worker_in_fd := 4
      apt_worker_cancel_fd := 5
      apt_worker_status_fd := 6
      apt_worker_started := true }

/-- An example run: command 2 is sent; a second call for command 2 is rejected;
the write for command 3 fails; the reply to command 2 arrives; command 5 is
sent; the transport fails. -/
def demo_steps : List Step :=
  [Step.call 2 0 [97] 1 11 [WriteEvent.accept 16, WriteEvent.accept 1],
   Step.call 2 0 [] 0 12 [],
   Step.call 3 0 [] 0 13 [WriteEvent.error],
   Step.response [ReadEvent.chunk [2, 0, 0, 0, 0, 0, 0, 0, 0, 0, 0, 0, 1, 0, 0, 0, 98]],
   Step.call 5 0 [] 0 14 [WriteEvent.accept 16],
   Step.failure]

/-! ## The progress stream -/

/-- The bytes of the string "pmstatus:". -/
def pmstatus_tag : List Nat := [112, 109, 115, 116, 97, 116, 117, 115, 58]

/-- The bytes of the string "Working". -/
def working_title : List Nat := [87, 111, 114, 107, 105, 110, 103]

/-- The C string that starts at the first byte of a buffer: the bytes before the
first NUL. -/
def c_string (s : List Nat) : List Nat := s.takeWhile (fun b => b ≠ 0)

/-- The call `strchr (s, c)` on a C string, for a character `c` other than NUL:
the string from the first `c` on, or `none` for NULL. -/
def c_strchr : List Nat → Nat → Option (List Nat)
  | [], _ => none
  | b :: bs, c => if b = c then some (b :: bs) else c_strchr bs c

/-- The locals `(int) percentage` and `title` of `interpret_pmstatus (str)` when it
reaches its `set_progress` call, lines 83-98; `none` when it does not reach it.
The parameter `atof_int` stands for the C library: `atof_int s` is
`(int) (float) atof (s)`. -/
def interpret_pmstatus_locals (atof_int : List Nat → Int) (str0 : List Nat) :
    Option (Int × List Nat) :=
  let str := c_string str0
  if str.take 9 = pmstatus_tag then
    match c_strchr (str.drop 9) 58 with
    | none => none
    | some p =>
      let str2 := p.drop 1
      let percentage := atof_int str2
      match c_strchr str2 58 with
      | none => some (percentage, working_title)
      | some q => some (percentage, q.drop 1)
  else none

/-- The function `interpret_pmstatus`, lines 77-102.  `progress` records the calls
`set_progress (op_general, already, total)` as pairs `(already, total)`; the
local `title` is not passed on. -/
def interpret_pmstatus (atof_int : List Nat → Int) (progress : List (Int × Int))
    (str : List Nat) : List (Int × Int) :=
  match interpret_pmstatus_locals atof_int str with
  | some (percentage, _) => progress ++ [(percentage, 100)]
  | none => progress

/-- The state of the progress stream reader: the static `pmstatus_line`, whether
the channel is still open, and two observation fields: the arguments of the
`interpret_pmstatus` calls made and the `set_progress` calls made. -/
structure PmStatus where
  pmstatus_line : List Nat
  channel_up : Bool
  interpreted : List (List Nat)
  progress : List (Int × Int)
deriving DecidableEq, Repr

/-- The reader right after `setup_pmstatus_from_fd`: an empty `pmstatus_line`. -/
def pmstatus_fresh : PmStatus :=
  { pmstatus_line := [], channel_up := true, interpreted := [], progress := [] }

/-- The call `strchr (pmstatus_line->str, '\n')` as an offset: the position of the
first newline (byte 10) that comes before any NUL. -/
def line_end : (s : List Nat) → Option (Fin s.length)
  | [] => none
  | b :: bs =>
    if b = 10 then some ⟨0, Nat.succ_pos _⟩
    else if b = 0 then none
    else (line_end bs).map Fin.succ

/-- The loop of `read_pmstatus`, lines 114-119: while there is a newline, end the
string there, interpret it, and erase it with its newline. -/
def extract_lines (atof_int : List Nat → Int) (p : PmStatus) : PmStatus :=
  match line_end p.pmstatus_line with
  | none => p
  | some i =>
    extract_lines atof_int
      { p with
          pmstatus_line := p.pmstatus_line.drop (i.val + 1)
          interpreted := p.interpreted ++ [p.pmstatus_line.take i.val]
          progress := interpret_pmstatus atof_int p.progress (p.pmstatus_line.take i.val) }
termination_by p.pmstatus_line.length
decreasing_by
  have := i.isLt
  simp only [List.length_drop]
  omega

/-- Lines 113-120 of `read_pmstatus`: append the bytes read to `pmstatus_line` and
take out the complete lines. -/
def pmstatus_receive (atof_int : List Nat → Int) (p : PmStatus) (bytes : List Nat) :
    PmStatus :=
  extract_lines atof_int { p with pmstatus_line := p.pmstatus_line ++ bytes }

/-- The function `read_pmstatus`, lines 104-127, on status descriptor `fd`; `none`
when the read call does not return. -/
def read_pmstatus (atof_int : List Nat → Int) (fd : Int) (p : PmStatus)
    (pipe : List ReadEvent) : Option (Bool × PmStatus × List ReadEvent) :=
  match sys_read fd pipe 256 with
  | none => none
  | some (n, bytes, rest) =>
    if 0 < n then some (true, pmstatus_receive atof_int p bytes, rest)
    else some (false, { p with channel_up := false }, rest)

/-- The watch that `setup_pmstatus_from_fd` installs: up to `k` notifications, one
call of `read_pmstatus` each, until a call returns FALSE. -/
def pmstatus_watch (atof_int : List Nat → Int) (fd : Int) :
    Nat → PmStatus → List ReadEvent → PmStatus × List ReadEvent
  | 0, p, pipe => (p, pipe)
  | k + 1, p, pipe =>
    match read_pmstatus atof_int fd p pipe with
    | none => (p, pipe)
    | some (true, p1, rest) => pmstatus_watch atof_int fd k p1 rest
    | some (false, p1, rest) => (p1, rest)

/-- A byte string cut after each of its newlines; `cur` is the piece begun so
far. -/
def line_chunks_from : List Nat → List Nat → List (List Nat)
  | [], cur => if cur = [] then [] else [cur]
  | b :: bs, cur =>
    if b = 10 then (cur ++ [10]) :: line_chunks_from bs []
    else line_chunks_from bs (cur ++ [b])

/-- A byte string as its whole lines, each with its newline, and the
unterminated rest if there is one. -/
def line_chunks (s : List Nat) : List (List Nat) := line_chunks_from s []

/-- The newline-terminated lines of a byte string, without their newlines, and
the unterminated rest after the last newline; `cur` is the line begun so far. -/
def split_lines_from : List Nat → List Nat → List (List Nat) × List Nat
  | [], cur => ([], cur)
  | b :: bs, cur =>
    if b = 10 then (cur :: (split_lines_from bs []).1, (split_lines_from bs []).2)
    else split_lines_from bs (cur ++ [b])

/-- The value of a run of decimal digits (bytes 48 to 57). -/
def decimal_value (digits : List Nat) : Int :=
  digits.foldl (fun v d => 10 * v + ((d : Int) - 48)) 0

/-- An example of a C library on the strings of the protocol: the value of the
decimal digits a string starts with. -/
def leading_decimal (s : List Nat) : Int :=
  decimal_value (s.takeWhile (fun d => 48 ≤ d ∧ d ≤ 57))

/-- A status line `pmstatus:<token>:<percentage>[:<label>]`, given its token, the
digits of its percentage and its label, if it has one. -/
def status_line (token digits : List Nat) (label : Option (List Nat)) : List Nat :=
  pmstatus_tag ++ (token ++ 58 :: (digits ++
    match label with
    | none => []
    | some l => 58 :: l))

/-! ## The startup handshake -/

/-- The struct `try_apt_worker_closure`. -/
structure try_apt_worker_closure where
  start_step : Nat
  finished_cb : Option Nat
  finished_data : Nat
  tick_cb : Option Nat
  tick_data : Nat
  timeout_id : Nat
  rounds_passed : Nat
  stdout_fd : Int
  stderr_fd : Int
deriving DecidableEq, Repr

/-- The value of the macro `APT_WORKER_START_TIMEOUT`, in milliseconds. -/
def APT_WORKER_START_TIMEOUT : Nat := 3000

/-- The worker lifecycle: the globals, the closure that `start_closure` points to
while it is allocated (`none` before `new` and after `delete`), and three
observation fields: the `must_open` calls made, as the file opened (0 for
/tmp/apt-worker.to, 1 for /tmp/apt-worker.from, 2 for /tmp/apt-worker.status,
3 for /tmp/apt-worker.cancel) with the descriptor obtained, if any; the
arguments of the `finished_cb` invocations; the number of `tick_cb`
invocations. -/
structure Lifecycle where
  g : State
  closure : Option try_apt_worker_closure
  opened : List (Nat × Option Nat)
  finished : List Bool
  ticks : Nat

/-- The assignment of the result of `must_open` to the descriptor of a step,
lines 227, 233, 239 and 245. -/
def assign_fd (g : State) (step : Nat) (fd : Int) : State :=
  match step with
  | 0 => { g with apt_worker_out_fd := fd }
  | 1 => { g with apt_worker_in_fd := fd }
  | 2 => { g with apt_worker_status_fd := fd }
  | 3 => { g with apt_worker_cancel_fd := fd }
  | _ => g

/-- The descriptor of a step. -/
def fd_of (g : State) (step : Nat) : Int :=
  match step with
  | 0 => g.apt_worker_out_fd
  | 1 => g.apt_worker_in_fd
  | 2 => g.apt_worker_status_fd
  | 3 => g.apt_worker_cancel_fd
  | _ => -1

/-- The loop of `try_apt_worker_start`, lines 222-253.  `opens i` is what the
i-th `must_open` call of the process gets: a descriptor, or `none` when the
open fails and `must_open` returns -1.  The result is the new `start_step`,
the globals and the record of `must_open` calls. -/
def open_files (opens : Nat → Option Nat) (start_step : Nat) (g : State)
    (opened : List (Nat × Option Nat)) : Nat × State × List (Nat × Option Nat) :=
  if start_step < 4 then
    match opens opened.length with
    | some fd =>
      open_files opens (start_step + 1) (assign_fd g start_step (fd : Int))
        (opened ++ [(start_step, some fd)])
    | none => (start_step, assign_fd g start_step (-1), opened ++ [(start_step, none)])
  else (start_step, g, opened)
termination_by 4 - start_step
decreasing_by omega

/-- The function `try_apt_worker_start`, lines 215-296: the value returned and
the lifecycle it leaves.  `g_timeout_add` returns a positive source id, here 1.
The calls of `must_unlink`, `log_from_fd` and `setup_pmstatus_from_fd` change
nothing that is modelled here.  The function is called with an allocated
closure only (the timer is removed when it returns FALSE); without one the
model does nothing. -/
def try_apt_worker_start (opens : Nat → Option Nat) (w : Lifecycle) : Bool × Lifecycle :=
  match w.closure with
  | none => (false, w)
  | some closure =>
    let r := open_files opens closure.start_step w.g w.opened
    let closure1 := { closure with start_step := r.1 }
    if closure1.start_step = 4 then
      (false,
        { g := { r.2.1 with apt_worker_started := true }
          closure := none
          opened := r.2.2
          finished := if closure1.finished_cb.isSome then w.finished ++ [true] else w.finished
          ticks := w.ticks })
    else if closure1.timeout_id = 0 then
      (false,
        { g := r.2.1
          closure := some { closure1 with timeout_id := 1 }
          opened := r.2.2
          finished := w.finished
          ticks := w.ticks })
    else
      let closure2 := { closure1 with rounds_passed := closure1.rounds_passed + 100 }
      if closure2.rounds_passed > APT_WORKER_START_TIMEOUT then
        (false,
          { g := r.2.1
            closure := none
            opened := r.2.2
            finished := if closure2.finished_cb.isSome then w.finished ++ [false] else w.finished
            ticks := w.ticks })
      else
        (true,
          { g := r.2.1
            closure := some closure2
            opened := r.2.2
            finished := w.finished
            ticks := if closure2.tick_cb.isSome then w.ticks + 1 else w.ticks })

/-- The timeout source that `g_timeout_add (100, try_apt_worker_start, data)`
installs: up to `n` firings, 100 ms apart, until the function returns FALSE. -/
def timer_fires (opens : Nat → Option Nat) : Nat → Lifecycle → Lifecycle
  | 0, w => w
  | n + 1, w =>
    if (try_apt_worker_start opens w).1 then timer_fires opens n (try_apt_worker_start opens w).2
    else (try_apt_worker_start opens w).2

/-- The function `start_apt_worker`, lines 298-368.  `mkfifo_ok i` tells whether
the i-th `must_mkfifo` succeeds, `spawn` is the pair of descriptors that
`g_spawn_async_with_pipes` gives, or `none` when it fails.  Which wrapper and
which options the worker is spawned with changes nothing that is modelled
here. -/
def start_apt_worker (mkfifo_ok : Nat → Bool) (spawn : Option (Int × Int))
    (opens : Nat → Option Nat) (finished_cb : Option Nat) (finished_data : Nat)
    (tick_cb : Option Nat) (tick_data : Nat) (w : Lifecycle) : Bool × Lifecycle :=
  if !mkfifo_ok 0 || !mkfifo_ok 1 || !mkfifo_ok 2 || !mkfifo_ok 3 then (false, w)
  else
    match spawn with
    | none => (false, w)
    | some (stdout_fd, stderr_fd) =>
      let start_closure : try_apt_worker_closure :=
        { start_step := 0
          finished_cb := finished_cb
          finished_data := finished_data
          tick_cb := tick_cb
          tick_data := tick_data
          timeout_id := 0
          rounds_passed := 0
          stdout_fd := stdout_fd
          stderr_fd := stderr_fd }
      (true, (try_apt_worker_start opens { w with closure := some start_closure }).2)

/-- The function `apt_worker_set_status_callback`, lines 592-597. -/
def apt_worker_set_status_callback (P : Proto) (s : State) (callback : Option Nat)
    (data : Nat) : State :=
  let slot : pending_request :=
    { s.pending P.APTCMD_STATUS with done_callback := callback, done_data := data }
  { s with pending := set_slot s.pending P.APTCMD_STATUS slot }

/-- The lifecycle at program start. -/
def lifecycle_start : Lifecycle :=
  { g := initial_state, closure := none, opened := [], finished := [], ticks := 0 }

/-- The files that have been opened successfully, in the order of their opens. -/
def successes (opened : List (Nat × Option Nat)) : List Nat :=
  opened.filterMap (fun a => if a.2.isSome then some a.1 else none)

/-- The invariant of the handshake: a file is opened only when the files opened
successfully so far are exactly the ones before it, in order; a descriptor
obtained stays in its global; `start_step` counts the successful opens; the
started flag and `finished_cb (TRUE)` come only after all four. -/
structure LifecycleInv (w : Lifecycle) : Prop where
  order : ∀ (i k : Nat) (res : Option Nat), w.opened[i]? = some (k, res) →
    k < 4 ∧ successes (w.opened.take i) = List.range k
  count : successes w.opened = List.range (successes w.opened).length ∧
    (successes w.opened).length ≤ 4
  fds : ∀ (k fd : Nat), (k, some fd) ∈ w.opened → fd_of w.g k = (fd : Int)
  step : ∀ c, w.closure = some c → c.start_step = (successes w.opened).length
  started : w.g.apt_worker_started = true → successes w.opened = [0, 1, 2, 3]
  reported : true ∈ w.finished → successes w.opened = [0, 1, 2, 3]

/-- How many of the first `n` `must_open` calls of the process succeed. -/
def open_count (opens : Nat → Option Nat) : Nat → Nat
  | 0 => 0
  | n + 1 => open_count opens n + (if (opens n).isSome then 1 else 0)

/-- A handshake that is waiting for its timer: the closure is allocated with both
callbacks set and the timer installed, `finished_cb` has not been invoked, and
the record of opens agrees with what the opens give. -/
structure HandshakeWaiting (opens : Nat → Option Nat) (w : Lifecycle) (rounds ticks : Nat) :
    Prop where
  inv : LifecycleInv w
  counted : (successes w.opened).length = open_count opens w.opened.length
  live : ∃ c, w.closure = some c ∧ c.timeout_id ≠ 0 ∧ c.rounds_passed = rounds ∧
    c.finished_cb.isSome = true ∧ c.tick_cb.isSome = true
  ticked : w.ticks = ticks
  silent : w.finished = []
  idle : w.g.apt_worker_started = false

/-- A run of the handshake from program start: `start_apt_worker`, whose initial
attempt is the direct call of `try_apt_worker_start`, and then `n` firings of
the timer. -/
def handshake_run (mkfifo_ok : Nat → Bool) (spawn : Option (Int × Int))
    (opens : Nat → Option Nat) (finished_cb : Option Nat) (finished_data : Nat)
    (tick_cb : Option Nat) (tick_data : Nat) (n : Nat) : Lifecycle :=
  timer_fires opens n (start_apt_worker mkfifo_ok spawn opens finished_cb finished_data tick_cb
    tick_data lifecycle_start).2

/-- Example open outcomes: the first open gives descriptor 7, every later open
fails. -/
def demo_opens : Nat → Option Nat := fun i => if i = 0 then some 7 else none

/-- The example state `demo_started` after command 2 was sent with sequence
number 0 for callback 11 with context 5. -/
def demo_sent : State :=
  { demo_started with
      seq := 1
      pending := set_slot demo_started.pending 2
        { seq := 0, done_callback := some 11, done_data := 5 }
      written := [2, 0, 0, 0, 0, 0, 0, 0, 0, 0, 0, 0, 0, 0, 0, 0] }

/-- The example state `demo_sent` after command 3 was sent, too, with sequence
number 1 for callback 13 with context 7. -/
def demo_sent_twice : State :=
  { demo_sent with
      seq := 2
      pending := set_slot demo_sent.pending 3
        { seq := 1, done_callback := some 13, done_data := 7 }
      written := [2, 0, 0, 0, 0, 0, 0, 0, 0, 0, 0, 0, 0, 0, 0, 0,
                  3, 0, 0, 0, 0, 0, 0, 0, 1, 0, 0, 0, 0, 0, 0, 0] }

/-! ## Blocking reads: basic facts -/

theorem sys_read_length (fd : Int) (pipe : List ReadEvent) (n : Nat) (r : Int)
    (bs : List Nat) (rest : List ReadEvent) (h : sys_read fd pipe n = some (r, bs, rest))
    (hr : 0 < r) : (bs.length : Int) = r ∧ r ≤ (n : Int) := by
  unfold sys_read at h
  split at h
  · simp at h; omega
  · split at h
    · simp at h
    · simp at h; omega
    · simp at h; omega
    · split at h
      · simp at h
        obtain ⟨h1, h2, _⟩ := h
        subst h2; omega
      · simp at h
        obtain ⟨h1, h2, _⟩ := h
        subst h2
        simp [List.length_take]; omega

theorem must_read_loop_length (fd : Int) (n : Nat) : ∀ (pipe : List ReadEvent)
    (got buf : List Nat) (rest : List ReadEvent),
    must_read_loop fd pipe n got = ReadOutcome.ok buf rest → buf.length = got.length + n := by
  induction n using Nat.strong_induction_on with
  | _ n ih =>
    intro pipe got buf rest h
    rw [must_read_loop] at h
    split at h
    · rename_i hn
      split at h
      · simp at h
      · rename_i r bs rest1 hs
        split at h
        · simp at h
        · split at h
          · simp at h
          · rename_i h1 h2
            have hr : 0 < r := by omega
            obtain ⟨hl, hle⟩ := sys_read_length fd pipe n r bs rest1 hs hr
            have := ih (n - r.toNat) (by omega) rest1 (got ++ bs) buf rest h
            rw [this, List.length_append]
            omega
    · simp at h
      obtain ⟨h1, _⟩ := h
      subst h1; omega

theorem must_read_length (fd : Int) (pipe : List ReadEvent) (n : Nat) (buf : List Nat)
    (rest : List ReadEvent) (h : must_read fd pipe n = ReadOutcome.ok buf rest) :
    buf.length = n := by
  have := must_read_loop_length fd n pipe [] buf rest h
  simpa using this

/-- A frame that `read_response` delivers carries exactly `res.len` payload bytes. -/
theorem read_response_frame (fd : Int) (rl : Int) (pipe : List ReadEvent) (res : apt_header)
    (payload : List Nat) (rl1 : Int) (rest : List ReadEvent)
    (h : read_response fd rl pipe = FrameOutcome.frame res payload rl1 rest) :
    ∃ hdr mid, must_read fd pipe 16 = ReadOutcome.ok hdr mid ∧ res = bytes_header hdr ∧
      0 ≤ res.len ∧ must_read fd mid res.len.toNat = ReadOutcome.ok payload rest ∧
      (payload.length : Int) = res.len := by
  unfold read_response at h
  split at h
  · simp at h
  · simp at h
  · rename_i hdr mid hh
    simp only at h
    split at h
    · simp at h
    · rename_i hlen
      split at h
      · simp at h
      · simp at h
      · rename_i payload1 rest2 hp
        simp only [FrameOutcome.frame.injEq] at h
        obtain ⟨h1, h2, h3, h4⟩ := h
        subst h1 h2 h4
        refine ⟨hdr, mid, hh, rfl, by omega, hp, ?_⟩
        have := must_read_length fd mid _ _ _ hp
        omega

/-! ## Local rejection -/

/-- The two rejecting branches of `call_apt_worker`. -/
theorem call_apt_worker_rejected (P : Proto) (s : State) (cmd state : Int)
    (data : List Nat) (len : Int) (cb ctx : Nat) (wr : List WriteEvent)
    (hcmd : 0 ≤ cmd ∧ cmd < (P.APTCMD_MAX : Int))
    (hrej : s.apt_worker_started = false ∨ (s.pending cmd.toNat).done_callback ≠ none) :
    call_apt_worker P s cmd state data len cb ctx wr =
      Except.ok (invoke s cb cmd none ctx, wr) := by
  rcases hrej with h | h
  · simp [call_apt_worker, hcmd, h]
  · have hsome : (s.pending cmd.toNat).done_callback.isSome = true := by
      cases h1 : (s.pending cmd.toNat).done_callback with
      | none => exact absurd h1 h
      | some _ => rfl
    by_cases hst : s.apt_worker_started = false
    · simp [call_apt_worker, hcmd, hst]
    · simp [call_apt_worker, hcmd, hst, hsome]

/-- C2: when the worker has started and the slot of `cmd` is occupied,
`call_apt_worker` invokes the new callback once with a NULL decoder and the new
`done_data`, makes no write call, writes no byte, keeps the sequence counter,
and leaves the whole pending table as it was. -/
theorem call_apt_worker_slot_occupied (P : Proto) (s : State) (cmd state : Int)
    (data : List Nat) (len : Int) (done_callback done_data : Nat) (wr : List WriteEvent)
    (hcmd : 0 ≤ cmd ∧ cmd < (P.APTCMD_MAX : Int))
    (hstarted : s.apt_worker_started = true)
    (hocc : (s.pending cmd.toNat).done_callback ≠ none) :
    ∃ s1, call_apt_worker P s cmd state data len done_callback done_data wr = Except.ok (s1, wr) ∧
      s1.invoked = s.invoked ++
        [{ callback := done_callback, cmd := cmd, dec := none, data := done_data }] ∧
      s1.written = s.written ∧ s1.seq = s.seq ∧ s1.pending = s.pending := by
  have hsome : (s.pending cmd.toNat).done_callback.isSome = true := by
    cases h : (s.pending cmd.toNat).done_callback with
    | none => exact absurd h hocc
    | some _ => rfl
  refine ⟨invoke s done_callback cmd none done_data, ?_, rfl, rfl, rfl, rfl⟩
  simp [call_apt_worker, hcmd, hstarted, hsome]

/-- Witness for C2: command 2 is issued while command 2 is outstanding. -/
theorem call_apt_worker_slot_occupied_witness :
    ∃ s1, call_apt_worker { APTCMD_MAX := 8, APTCMD_STATUS := 1 }
        { initial_state with
            apt_worker_started := true
            pending := set_slot initial_state.pending 2
              { seq := 4, done_callback := some 11, done_data := 5 } }
        2 0 [1, 2] 2 12 6 [WriteEvent.accept 100] =
          Except.ok (s1, [WriteEvent.accept 100]) ∧
      s1.invoked = [{ callback := 12, cmd := 2, dec := none, data := 6 }] ∧
      s1.written = [] ∧ s1.seq = 0 ∧
      s1.pending = set_slot initial_state.pending 2
        { seq := 4, done_callback := some 11, done_data := 5 } :=
  call_apt_worker_slot_occupied { APTCMD_MAX := 8, APTCMD_STATUS := 1 }
    { initial_state with
        apt_worker_started := true
        pending := set_slot initial_state.pending 2
          { seq := 4, done_callback := some 11, done_data := 5 } }
    2 0 [1, 2] 2 12 6 [WriteEvent.accept 100] (by decide) rfl (by simp [set_slot])

/-- C3: when the worker has not started, `call_apt_worker` invokes the callback
once as `cb (cmd, NULL, ctx)`, makes no write call, writes no byte, and leaves
the pending table and the sequence counter as they were. -/
theorem call_apt_worker_not_started (P : Proto) (s : State) (cmd state : Int)
    (data : List Nat) (len : Int) (cb ctx : Nat) (wr : List WriteEvent)
    (hcmd : 0 ≤ cmd ∧ cmd < (P.APTCMD_MAX : Int))
    (hstarted : s.apt_worker_started = false) :
    ∃ s1, call_apt_worker P s cmd state data len cb ctx wr = Except.ok (s1, wr) ∧
      s1.invoked = s.invoked ++ [{ callback := cb, cmd := cmd, dec := none, data := ctx }] ∧
      s1.written = s.written ∧ s1.pending = s.pending ∧ s1.seq = s.seq := by
  refine ⟨invoke s cb cmd none ctx, ?_, rfl, rfl, rfl, rfl⟩
  simp [call_apt_worker, hcmd, hstarted]

/-- Witness for C3: command 7 with state 1 is issued before startup. -/
theorem call_apt_worker_not_started_witness :
    ∃ s1, call_apt_worker { APTCMD_MAX := 8, APTCMD_STATUS := 1 } initial_state
        7 1 [104, 105] 2 12 6 [WriteEvent.accept 100] =
          Except.ok (s1, [WriteEvent.accept 100]) ∧
      s1.invoked = [{ callback := 12, cmd := 7, dec := none, data := 6 }] ∧
      s1.written = [] ∧ s1.pending = initial_state.pending ∧ s1.seq = 0 :=
  call_apt_worker_not_started { APTCMD_MAX := 8, APTCMD_STATUS := 1 } initial_state
    7 1 [104, 105] 2 12 6 [WriteEvent.accept 100] (by decide) rfl


/-! ## Response dispatch -/

/-- C4: a completely read response frame for a non-status kind whose slot is
occupied and whose sequence number equals the stored one clears that slot,
invokes the stored callback once with the stored `done_data` and a decoder over
exactly the `res.len` payload bytes, and leaves every other slot unchanged. -/
theorem handle_response_delivers (P : Proto) (s : State) (pipe : List ReadEvent)
    (res : apt_header) (payload : List Nat) (rl : Int) (rest : List ReadEvent) (cb : Nat)
    (hread : read_response s.apt_worker_in_fd s.response_len pipe =
      FrameOutcome.frame res payload rl rest)
    (hcmd : 0 ≤ res.cmd ∧ res.cmd < (P.APTCMD_MAX : Int))
    (hkind : res.cmd ≠ (P.APTCMD_STATUS : Int))
    (hocc : (s.pending res.cmd.toNat).done_callback = some cb)
    (hseq : res.seq = (s.pending res.cmd.toNat).seq) :
    ∃ s1, handle_one_apt_worker_response P s pipe = Except.ok (s1, rest) ∧
      (s1.pending res.cmd.toNat).done_callback = none ∧
      s1.invoked = s.invoked ++ [{ callback := cb, cmd := res.cmd, dec := some payload,
                                   data := (s.pending res.cmd.toNat).done_data }] ∧
      (payload.length : Int) = res.len ∧
      ∀ c, c ≠ res.cmd.toNat → s1.pending c = s.pending c := by
  obtain ⟨_, _, _, _, _, _, hlen⟩ := read_response_frame _ _ _ _ _ _ _ hread
  have h1 : ¬ (res.cmd < 0 ∨ res.cmd ≥ (P.APTCMD_MAX : Int)) := by omega
  refine ⟨invoke { s with
      response_len := rl
      pending := set_slot s.pending res.cmd.toNat
        { s.pending res.cmd.toNat with done_callback := none } }
    cb res.cmd (some payload) (s.pending res.cmd.toNat).done_data, ?_, ?_, ?_, hlen, ?_⟩
  · simp [handle_one_apt_worker_response, hread, dispatch_response, h1, hkind, hseq, hocc,
      set_slot]
  · simp [invoke, set_slot]
  · simp [invoke]
  · intro c hc
    simp [invoke, set_slot, hc]

/-- Witness for C4: the frame (cmd 2, state 0, seq 4, len 3, payload 97 98 99)
arrives in two pieces while command 2 is outstanding with sequence number 4. -/
theorem handle_response_delivers_witness :
    ∃ s1, handle_one_apt_worker_response { APTCMD_MAX := 8, APTCMD_STATUS := 1 }
        { initial_state with
            apt_worker_in_fd := 4
            apt_worker_started := true
            pending := set_slot initial_state.pending 2
              { seq := 4, done_callback := some 11, done_data := 5 } }
        [ReadEvent.chunk [2, 0, 0, 0, 0, 0, 0, 0, 4, 0], ReadEvent.chunk [0, 0, 3, 0, 0, 0, 97, 98],
         ReadEvent.chunk [99]] = Except.ok (s1, []) ∧
      (s1.pending (2 : Int).toNat).done_callback = none ∧
      s1.invoked = [] ++ [{ callback := 11, cmd := 2, dec := some [97, 98, 99], data := 5 }] ∧
      (([97, 98, 99] : List Nat).length : Int) = 3 ∧
      ∀ c, c ≠ (2 : Int).toNat → s1.pending c =
        set_slot initial_state.pending 2 { seq := 4, done_callback := some 11, done_data := 5 } c :=
  handle_response_delivers { APTCMD_MAX := 8, APTCMD_STATUS := 1 }
    { initial_state with
        apt_worker_in_fd := 4
        apt_worker_started := true
        pending := set_slot initial_state.pending 2
          { seq := 4, done_callback := some 11, done_data := 5 } }
    [ReadEvent.chunk [2, 0, 0, 0, 0, 0, 0, 0, 4, 0], ReadEvent.chunk [0, 0, 3, 0, 0, 0, 97, 98],
     ReadEvent.chunk [99]]
    { cmd := 2, state := 0, seq := 4, len := 3 } [97, 98, 99] 3 [] 11
    (by simp [read_response, must_read, must_read_loop, sys_read, initial_state, bytes_header,
          bytes_int32, wrap32])
    (by decide) (by decide) (by simp [set_slot]) (by simp [set_slot])

/-- C5: a completely read response frame whose command id is out of range, or
whose command is an in-range non-status kind with a sequence number different
from the stored one, invokes no callback, leaves the whole pending table, the
descriptors and the started flag as they were and raises no notification. -/
theorem handle_response_anomaly_dropped (P : Proto) (s : State) (pipe : List ReadEvent)
    (res : apt_header) (payload : List Nat) (rl : Int) (rest : List ReadEvent)
    (hread : read_response s.apt_worker_in_fd s.response_len pipe =
      FrameOutcome.frame res payload rl rest)
    (hanomaly : (res.cmd < 0 ∨ res.cmd ≥ (P.APTCMD_MAX : Int)) ∨
      (res.cmd ≠ (P.APTCMD_STATUS : Int) ∧ res.seq ≠ (s.pending res.cmd.toNat).seq)) :
    ∃ s1, handle_one_apt_worker_response P s pipe = Except.ok (s1, rest) ∧
      s1.invoked = s.invoked ∧ s1.pending = s.pending ∧
      s1.apt_worker_in_fd = s.apt_worker_in_fd ∧ s1.apt_worker_out_fd = s.apt_worker_out_fd ∧
      s1.apt_worker_cancel_fd = s.apt_worker_cancel_fd ∧
      s1.apt_worker_status_fd = s.apt_worker_status_fd ∧
      s1.apt_worker_started = s.apt_worker_started ∧ s1.annoyed = s.annoyed := by
  refine ⟨{ s with response_len := rl }, ?_, rfl, rfl, rfl, rfl, rfl, rfl, rfl, rfl⟩
  rcases hanomaly with h | ⟨hk, hs⟩
  · simp [handle_one_apt_worker_response, hread, dispatch_response, h]
  · by_cases h : res.cmd < 0 ∨ res.cmd ≥ (P.APTCMD_MAX : Int)
    · simp [handle_one_apt_worker_response, hread, dispatch_response, h]
    · have hs1 : ¬ (s.pending res.cmd.toNat).seq = res.seq := fun e => hs e.symm
      simp [handle_one_apt_worker_response, hread, dispatch_response, h, hk, hs1]

/-- Witness for C5: a reply with sequence number 3 arrives while command 2 is
outstanding with sequence number 4. -/
theorem handle_response_anomaly_dropped_witness :
    ∃ s1, handle_one_apt_worker_response { APTCMD_MAX := 8, APTCMD_STATUS := 1 }
        { initial_state with
            apt_worker_in_fd := 4
            apt_worker_started := true
            pending := set_slot initial_state.pending 2
              { seq := 4, done_callback := some 11, done_data := 5 } }
        [ReadEvent.chunk [2, 0, 0, 0, 0, 0, 0, 0, 3, 0, 0, 0, 1, 0, 0, 0, 97]] =
          Except.ok (s1, []) ∧
      s1.invoked = [] ∧
      s1.pending = set_slot initial_state.pending 2
        { seq := 4, done_callback := some 11, done_data := 5 } ∧
      s1.apt_worker_in_fd = 4 ∧ s1.apt_worker_out_fd = -1 ∧ s1.apt_worker_cancel_fd = -1 ∧
      s1.apt_worker_status_fd = -1 ∧ s1.apt_worker_started = true ∧ s1.annoyed = 0 :=
  handle_response_anomaly_dropped { APTCMD_MAX := 8, APTCMD_STATUS := 1 }
    { initial_state with
        apt_worker_in_fd := 4
        apt_worker_started := true
        pending := set_slot initial_state.pending 2
          { seq := 4, done_callback := some 11, done_data := 5 } }
    [ReadEvent.chunk [2, 0, 0, 0, 0, 0, 0, 0, 3, 0, 0, 0, 1, 0, 0, 0, 97]]
    { cmd := 2, state := 0, seq := 3, len := 1 } [97] 1 []
    (by simp [read_response, must_read, must_read_loop, sys_read, initial_state, bytes_header,
          bytes_int32, wrap32])
    (Or.inr ⟨by decide, by simp [set_slot]⟩)

/-! ## Cancellation and the failure supervisor -/

/-- The invocation that cancelling slot `c` of table `tbl` makes, if any. -/
theorem cancel_request_invoked (s : State) (c : Nat) :
    (cancel_request s c).invoked = s.invoked ++
      ((s.pending c).done_callback.map fun cb =>
        ({ callback := cb, cmd := (c : Int), dec := none,
           data := (s.pending c).done_data } : Invocation)).toList := by
  unfold cancel_request
  cases h : (s.pending c).done_callback <;> simp [invoke]

theorem cancel_request_pending (s : State) (c : Nat) :
    (cancel_request s c).pending =
      set_slot s.pending c { s.pending c with done_callback := none } := by
  unfold cancel_request
  cases h : (s.pending c).done_callback <;> simp [invoke]

theorem cancel_request_frame (s : State) (c : Nat) :
    (cancel_request s c).apt_worker_out_fd = s.apt_worker_out_fd ∧
    (cancel_request s c).apt_worker_in_fd = s.apt_worker_in_fd ∧
    (cancel_request s c).apt_worker_cancel_fd = s.apt_worker_cancel_fd ∧
    (cancel_request s c).apt_worker_status_fd = s.apt_worker_status_fd ∧
    (cancel_request s c).apt_worker_started = s.apt_worker_started ∧
    (cancel_request s c).seq = s.seq ∧
    (cancel_request s c).response_len = s.response_len ∧
    (cancel_request s c).written = s.written ∧
    (cancel_request s c).annoyed = s.annoyed := by
  unfold cancel_request
  cases h : (s.pending c).done_callback <;> simp [invoke]

/-- Cancelling the slots `cs` (pairwise different) one after the other. -/
theorem foldl_cancel_request (cs : List Nat) (hnd : cs.Nodup) : ∀ s : State,
    (cs.foldl cancel_request s).invoked = s.invoked ++
      cs.filterMap (fun c => (s.pending c).done_callback.map fun cb =>
        ({ callback := cb, cmd := (c : Int), dec := none,
           data := (s.pending c).done_data } : Invocation)) ∧
    (∀ c, (cs.foldl cancel_request s).pending c =
      if c ∈ cs then { s.pending c with done_callback := none } else s.pending c) ∧
    (cs.foldl cancel_request s).apt_worker_out_fd = s.apt_worker_out_fd ∧
    (cs.foldl cancel_request s).apt_worker_in_fd = s.apt_worker_in_fd ∧
    (cs.foldl cancel_request s).apt_worker_cancel_fd = s.apt_worker_cancel_fd ∧
    (cs.foldl cancel_request s).apt_worker_status_fd = s.apt_worker_status_fd ∧
    (cs.foldl cancel_request s).apt_worker_started = s.apt_worker_started ∧
    (cs.foldl cancel_request s).seq = s.seq ∧
    (cs.foldl cancel_request s).response_len = s.response_len ∧
    (cs.foldl cancel_request s).written = s.written ∧
    (cs.foldl cancel_request s).annoyed = s.annoyed := by
  induction cs with
  | nil => intro s; simp
  | cons c cs ih =>
    intro s
    have hc : c ∉ cs := (List.nodup_cons.mp hnd).1
    obtain ⟨i1, i2, i3, i4, i5, i6, i7, i8, i9, i10, i11⟩ :=
      ih (List.nodup_cons.mp hnd).2 (cancel_request s c)
    obtain ⟨f1, f2, f3, f4, f5, f6, f7, f8, f9⟩ := cancel_request_frame s c
    have hp := cancel_request_pending s c
    have hsame : ∀ d ∈ cs, (cancel_request s c).pending d = s.pending d := by
      intro d hd
      have : d ≠ c := fun e => hc (e ▸ hd)
      simp [hp, set_slot, this]
    refine ⟨?_, ?_, ?_, ?_, ?_, ?_, ?_, ?_, ?_, ?_, ?_⟩
    · simp only [List.foldl_cons, i1, cancel_request_invoked, List.filterMap_cons,
        List.append_assoc]
      congr 1
      have hfm : cs.filterMap (fun d => (((cancel_request s c).pending d).done_callback.map
            fun cb => (⟨cb, (d : Int), none,
              ((cancel_request s c).pending d).done_data⟩ : Invocation))) =
          cs.filterMap (fun d => ((s.pending d).done_callback.map
            fun cb => (⟨cb, (d : Int), none, (s.pending d).done_data⟩ : Invocation))) := by
        apply List.filterMap_congr
        intro d hd
        rw [hsame d hd]
      rw [hfm]
      cases h : (s.pending c).done_callback <;> simp
    · intro d
      simp only [List.foldl_cons, i2, List.mem_cons]
      by_cases hdc : d = c
      · subst hdc
        simp [hc, hp, set_slot]
      · by_cases hd : d ∈ cs
        · simp [hd, hdc, hsame d hd]
        · simp [hd, hdc, hp, set_slot]
    all_goals simp only [List.foldl_cons, *]

/-- Every field of the state that `notice_apt_worker_failure` leaves. -/
theorem notice_apt_worker_failure_fields (P : Proto) (s : State) :
    (notice_apt_worker_failure P s).invoked = s.invoked ++
      (List.range P.APTCMD_MAX).filterMap (fun c => (s.pending c).done_callback.map fun cb =>
        ({ callback := cb, cmd := (c : Int), dec := none,
           data := (s.pending c).done_data } : Invocation)) ∧
    (∀ c, (notice_apt_worker_failure P s).pending c =
      if c < P.APTCMD_MAX then { s.pending c with done_callback := none } else s.pending c) ∧
    (notice_apt_worker_failure P s).apt_worker_out_fd = -1 ∧
    (notice_apt_worker_failure P s).apt_worker_in_fd = -1 ∧
    (notice_apt_worker_failure P s).apt_worker_cancel_fd = -1 ∧
    (notice_apt_worker_failure P s).apt_worker_status_fd = s.apt_worker_status_fd ∧
    (notice_apt_worker_failure P s).apt_worker_started = s.apt_worker_started ∧
    (notice_apt_worker_failure P s).seq = s.seq ∧
    (notice_apt_worker_failure P s).response_len = s.response_len ∧
    (notice_apt_worker_failure P s).written = s.written ∧
    (notice_apt_worker_failure P s).annoyed = s.annoyed + 1 := by
  obtain ⟨i1, i2, i3, i4, i5, i6, i7, i8, i9, i10, i11⟩ :=
    foldl_cancel_request (List.range P.APTCMD_MAX) (List.nodup_range _)
      { s with apt_worker_in_fd := -1, apt_worker_out_fd := -1, apt_worker_cancel_fd := -1 }
  simp only [List.mem_range] at i2
  refine ⟨?_, ?_, ?_, ?_, ?_, ?_, ?_, ?_, ?_, ?_, ?_⟩ <;>
    simp only [notice_apt_worker_failure, annoy_user_with_log, cancel_all_pending_requests]
  · exact i1
  · exact i2
  · exact i3
  · exact i4
  · exact i5
  · exact i6
  · exact i7
  · exact i8
  · exact i9
  · exact i10
  · rw [i11]

/-- The invocations for one slot among those that cancelling the slots `cs`
(pairwise different) makes: one if the slot is among them and occupied. -/
theorem cancelled_per_slot (tbl : Nat → pending_request) (c : Nat) (cs : List Nat)
    (hnd : cs.Nodup) :
    (cs.filterMap (fun d => (tbl d).done_callback.map fun cb =>
        ({ callback := cb, cmd := (d : Int), dec := none,
           data := (tbl d).done_data } : Invocation))).filter (fun e => e.cmd = (c : Int)) =
      if c ∈ cs then
        ((tbl c).done_callback.map fun cb =>
          ({ callback := cb, cmd := (c : Int), dec := none,
             data := (tbl c).done_data } : Invocation)).toList
      else [] := by
  induction cs with
  | nil => simp
  | cons a cs ih =>
    have ha : a ∉ cs := (List.nodup_cons.mp hnd).1
    have ih1 := ih (List.nodup_cons.mp hnd).2
    by_cases hac : a = c
    · subst hac
      simp only [ha, if_false] at ih1
      cases hcb : (tbl a).done_callback <;>
        simp [List.filterMap_cons, hcb, List.filter_cons, ih1]
    · have hca : ¬ c = a := fun e => hac e.symm
      have hne : ¬ ((a : Int) = (c : Int)) := by omega
      cases hcb : (tbl a).done_callback <;>
        simp [List.filterMap_cons, hcb, List.filter_cons, ih1, hca, hne]

/-- C6: on a transport failure (a `must_read` of `handle_one_apt_worker_response`
returns false, so that `notice_apt_worker_failure` runs) the stored callback of
every occupied slot is invoked exactly once, with a NULL decoder and the stored
`done_data`, no callback is invoked for an unoccupied slot, afterwards every
slot is unoccupied, and the in, out and cancel descriptors are -1. -/
theorem transport_failure_cancels_all (P : Proto) (s : State) (pipe rest : List ReadEvent)
    (rl : Int)
    (hfail : read_response s.apt_worker_in_fd s.response_len pipe =
      FrameOutcome.failed rl rest) :
    ∃ s1 new, handle_one_apt_worker_response P s pipe = Except.ok (s1, rest) ∧
      s1 = notice_apt_worker_failure P { s with response_len := rl } ∧
      s1.invoked = s.invoked ++ new ∧
      (∀ c, c < P.APTCMD_MAX → new.filter (fun e => e.cmd = (c : Int)) =
        ((s.pending c).done_callback.map fun cb =>
          ({ callback := cb, cmd := (c : Int), dec := none,
             data := (s.pending c).done_data } : Invocation)).toList) ∧
      (∀ e ∈ new, ∃ c, c < P.APTCMD_MAX ∧ e.cmd = (c : Int)) ∧
      (∀ c, c < P.APTCMD_MAX → (s1.pending c).done_callback = none) ∧
      s1.apt_worker_in_fd = -1 ∧ s1.apt_worker_out_fd = -1 ∧ s1.apt_worker_cancel_fd = -1 := by
  obtain ⟨i1, i2, i3, i4, i5, _⟩ :=
    notice_apt_worker_failure_fields P { s with response_len := rl }
  refine ⟨_, _, ?_, rfl, i1, ?_, ?_, ?_, i4, i3, i5⟩
  · simp [handle_one_apt_worker_response, hfail]
  · intro c hc
    have := cancelled_per_slot s.pending c (List.range P.APTCMD_MAX) (List.nodup_range _)
    simp only [List.mem_range, hc, if_true] at this
    exact this
  · intro e he
    simp only [List.mem_filterMap, List.mem_range, Option.map_eq_some'] at he
    obtain ⟨c, hc, cb, _, hcb⟩ := he
    exact ⟨c, hc, by rw [← hcb]⟩
  · intro c hc
    rw [i2 c]
    simp [hc]

/-- Witness for C6: the worker closes the inbound pipe while commands 2 and 3
are outstanding. -/
theorem transport_failure_cancels_all_witness :
    ∃ s1 new, handle_one_apt_worker_response demo_proto demo_state [ReadEvent.eof] =
        Except.ok (s1, []) ∧
      s1 = notice_apt_worker_failure demo_proto { demo_state with response_len := 0 } ∧
      s1.invoked = demo_state.invoked ++ new ∧
      (∀ c, c < demo_proto.APTCMD_MAX → new.filter (fun e => e.cmd = (c : Int)) =
        ((demo_state.pending c).done_callback.map fun cb =>
          ({ callback := cb, cmd := (c : Int), dec := none,
             data := (demo_state.pending c).done_data } : Invocation)).toList) ∧
      (∀ e ∈ new, ∃ c, c < demo_proto.APTCMD_MAX ∧ e.cmd = (c : Int)) ∧
      (∀ c, c < demo_proto.APTCMD_MAX → (s1.pending c).done_callback = none) ∧
      s1.apt_worker_in_fd = -1 ∧ s1.apt_worker_out_fd = -1 ∧ s1.apt_worker_cancel_fd = -1 :=
  transport_failure_cancels_all demo_proto demo_state [ReadEvent.eof] [] 0
    (by simp [read_response, must_read, must_read_loop, sys_read, demo_state])

/-! ## Failed writes -/

/-- A write on an invalid descriptor fails at once and takes no write event. -/
theorem must_write_bad_fd (fd : Int) (wr : List WriteEvent) (buf : List Nat) (n : Int)
    (out : List Nat) (hfd : fd < 0) (hn : 0 < n) :
    must_write fd wr buf n out = WriteOutcome.failed out wr := by
  unfold must_write
  rw [must_write_loop]
  simp [hn, sys_write, hfd]

/-- The accepting branch of `call_apt_worker` when a `must_write` of the frame
returns false: the state it leaves. -/
theorem call_apt_worker_write_failed (P : Proto) (s : State) (cmd state : Int)
    (data : List Nat) (len : Int) (cb ctx : Nat) (wr : List WriteEvent)
    (out : List Nat) (rest : List WriteEvent)
    (hcmd : 0 ≤ cmd ∧ cmd < (P.APTCMD_MAX : Int))
    (hstarted : s.apt_worker_started = true)
    (hfree : (s.pending cmd.toNat).done_callback = none)
    (hfail : must_write s.apt_worker_out_fd wr
          (header_bytes { cmd := cmd, state := state, seq := s.seq, len := len }) 16 s.written =
          WriteOutcome.failed out rest ∨
        ∃ out1 rest1, must_write s.apt_worker_out_fd wr
          (header_bytes { cmd := cmd, state := state, seq := s.seq, len := len }) 16 s.written =
          WriteOutcome.ok out1 rest1 ∧
          must_write s.apt_worker_out_fd rest1 data len out1 = WriteOutcome.failed out rest) :
    ∃ s1, call_apt_worker P s cmd state data len cb ctx wr = Except.ok (s1, rest) ∧
      s1.invoked = s.invoked ++ [{ callback := cb, cmd := cmd, dec := none, data := ctx }] ∧
      s1.pending = set_slot s.pending cmd.toNat
        { seq := s.seq, done_callback := none, done_data := ctx } ∧
      s1.seq = wrap32 (s.seq + 1) ∧ s1.written = out ∧ s1.annoyed = s.annoyed + 1 ∧
      s1.apt_worker_out_fd = s.apt_worker_out_fd ∧ s1.apt_worker_in_fd = s.apt_worker_in_fd ∧
      s1.apt_worker_cancel_fd = s.apt_worker_cancel_fd ∧
      s1.apt_worker_status_fd = s.apt_worker_status_fd ∧
      s1.apt_worker_started = s.apt_worker_started := by
  have hnat : ((cmd.toNat : Nat) : Int) = cmd := Int.toNat_of_nonneg hcmd.1
  have hpend : set_slot (set_slot s.pending cmd.toNat
        { seq := s.seq, done_callback := some cb, done_data := ctx }) cmd.toNat
        { seq := s.seq, done_callback := none, done_data := ctx } =
      set_slot s.pending cmd.toNat { seq := s.seq, done_callback := none, done_data := ctx } := by
    funext j
    by_cases hj : j = cmd.toNat <;> simp [set_slot, hj]
  rcases hfail with h | ⟨out1, rest1, h1, h2⟩
  all_goals
    refine ⟨{ s with
        seq := wrap32 (s.seq + 1)
        pending := set_slot s.pending cmd.toNat
          { seq := s.seq, done_callback := none, done_data := ctx }
        written := out
        annoyed := s.annoyed + 1
        invoked := s.invoked ++ [{ callback := cb, cmd := cmd, dec := none, data := ctx }] },
      ?_, rfl, rfl, rfl, rfl, rfl, rfl, rfl, rfl, rfl, rfl⟩
    simp [call_apt_worker, hcmd, hstarted, hfree, next_seq, send_apt_worker_request, set_slot,
      cancel_request, annoy_user_with_log, invoke, hnat, *]

/-- C8 (counterexample): the write of the header fails while command 4 is issued
and commands 2 and 3 are outstanding.  Only the new request is cancelled: the
descriptors keep their values and the slots of commands 2 and 3 stay occupied
without any invocation of their callbacks. -/
theorem write_failure_is_not_global :
    ∃ s1, call_apt_worker demo_proto demo_state 4 0 [] 0 12 6 [WriteEvent.error] =
        Except.ok (s1, []) ∧
      s1.invoked = [{ callback := 12, cmd := 4, dec := none, data := 6 }] ∧
      (s1.pending 2).done_callback = some 11 ∧ (s1.pending 3).done_callback = some 13 ∧
      s1.apt_worker_out_fd = 3 ∧ s1.apt_worker_in_fd = 4 ∧ s1.apt_worker_cancel_fd = 5 ∧
      ¬ (s1.apt_worker_out_fd = -1 ∧ ∀ c, c < 8 → (s1.pending c).done_callback = none) := by
  obtain ⟨s1, h, h1, h2, _, _, _, h3, h4, h5, _⟩ :=
    call_apt_worker_write_failed demo_proto demo_state 4 0 [] 0 12 6 [WriteEvent.error] [] []
      (by decide) rfl (by simp [demo_state])
      (Or.inl (by simp [must_write, must_write_loop, sys_write, demo_state]))
  have h3a : s1.apt_worker_out_fd = 3 := by simpa [demo_state] using h3
  refine ⟨s1, h, ?_, ?_, ?_, h3a, ?_, ?_, ?_⟩
  · simpa [demo_state] using h1
  · simp [h2, set_slot, demo_state]
  · simp [h2, set_slot, demo_state]
  · simpa [demo_state] using h4
  · simpa [demo_state] using h5
  · rintro ⟨hfd, _⟩
    rw [h3a] at hfd
    exact absurd hfd (by decide)

/-- C8 (amended): when the worker has started, the slot of `cmd` is free and a
`must_write` of the frame (header or payload) returns false, `call_apt_worker`
raises the failure notification once and cancels only the request being issued:
its callback is invoked once with a NULL decoder, its slot is left unoccupied,
every other slot and the in, out and cancel descriptors are unchanged. -/
theorem write_failure_cancels_own_request (P : Proto) (s : State) (cmd state : Int)
    (data : List Nat) (len : Int) (cb ctx : Nat) (wr : List WriteEvent)
    (out : List Nat) (rest : List WriteEvent)
    (hcmd : 0 ≤ cmd ∧ cmd < (P.APTCMD_MAX : Int))
    (hstarted : s.apt_worker_started = true)
    (hfree : (s.pending cmd.toNat).done_callback = none)
    (hfail : must_write s.apt_worker_out_fd wr
          (header_bytes { cmd := cmd, state := state, seq := s.seq, len := len }) 16 s.written =
          WriteOutcome.failed out rest ∨
        ∃ out1 rest1, must_write s.apt_worker_out_fd wr
          (header_bytes { cmd := cmd, state := state, seq := s.seq, len := len }) 16 s.written =
          WriteOutcome.ok out1 rest1 ∧
          must_write s.apt_worker_out_fd rest1 data len out1 = WriteOutcome.failed out rest) :
    ∃ s1, call_apt_worker P s cmd state data len cb ctx wr = Except.ok (s1, rest) ∧
      s1.invoked = s.invoked ++ [{ callback := cb, cmd := cmd, dec := none, data := ctx }] ∧
      (s1.pending cmd.toNat).done_callback = none ∧
      (∀ c, c ≠ cmd.toNat → s1.pending c = s.pending c) ∧
      s1.annoyed = s.annoyed + 1 ∧
      s1.apt_worker_out_fd = s.apt_worker_out_fd ∧ s1.apt_worker_in_fd = s.apt_worker_in_fd ∧
      s1.apt_worker_cancel_fd = s.apt_worker_cancel_fd := by
  obtain ⟨s1, h, h1, h2, _, _, h3, h4, h5, h6, _⟩ :=
    call_apt_worker_write_failed P s cmd state data len cb ctx wr out rest hcmd hstarted hfree
      hfail
  refine ⟨s1, h, h1, ?_, ?_, h3, h4, h5, h6⟩
  · simp [h2, set_slot]
  · intro c hc
    simp [h2, set_slot, hc]

/-- Witness for C8 (amended): the descriptor takes the header of command 4 and
then fails on the payload, while commands 2 and 3 are outstanding. -/
theorem write_failure_cancels_own_request_witness :
    ∃ s1, call_apt_worker demo_proto demo_state 4 0 [104, 105] 2 12 6
        [WriteEvent.accept 16, WriteEvent.error] = Except.ok (s1, []) ∧
      s1.invoked = demo_state.invoked ++ [{ callback := 12, cmd := 4, dec := none, data := 6 }] ∧
      (s1.pending (4 : Int).toNat).done_callback = none ∧
      (∀ c, c ≠ (4 : Int).toNat → s1.pending c = demo_state.pending c) ∧
      s1.annoyed = demo_state.annoyed + 1 ∧
      s1.apt_worker_out_fd = demo_state.apt_worker_out_fd ∧
      s1.apt_worker_in_fd = demo_state.apt_worker_in_fd ∧
      s1.apt_worker_cancel_fd = demo_state.apt_worker_cancel_fd :=
  write_failure_cancels_own_request demo_proto demo_state 4 0 [104, 105] 2 12 6
    [WriteEvent.accept 16, WriteEvent.error]
    [4, 0, 0, 0, 0, 0, 0, 0, 7, 0, 0, 0, 2, 0, 0, 0] []
    (by decide) rfl (by simp [demo_state])
    (Or.inr ⟨[4, 0, 0, 0, 0, 0, 0, 0, 7, 0, 0, 0, 2, 0, 0, 0], [WriteEvent.error],
      by simp [must_write, must_write_loop, sys_write, demo_state, header_bytes, int32_bytes],
      by simp [must_write, must_write_loop, sys_write, demo_state]⟩)

/-! ## Calls after a failure -/

/-- C7 (counterexample): after the failure supervisor has run on a started
worker, a call for command 4 is not treated as worker-not-started: it takes the
sequence number 7 (the counter advances to 8), stores it with the new
`done_data` in slot 4 and raises the failure notification a second time. -/
theorem call_after_failure_allocates_seq :
    (notice_apt_worker_failure demo_proto demo_state).apt_worker_started = true ∧
    (notice_apt_worker_failure demo_proto demo_state).seq = 7 ∧
    (notice_apt_worker_failure demo_proto demo_state).annoyed = 1 ∧
    ((notice_apt_worker_failure demo_proto demo_state).pending 4).seq = 0 ∧
    ((notice_apt_worker_failure demo_proto demo_state).pending 4).done_data = 0 ∧
    ∃ s1, call_apt_worker demo_proto (notice_apt_worker_failure demo_proto demo_state)
        4 0 [] 0 12 6 [] = Except.ok (s1, []) ∧
      s1.seq = 8 ∧ (s1.pending 4).seq = 7 ∧ (s1.pending 4).done_data = 6 ∧ s1.annoyed = 2 ∧
      ¬ (s1.seq = (notice_apt_worker_failure demo_proto demo_state).seq ∧
         s1.pending = (notice_apt_worker_failure demo_proto demo_state).pending) := by
  obtain ⟨_, i2, i3, _, _, _, i7, i8, _, i10, i11⟩ :=
    notice_apt_worker_failure_fields demo_proto demo_state
  have hp4 : (notice_apt_worker_failure demo_proto demo_state).pending 4 =
      { seq := 0, done_callback := none, done_data := 0 } := by
    rw [i2 4]; simp [demo_state, demo_proto]
  have hst : (notice_apt_worker_failure demo_proto demo_state).apt_worker_started = true := by
    rw [i7]; rfl
  obtain ⟨s1, h, _, h2, h3, _, h5, _⟩ :=
    call_apt_worker_write_failed demo_proto (notice_apt_worker_failure demo_proto demo_state)
      4 0 [] 0 12 6 [] (notice_apt_worker_failure demo_proto demo_state).written []
      (by decide) hst (by simp [hp4])
      (Or.inl (must_write_bad_fd _ _ _ _ _ (by rw [i3]; decide) (by decide)))
  have hseq : s1.seq = 8 := by rw [h3, i8]; simp [demo_state, wrap32]
  refine ⟨hst, by rw [i8]; rfl, by rw [i11]; rfl, by rw [hp4], by rw [hp4], s1, h, hseq, ?_, ?_,
    ?_, ?_⟩
  · rw [h2, i8]; simp [set_slot, demo_state]
  · rw [h2]; simp [set_slot]
  · rw [h5, i11]; rfl
  · rintro ⟨hs, _⟩
    rw [hseq, i8] at hs
    exact absurd hs (by simp [demo_state])

/-- C7 (amended): while `apt_worker_out_fd` is the -1 that the failure supervisor
stored, every `call_apt_worker` call invokes its callback once, synchronously,
with a NULL decoder, no byte reaches the outbound descriptor, no write event is
taken and the slot of the command keeps its occupancy.  The started flag is not
reset, so a call on a started worker with a free slot is not treated as
not-started: it takes a sequence number, stores it with `done_data` in the
slot, fails in the header write on descriptor -1, raises the failure
notification and cancels its own request; otherwise the counter, the table and
the notification count are unchanged. -/
theorem call_after_failure_nulls_callback (P : Proto) (s : State) (cmd state : Int)
    (data : List Nat) (len : Int) (cb ctx : Nat) (wr : List WriteEvent)
    (hfd : s.apt_worker_out_fd = -1)
    (hcmd : 0 ≤ cmd ∧ cmd < (P.APTCMD_MAX : Int)) :
    ∃ s1, call_apt_worker P s cmd state data len cb ctx wr = Except.ok (s1, wr) ∧
      s1.invoked = s.invoked ++ [{ callback := cb, cmd := cmd, dec := none, data := ctx }] ∧
      s1.written = s.written ∧
      (s1.pending cmd.toNat).done_callback = (s.pending cmd.toNat).done_callback ∧
      (∀ c, c ≠ cmd.toNat → s1.pending c = s.pending c) ∧
      s1.apt_worker_out_fd = -1 ∧ s1.apt_worker_started = s.apt_worker_started ∧
      (s.apt_worker_started = true ∧ (s.pending cmd.toNat).done_callback = none →
        s1.seq = wrap32 (s.seq + 1) ∧ (s1.pending cmd.toNat).seq = s.seq ∧
        (s1.pending cmd.toNat).done_data = ctx ∧ s1.annoyed = s.annoyed + 1) ∧
      (s.apt_worker_started = false ∨ (s.pending cmd.toNat).done_callback ≠ none →
        s1.seq = s.seq ∧ s1.pending = s.pending ∧ s1.annoyed = s.annoyed) := by
  by_cases hrej : s.apt_worker_started = false ∨ (s.pending cmd.toNat).done_callback ≠ none
  · refine ⟨invoke s cb cmd none ctx, call_apt_worker_rejected P s cmd state data len cb ctx wr
      hcmd hrej, rfl, rfl, rfl, fun _ _ => rfl, hfd, rfl, ?_, fun _ => ⟨rfl, rfl, rfl⟩⟩
    rintro ⟨h1, h2⟩
    rcases hrej with h | h
    · rw [h1] at h; cases h
    · exact absurd h2 h
  · have hst : s.apt_worker_started = true := by
      cases h : s.apt_worker_started
      · exact absurd (Or.inl h) hrej
      · rfl
    have hfree : (s.pending cmd.toNat).done_callback = none := by
      by_contra h
      exact hrej (Or.inr h)
    obtain ⟨s1, h, h1, h2, h3, h4, h5, h6, _, _, _, h7⟩ :=
      call_apt_worker_write_failed P s cmd state data len cb ctx wr s.written wr hcmd hst hfree
        (Or.inl (must_write_bad_fd _ _ _ _ _ (by rw [hfd]; decide) (by decide)))
    refine ⟨s1, h, h1, h4, ?_, ?_, by rw [h6, hfd], h7, ?_, ?_⟩
    · simp [h2, set_slot, hfree]
    · intro c hc
      simp [h2, set_slot, hc]
    · intro _
      refine ⟨h3, ?_, ?_, h5⟩ <;> simp [h2, set_slot]
    · intro h
      exact absurd h hrej

/-- Witness for C7 (amended): command 4 is issued right after the failure
supervisor has run on a started worker with commands 2 and 3 outstanding. -/
theorem call_after_failure_nulls_callback_witness :
    ∃ s1, call_apt_worker demo_proto (notice_apt_worker_failure demo_proto demo_state)
        4 0 [104] 1 12 6 [WriteEvent.accept 100] = Except.ok (s1, [WriteEvent.accept 100]) ∧
      s1.invoked = (notice_apt_worker_failure demo_proto demo_state).invoked ++
        [{ callback := 12, cmd := 4, dec := none, data := 6 }] ∧
      s1.written = (notice_apt_worker_failure demo_proto demo_state).written ∧
      s1.apt_worker_out_fd = -1 := by
  obtain ⟨s1, h, h1, h2, _, _, h3, _⟩ :=
    call_after_failure_nulls_callback demo_proto (notice_apt_worker_failure demo_proto demo_state)
      4 0 [104] 1 12 6 [WriteEvent.accept 100]
      (notice_apt_worker_failure_fields demo_proto demo_state).2.2.1 (by decide)
  exact ⟨s1, h, h1, h2, h3⟩

/-! ## Frame codec -/

theorem bytes_int32_int32_bytes (x : Int) (h1 : -2147483648 ≤ x) (h2 : x < 2147483648) :
    bytes_int32 ((x % 4294967296).toNat % 256) ((x % 4294967296).toNat / 256 % 256)
      ((x % 4294967296).toNat / 65536 % 256) ((x % 4294967296).toNat / 16777216 % 256) = x := by
  unfold bytes_int32 wrap32
  omega

theorem header_bytes_length (h : apt_header) : (header_bytes h).length = 16 := by
  simp [header_bytes, int32_bytes]

/-- Decoding the 16 bytes of a header whose fields are 32-bit integers gives the
header back. -/
theorem bytes_header_header_bytes (h : apt_header)
    (hc : -2147483648 ≤ h.cmd ∧ h.cmd < 2147483648)
    (hs : -2147483648 ≤ h.state ∧ h.state < 2147483648)
    (hq : -2147483648 ≤ h.seq ∧ h.seq < 2147483648)
    (hl : -2147483648 ≤ h.len ∧ h.len < 2147483648) :
    bytes_header (header_bytes h) = h := by
  cases h with
  | mk cmd state seq len =>
    simp only [bytes_header, header_bytes, int32_bytes, List.cons_append, List.nil_append,
      List.getD_cons_zero, List.getD_cons_succ]
    simp only at hc hs hq hl
    rw [bytes_int32_int32_bytes cmd hc.1 hc.2, bytes_int32_int32_bytes state hs.1 hs.2,
      bytes_int32_int32_bytes seq hq.1 hq.2, bytes_int32_int32_bytes len hl.1 hl.2]

/-! ## Blocking writes -/

theorem sys_write_le (fd : Int) (wr : List WriteEvent) (n : Nat) (r : Int)
    (rest : List WriteEvent) (h : sys_write fd wr n = some (r, rest)) : r ≤ (n : Int) := by
  unfold sys_write at h
  split at h
  · simp at h; omega
  · split at h
    · simp at h
    · simp at h; omega
    · simp at h
      obtain ⟨h1, _⟩ := h
      omega

/-- When `must_write (buf, n)` returns true the descriptor has taken exactly the
first `n` bytes of `buf`, in order. -/
theorem must_write_loop_ok (fd : Int) (k : Nat) : ∀ (wr : List WriteEvent) (buf : List Nat)
    (n : Int) (out out1 : List Nat) (rest : List WriteEvent), n.toNat = k →
    must_write_loop fd wr buf n out = WriteOutcome.ok out1 rest →
    out1 = out ++ buf.take n.toNat := by
  induction k using Nat.strong_induction_on with
  | _ k ih =>
    intro wr buf n out out1 rest hk h
    rw [must_write_loop] at h
    split at h
    · rename_i hn
      split at h
      · simp at h
      · rename_i r rest1 hs
        split at h
        · simp at h
        · split at h
          · simp at h
          · have hle := sys_write_le fd wr n.toNat r rest1 hs
            have hrec := ih (n - r).toNat (by omega) rest1 (buf.drop r.toNat) (n - r)
              (out ++ buf.take r.toNat) out1 rest rfl h
            rw [hrec, List.append_assoc]
            congr 1
            have hsplit : n.toNat = r.toNat + (n - r).toNat := by omega
            rw [hsplit, List.take_add]
    · simp only [WriteOutcome.ok.injEq] at h
      have : n.toNat = 0 := by omega
      rw [this]
      simp [h.1]

theorem must_write_ok (fd : Int) (wr : List WriteEvent) (buf : List Nat) (n : Int)
    (out out1 : List Nat) (rest : List WriteEvent)
    (h : must_write fd wr buf n out = WriteOutcome.ok out1 rest) :
    out1 = out ++ buf.take n.toNat :=
  must_write_loop_ok fd n.toNat wr buf n out out1 rest rfl h

/-- What a request that `send_apt_worker_request` sent completely put on the
wire: the 16 header bytes, then the first `len` bytes of `data`. -/
theorem send_apt_worker_request_written (s : State) (cmd state seq : Int) (data : List Nat)
    (len : Int) (wr : List WriteEvent) (s1 : State) (rest : List WriteEvent)
    (h : send_apt_worker_request s cmd state seq data len wr = some (true, s1, rest)) :
    s1.written = s.written ++
      header_bytes { cmd := cmd, state := state, seq := seq, len := len } ++
      data.take len.toNat := by
  unfold send_apt_worker_request at h
  simp only at h
  split at h
  · simp at h
  · simp at h
  · rename_i out1 rest1 h1
    split at h
    · simp at h
    · simp at h
    · rename_i out2 rest2 h2
      simp only [Option.some.injEq, Prod.mk.injEq, true_and] at h
      have e1 := must_write_ok _ _ _ _ _ _ _ h1
      have e2 := must_write_ok _ _ _ _ _ _ _ h2
      rw [← h.1]
      simp only
      rw [e2, e1]
      have h16 : (16 : Int).toNat = 16 := rfl
      rw [h16, List.take_of_length_le (by rw [header_bytes_length])]

/-! ## Blocking reads over a segmented byte stream -/

/-- Reading `n` bytes from a pipe that holds the non-empty pieces `chunks`, whose
first `n` bytes are `a`: `must_read` returns true with `a`, and what is left of
the pieces is the rest of the stream, again in non-empty pieces. -/
theorem must_read_loop_chunks (fd : Int) (hfd : 0 ≤ fd) (rest : List ReadEvent) :
    ∀ (chunks : List (List Nat)) (n : Nat) (a b got : List Nat),
    (∀ c ∈ chunks, c ≠ []) → chunks.flatten = a ++ b → a.length = n →
    ∃ chunks1 : List (List Nat), (∀ c ∈ chunks1, c ≠ []) ∧ chunks1.flatten = b ∧
      must_read_loop fd (chunks.map ReadEvent.chunk ++ rest) n got =
        ReadOutcome.ok (got ++ a) (chunks1.map ReadEvent.chunk ++ rest) := by
  have hfd1 : ¬ fd < 0 := by omega
  intro chunks
  induction chunks with
  | nil =>
    intro n a b got _ hj hn
    simp only [List.flatten_nil] at hj
    have ha : a = [] := by
      cases a with
      | nil => rfl
      | cons x xs => simp at hj
    subst ha
    simp only [List.length_nil] at hn
    subst hn
    refine ⟨[], by simp, ?_, ?_⟩
    · simpa using hj
    · rw [must_read_loop]; simp
  | cons c cs ih =>
    intro n a b got hne hj hn
    have hc : c ≠ [] := hne c (List.mem_cons_self _ _)
    have hcs : ∀ d ∈ cs, d ≠ [] := fun d hd => hne d (List.mem_cons_of_mem _ hd)
    have hclen : 0 < c.length := List.length_pos.mpr hc
    simp only [List.flatten_cons] at hj
    by_cases hn0 : n = 0
    · subst hn0
      have ha : a = [] := List.length_eq_zero.mp hn
      subst ha
      refine ⟨c :: cs, hne, by simpa using hj, ?_⟩
      rw [must_read_loop]; simp
    · have hpos : 0 < n := Nat.pos_of_ne_zero hn0
      by_cases hle : c.length ≤ n
      · -- the whole piece is taken
        have hac : a = c ++ a.drop c.length := by
          have h1 : (c ++ cs.flatten).take c.length = (a ++ b).take c.length := by rw [hj]
          rw [List.take_left, List.take_append_of_le_length (by omega)] at h1
          calc a = a.take c.length ++ a.drop c.length := (List.take_append_drop _ _).symm
            _ = c ++ a.drop c.length := by rw [← h1]
        have hrest : cs.flatten = a.drop c.length ++ b := by
          have h1 : (c ++ cs.flatten).drop c.length = (a ++ b).drop c.length := by rw [hj]
          rw [List.drop_left, List.drop_append_of_le_length (by omega)] at h1
          exact h1
        obtain ⟨chunks1, h1, h2, h3⟩ := ih (n - c.length) (a.drop c.length) b (got ++ c) hcs hrest
          (by rw [List.length_drop, hn])
        refine ⟨chunks1, h1, h2, ?_⟩
        rw [must_read_loop]
        have hr1 : ¬ ((c.length : Int) < 0) := by omega
        have hr2 : ¬ ((c.length : Int) = 0) := by omega
        simp only [hpos, if_true, List.map_cons, List.cons_append, sys_read, hfd1, if_false, hle,
          hr1, hr2, Int.toNat_ofNat]
        rw [h3, List.append_assoc, ← hac]
      · -- only the first n bytes of the piece are taken
        have hlt : n < c.length := by omega
        have hac : a = c.take n := by
          have h1 : (c ++ cs.flatten).take n = (a ++ b).take n := by rw [hj]
          rw [List.take_append_of_le_length (by omega), List.take_left' hn] at h1
          exact h1.symm
        have hb : c.drop n ++ cs.flatten = b := by
          have h1 : (c ++ cs.flatten).drop n = (a ++ b).drop n := by rw [hj]
          rw [List.drop_append_of_le_length (by omega), List.drop_left' hn] at h1
          exact h1
        refine ⟨c.drop n :: cs, ?_, by simpa using hb, ?_⟩
        · intro d hd
          rcases List.mem_cons.mp hd with h | h
          · subst h
            intro he
            have := congrArg List.length he
            simp at this
            omega
          · exact hcs d h
        · rw [must_read_loop]
          have hr1 : ¬ ((n : Int) < 0) := by omega
          have hr2 : ¬ ((n : Int) = 0) := by omega
          simp only [hpos, if_true, List.map_cons, List.cons_append, sys_read, hfd1, if_false,
            hle, hr1, hr2, Int.toNat_ofNat, Nat.sub_self]
          rw [must_read_loop]
          simp [hac]

theorem must_read_chunks (fd : Int) (hfd : 0 ≤ fd) (rest : List ReadEvent)
    (chunks : List (List Nat)) (n : Nat) (a b : List Nat)
    (hne : ∀ c ∈ chunks, c ≠ []) (hj : chunks.flatten = a ++ b) (hn : a.length = n) :
    ∃ chunks1 : List (List Nat), (∀ c ∈ chunks1, c ≠ []) ∧ chunks1.flatten = b ∧
      must_read fd (chunks.map ReadEvent.chunk ++ rest) n =
        ReadOutcome.ok a (chunks1.map ReadEvent.chunk ++ rest) := by
  obtain ⟨chunks1, h1, h2, h3⟩ := must_read_loop_chunks fd hfd rest chunks n a b [] hne hj hn
  exact ⟨chunks1, h1, h2, by simpa [must_read] using h3⟩

theorem flatten_nil_of_ne_nil (chunks : List (List Nat)) (hne : ∀ c ∈ chunks, c ≠ [])
    (h : chunks.flatten = []) : chunks = [] := by
  cases chunks with
  | nil => rfl
  | cons c cs =>
    exfalso
    simp only [List.flatten_cons, List.append_eq_nil] at h
    exact hne c (List.mem_cons_self _ _) h.1

/-- C9: frame round trip.  A request that `send_apt_worker_request (cmd, state,
seq, data, len)` sent completely (32-bit fields, `len` the length of `data`) put
on the wire a 16-byte header followed by exactly the `len` payload bytes; and
however these bytes are cut into pieces on the way, the response reader (a
`must_read` of the header, then a `must_read` of `res.len` bytes) gets the same
cmd, state, seq, len and payload back and consumes nothing beyond the frame. -/
theorem frame_round_trip (s : State) (cmd state seq : Int) (data : List Nat) (len : Int)
    (wr : List WriteEvent) (s1 : State) (wr1 : List WriteEvent)
    (fd rl : Int) (chunks : List (List Nat)) (rest : List ReadEvent)
    (hcmd : -2147483648 ≤ cmd ∧ cmd < 2147483648)
    (hstate : -2147483648 ≤ state ∧ state < 2147483648)
    (hseq : -2147483648 ≤ seq ∧ seq < 2147483648)
    (hlen : len = (data.length : Int)) (hlen32 : len < 2147483648)
    (hsend : send_apt_worker_request s cmd state seq data len wr = some (true, s1, wr1))
    (hfd : 0 ≤ fd)
    (hne : ∀ c ∈ chunks, c ≠ [])
    (hwire : s.written ++ chunks.flatten = s1.written) :
    s1.written = s.written ++
      header_bytes { cmd := cmd, state := state, seq := seq, len := len } ++ data ∧
    (header_bytes { cmd := cmd, state := state, seq := seq, len := len }).length = 16 ∧
    read_response fd rl (chunks.map ReadEvent.chunk ++ rest) =
      FrameOutcome.frame { cmd := cmd, state := state, seq := seq, len := len } data
        (if rl < len then len else rl) rest := by
  have hw := send_apt_worker_request_written s cmd state seq data len wr s1 wr1 hsend
  have htake : data.take len.toNat = data := by
    apply List.take_of_length_le
    omega
  rw [htake] at hw
  refine ⟨hw, header_bytes_length _, ?_⟩
  have hflat : chunks.flatten =
      header_bytes { cmd := cmd, state := state, seq := seq, len := len } ++ data := by
    rw [hw, List.append_assoc] at hwire
    exact List.append_cancel_left hwire
  obtain ⟨chunks1, h1, h2, h3⟩ := must_read_chunks fd hfd rest chunks 16 _ _ hne hflat
    (header_bytes_length _)
  have hdec := bytes_header_header_bytes { cmd := cmd, state := state, seq := seq, len := len }
    hcmd hstate hseq ⟨by simp only; omega, hlen32⟩
  obtain ⟨chunks2, k1, k2, k3⟩ := must_read_chunks fd hfd rest chunks1 len.toNat data []
    h1 (by simpa using h2) (by omega)
  have hnil := flatten_nil_of_ne_nil chunks2 k1 k2
  subst hnil
  have hneg : ¬ len < 0 := by omega
  simp only [List.map_nil, List.nil_append] at k3
  simp only [read_response, h3, hdec, hneg, if_false, k3]

/-- Witness for C9: command 7, state 2, sequence 5, payload "abc"; the descriptor
takes the frame in three writes and the reader gets it in three pieces. -/
theorem frame_round_trip_witness :
    (demo_state.written ++
        header_bytes { cmd := 7, state := 2, seq := 5, len := 3 } ++ [97, 98, 99] =
      [7, 0, 0, 0, 2, 0, 0, 0, 5, 0, 0, 0, 3, 0, 0, 0, 97, 98, 99]) ∧
    read_response 4 0 ([[7, 0, 0], [0, 2, 0, 0, 0, 5, 0, 0, 0, 3, 0, 0, 0, 97],
        [98, 99]].map ReadEvent.chunk ++ [ReadEvent.eof]) =
      FrameOutcome.frame { cmd := 7, state := 2, seq := 5, len := 3 } [97, 98, 99] 3
        [ReadEvent.eof] := by
  have h := frame_round_trip demo_state 7 2 5 [97, 98, 99] 3
    [WriteEvent.accept 10, WriteEvent.accept 100, WriteEvent.accept 100]
    { demo_state with
        written := [7, 0, 0, 0, 2, 0, 0, 0, 5, 0, 0, 0, 3, 0, 0, 0, 97, 98, 99] } []
    4 0 [[7, 0, 0], [0, 2, 0, 0, 0, 5, 0, 0, 0, 3, 0, 0, 0, 97], [98, 99]] [ReadEvent.eof]
    (by decide) (by decide) (by decide) rfl (by decide)
    (by simp [send_apt_worker_request, must_write, must_write_loop, sys_write, demo_state,
          header_bytes, int32_bytes])
    (by decide) (by simp) (by simp [demo_state])
  refine ⟨?_, ?_⟩
  · simp [demo_state, header_bytes, int32_bytes]
  · simpa using h.2.2

/-! ## No partial frame -/

/-- The three ways `must_read` can end, in terms of what the read calls deliver. -/
theorem must_read_loop_arrived (fd : Int) (hfd : 0 ≤ fd) : ∀ (pipe : List ReadEvent) (n : Nat)
    (got : List Nat),
    (n ≤ (arrived pipe).length →
      ∃ rest, must_read_loop fd pipe n got = ReadOutcome.ok (got ++ (arrived pipe).take n) rest) ∧
    ((arrived pipe).length < n → interrupted pipe = true →
      ∃ rest, must_read_loop fd pipe n got = ReadOutcome.failed rest) ∧
    ((arrived pipe).length < n → interrupted pipe = false →
      must_read_loop fd pipe n got = ReadOutcome.blocked) := by
  have hfd1 : ¬ fd < 0 := by omega
  intro pipe
  induction pipe with
  | nil =>
    intro n got
    refine ⟨?_, ?_, ?_⟩
    · intro h
      simp only [arrived, List.length_nil, Nat.le_zero] at h
      subst h
      exact ⟨[], by rw [must_read_loop]; simp⟩
    · intro _ h
      simp [interrupted] at h
    · intro h _
      simp only [arrived, List.length_nil] at h
      rw [must_read_loop]
      simp [h, sys_read, hfd1]
  | cons ev rest ih =>
    intro n got
    by_cases hn0 : n = 0
    · subst hn0
      refine ⟨fun _ => ⟨ev :: rest, by rw [must_read_loop]; simp⟩, ?_, ?_⟩
      · intro h; omega
      · intro h; omega
    have hpos : 0 < n := Nat.pos_of_ne_zero hn0
    cases ev with
    | error =>
      refine ⟨?_, ?_, ?_⟩
      · intro h; simp [arrived] at h; omega
      · intro _ _
        exact ⟨rest, by rw [must_read_loop]; simp [hpos, sys_read, hfd1]⟩
      · intro _ h; simp [interrupted] at h
    | eof =>
      refine ⟨?_, ?_, ?_⟩
      · intro h; simp [arrived] at h; omega
      · intro _ _
        exact ⟨rest, by rw [must_read_loop]; simp [hpos, sys_read, hfd1]⟩
      · intro _ h; simp [interrupted] at h
    | chunk c =>
      cases c with
      | nil =>
        refine ⟨?_, ?_, ?_⟩
        · intro h; simp [arrived] at h; omega
        · intro _ _
          exact ⟨rest, by rw [must_read_loop]; simp [hpos, sys_read, hfd1]⟩
        · intro _ h; simp [interrupted] at h
      | cons b bs =>
        have harr : arrived (ReadEvent.chunk (b :: bs) :: rest) = (b :: bs) ++ arrived rest := rfl
        have hint : interrupted (ReadEvent.chunk (b :: bs) :: rest) = interrupted rest := rfl
        rw [harr, hint]
        by_cases hle : (b :: bs).length ≤ n
        · have hr1 : ¬ (((b :: bs).length : Int) < 0) := by omega
          have hr2 : ¬ (((b :: bs).length : Int) = 0) := by
            simp only [List.length_cons]; omega
          have hstep : must_read_loop fd (ReadEvent.chunk (b :: bs) :: rest) n got =
              must_read_loop fd rest (n - (b :: bs).length) (got ++ (b :: bs)) := by
            rw [must_read_loop]
            simp only [hpos, if_true, sys_read, hfd1, if_false, hle, hr1, hr2, Int.toNat_ofNat]
          obtain ⟨i1, i2, i3⟩ := ih (n - (b :: bs).length) (got ++ (b :: bs))
          rw [hstep]
          refine ⟨?_, ?_, ?_⟩
          · intro h
            rw [List.length_append] at h
            obtain ⟨r, hr⟩ := i1 (by omega)
            refine ⟨r, ?_⟩
            rw [hr, List.take_append_eq_append_take, List.take_of_length_le hle,
              List.append_assoc]
          · intro h hi
            rw [List.length_append] at h
            exact i2 (by omega) hi
          · intro h hi
            rw [List.length_append] at h
            exact i3 (by omega) hi
        · have hlt : n < (b :: bs).length := by omega
          have hr1 : ¬ ((n : Int) < 0) := by omega
          have hr2 : ¬ ((n : Int) = 0) := by omega
          refine ⟨?_, ?_, ?_⟩
          · intro _
            refine ⟨ReadEvent.chunk ((b :: bs).drop n) :: rest, ?_⟩
            rw [must_read_loop]
            simp only [hpos, if_true, sys_read, hfd1, if_false, hle, hr1, hr2, Int.toNat_ofNat,
              Nat.sub_self]
            rw [must_read_loop]
            simp only [Nat.lt_irrefl, if_false]
            rw [List.take_append_of_le_length (by omega)]
          · intro h; rw [List.length_append] at h; omega
          · intro h; rw [List.length_append] at h; omega

/-- The invocations that routing one completely read frame adds: at most one,
and its decoder is over the payload of that frame. -/
theorem dispatch_response_invoked (P : Proto) (s s1 : State) (res : apt_header)
    (payload : List Nat) (h : dispatch_response P s res payload = Except.ok s1) :
    ∃ new, s1.invoked = s.invoked ++ new ∧ new.length ≤ 1 ∧
      ∀ e ∈ new, e.dec = some payload := by
  unfold dispatch_response at h
  simp only at h
  split at h
  · simp only [Except.ok.injEq] at h
    subst h
    exact ⟨[], by simp, by simp, by simp⟩
  · split at h
    · split at h
      · simp only [Except.ok.injEq] at h
        subst h
        exact ⟨[_], rfl, by simp, by simp⟩
      · simp only [Except.ok.injEq] at h
        subst h
        exact ⟨[], by simp, by simp, by simp⟩
    · split at h
      · simp only [Except.ok.injEq] at h
        subst h
        exact ⟨[], by simp, by simp, by simp⟩
      · split at h
        · simp at h
        · simp only [Except.ok.injEq] at h
          subst h
          exact ⟨[_], rfl, by simp, by simp⟩

/-- C10: no partial frame is exposed.  On a valid descriptor `must_read (buf, n)`
returns true exactly when the reads deliver `n` bytes before any result that is
not positive, and `buf` then holds the first `n` delivered bytes in arrival
order; it returns false when such a result comes first; it fails to return only
when the reads run dry.  Consequently every invocation that
`handle_one_apt_worker_response` makes with a non-NULL decoder comes after a
`must_read` of the complete 16-byte header and a `must_read` of exactly `res.len`
payload bytes both returned true, the decoder being over those bytes; and when a
`must_read` returned false every invocation made has a NULL decoder. -/
theorem no_partial_frame_exposed (fd : Int) (pipe : List ReadEvent) (n : Nat) (hfd : 0 ≤ fd) :
    (n ≤ (arrived pipe).length →
      ∃ rest, must_read fd pipe n = ReadOutcome.ok ((arrived pipe).take n) rest) ∧
    ((arrived pipe).length < n → interrupted pipe = true →
      ∃ rest, must_read fd pipe n = ReadOutcome.failed rest) ∧
    ((arrived pipe).length < n → interrupted pipe = false →
      must_read fd pipe n = ReadOutcome.blocked) ∧
    ∀ (P : Proto) (s s1 : State) (rest : List ReadEvent),
      handle_one_apt_worker_response P s pipe = Except.ok (s1, rest) →
      ∃ new, s1.invoked = s.invoked ++ new ∧
        (∀ e ∈ new, ∀ bytes, e.dec = some bytes →
          ∃ hdr mid, must_read s.apt_worker_in_fd pipe 16 = ReadOutcome.ok hdr mid ∧
            hdr.length = 16 ∧ 0 ≤ (bytes_header hdr).len ∧
            must_read s.apt_worker_in_fd mid (bytes_header hdr).len.toNat =
              ReadOutcome.ok bytes rest ∧
            (bytes.length : Int) = (bytes_header hdr).len) ∧
        (∀ rl, read_response s.apt_worker_in_fd s.response_len pipe =
            FrameOutcome.failed rl rest → ∀ e ∈ new, e.dec = none) := by
  obtain ⟨h1, h2, h3⟩ := must_read_loop_arrived fd hfd pipe n []
  refine ⟨by simpa [must_read] using h1, h2, h3, ?_⟩
  intro P s s1 rest h
  unfold handle_one_apt_worker_response at h
  split at h
  · simp at h
  · simp at h
  · rename_i rl1 rest1 hr
    simp only [Except.ok.injEq, Prod.mk.injEq] at h
    obtain ⟨hs, hrest⟩ := h
    subst hs hrest
    have hinv := (notice_apt_worker_failure_fields P { s with response_len := rl1 }).1
    have hnone : ∀ e ∈ (List.range P.APTCMD_MAX).filterMap
        (fun c => (s.pending c).done_callback.map fun cb =>
          ({ callback := cb, cmd := (c : Int), dec := none,
             data := (s.pending c).done_data } : Invocation)), e.dec = none := by
      intro e he
      simp only [List.mem_filterMap, Option.map_eq_some'] at he
      obtain ⟨c, _, cb, _, hcb⟩ := he
      rw [← hcb]
    refine ⟨_, hinv, ?_, fun _ _ => hnone⟩
    intro e he bytes hb
    rw [hnone e he] at hb
    cases hb
  · rename_i res payload rl rest1 hr
    split at h
    · simp at h
    · rename_i s2 hd
      simp only [Except.ok.injEq, Prod.mk.injEq] at h
      obtain ⟨hs, hrest⟩ := h
      subst hs hrest
      obtain ⟨new, hnew, _, hdec⟩ := dispatch_response_invoked P _ _ _ _ hd
      obtain ⟨hdr, mid, k1, k2, k3, k4, k5⟩ := read_response_frame _ _ _ _ _ _ _ hr
      refine ⟨new, hnew, ?_, ?_⟩
      · intro e he bytes hb
        rw [hdec e he] at hb
        simp only [Option.some.injEq] at hb
        subst hb
        subst k2
        exact ⟨hdr, mid, k1, must_read_length _ _ _ _ _ k1, k3, k4, k5⟩
      · intro rl2 hf
        rw [hf] at hr
        cases hr

/-- Witness for C10: four bytes are asked for and arrive as 1, 2 then 3, 4, 5. -/
theorem no_partial_frame_exposed_witness :
    ∃ rest, must_read 4 [ReadEvent.chunk [1, 2], ReadEvent.chunk [3, 4, 5], ReadEvent.eof] 4 =
      ReadOutcome.ok [1, 2, 3, 4] rest := by
  have h := (no_partial_frame_exposed 4
    [ReadEvent.chunk [1, 2], ReadEvent.chunk [3, 4, 5], ReadEvent.eof] 4 (by decide)).1
    (by simp [arrived])
  simpa [arrived] using h

/-! ## The exactly-once invariant -/

theorem times_invoked_append (invoked : List Invocation) (e : Invocation) (k : Nat) :
    times_invoked (invoked ++ [e]) k = times_invoked invoked k + (if e.data = k then 1 else 0) := by
  by_cases h : e.data = k <;> simp [times_invoked, List.filter_append, List.filter_cons, h]

theorem getElem?_append_of_some (issued : List (Int × Nat)) (x y : Int × Nat) (k : Nat)
    (h : issued[k]? = some x) : (issued ++ [y])[k]? = some x := by
  have hk : k < issued.length := by
    by_contra hc
    rw [List.getElem?_eq_none (by omega)] at h
    cases h
  rw [List.getElem?_append_left hk]
  exact h

theorem getElem?_append_cases (issued : List (Int × Nat)) (x y : Int × Nat) (k : Nat)
    (h : (issued ++ [y])[k]? = some x) :
    issued[k]? = some x ∨ (k = issued.length ∧ x = y) := by
  by_cases hk : k < issued.length
  · rw [List.getElem?_append_left hk] at h
    exact Or.inl h
  · right
    rw [List.getElem?_append_right (by omega)] at h
    by_cases hk2 : k - issued.length = 0
    · rw [hk2] at h
      simp only [List.getElem?_cons_zero, Option.some.injEq] at h
      exact ⟨by omega, h.symm⟩
    · obtain ⟨m, hm⟩ := Nat.exists_eq_succ_of_ne_zero hk2
      rw [hm] at h
      simp at h

theorem getElem?_lt_of_some (issued : List (Int × Nat)) (x : Int × Nat) (k : Nat)
    (h : issued[k]? = some x) : k < issued.length := by
  by_contra hc
  rw [List.getElem?_eq_none (by omega)] at h
  cases h

/-- Answering the request in an occupied slot keeps the invariant. -/
theorem DispatchInv.resolve {P : Proto} {pending : Nat → pending_request}
    {invoked : List Invocation} {issued : List (Int × Nat)}
    (h : DispatchInv P pending invoked issued) (c cb : Nat) (dec : Option (List Nat))
    (hocc : (pending c).done_callback = some cb) :
    DispatchInv P (set_slot pending c { pending c with done_callback := none })
      (invoked ++ [{ callback := cb, cmd := (c : Int), dec := dec,
                     data := (pending c).done_data }]) issued := by
  have hd := h.slot c cb hocc
  refine ⟨?_, h.kind, ?_, ?_⟩
  · intro c1 cb1 h1
    by_cases hc : c1 = c
    · subst hc
      simp [set_slot] at h1
    · simp only [set_slot, hc, if_false] at h1 ⊢
      exact h.slot c1 cb1 h1
  · intro k cmd1 cb1 hk
    have hcount := h.count k cmd1 cb1 hk
    rw [times_invoked_append, hcount]
    simp only
    by_cases hkd : (pending c).done_data = k
    · subst hkd
      rw [hd] at hk
      simp only [Option.some.injEq, Prod.mk.injEq] at hk
      obtain ⟨hk1, hk2⟩ := hk
      subst hk1
      simp [occupies, set_slot, hocc]
    · simp only [hkd, if_false, Nat.add_zero]
      by_cases hc : cmd1.toNat = c
      · subst hc
        simp [occupies, set_slot, hkd]
      · simp [occupies, set_slot, hc]
  · intro e he
    rcases List.mem_append.mp he with h1 | h1
    · exact h.answer e h1
    · simp only [List.mem_singleton] at h1
      subst h1
      exact hd

/-- Writing the cleared value into a slot that is not occupied changes nothing. -/
theorem set_slot_clear_none (pending : Nat → pending_request) (c : Nat)
    (h : (pending c).done_callback = none) :
    set_slot pending c { pending c with done_callback := none } = pending := by
  funext j
  by_cases hj : j = c
  · subst hj
    simp only [set_slot, if_true]
    cases hp : pending j with
    | mk sq cbk dt =>
      rw [hp] at h
      simp only at h
      subst h
      rfl
  · simp [set_slot, hj]

theorem DispatchInv.after_cancel_request {P : Proto} {s : State} {issued : List (Int × Nat)}
    (h : DispatchInv P s.pending s.invoked issued) (c : Nat) :
    DispatchInv P (AptWorkerClient.cancel_request s c).pending
      (AptWorkerClient.cancel_request s c).invoked issued := by
  rw [cancel_request_pending, cancel_request_invoked]
  cases hcb : (s.pending c).done_callback with
  | none =>
    rw [set_slot_clear_none _ _ hcb]
    simpa using h
  | some cb =>
    simpa using h.resolve c cb none hcb

theorem DispatchInv.after_cancel_all {P : Proto} {issued : List (Int × Nat)}
    (cs : List Nat) : ∀ s : State, DispatchInv P s.pending s.invoked issued →
    DispatchInv P (cs.foldl AptWorkerClient.cancel_request s).pending
      (cs.foldl AptWorkerClient.cancel_request s).invoked issued := by
  induction cs with
  | nil => intro s h; simpa using h
  | cons c cs ih =>
    intro s h
    simp only [List.foldl_cons]
    exact ih _ (h.after_cancel_request c)

theorem DispatchInv.after_failure {P : Proto} {s : State}
    {issued : List (Int × Nat)} (h : DispatchInv P s.pending s.invoked issued) :
    DispatchInv P (AptWorkerClient.notice_apt_worker_failure P s).pending
      (AptWorkerClient.notice_apt_worker_failure P s).invoked issued := by
  have := @DispatchInv.after_cancel_all P issued (List.range P.APTCMD_MAX)
    { s with apt_worker_in_fd := -1, apt_worker_out_fd := -1, apt_worker_cancel_fd := -1 } h
  simpa [AptWorkerClient.notice_apt_worker_failure, annoy_user_with_log,
    cancel_all_pending_requests] using this

/-- What `send_apt_worker_request` changes: only the record of written bytes. -/
theorem send_apt_worker_request_frame (s : State) (cmd state seq : Int) (data : List Nat)
    (len : Int) (wr : List WriteEvent) (ok : Bool) (s1 : State) (rest : List WriteEvent)
    (h : send_apt_worker_request s cmd state seq data len wr = some (ok, s1, rest)) :
    ∃ out, s1 = { s with written := out } := by
  unfold send_apt_worker_request at h
  simp only at h
  split at h
  · simp at h
  · simp only [Option.some.injEq, Prod.mk.injEq] at h
    exact ⟨_, h.2.1.symm⟩
  · split at h
    · simp at h
    · simp only [Option.some.injEq, Prod.mk.injEq] at h
      exact ⟨_, h.2.1.symm⟩
    · simp only [Option.some.injEq, Prod.mk.injEq] at h
      exact ⟨_, h.2.1.symm⟩

/-- The three ways `call_apt_worker` returns, as far as the table and the
invocations go: rejected, stored and sent, stored and cancelled. -/
theorem call_apt_worker_shape (P : Proto) (s : State) (cmd state : Int) (data : List Nat)
    (len : Int) (cb ctx : Nat) (wr : List WriteEvent) (s1 : State) (rest : List WriteEvent)
    (h : call_apt_worker P s cmd state data len cb ctx wr = Except.ok (s1, rest)) :
    (0 ≤ cmd ∧ cmd < (P.APTCMD_MAX : Int)) ∧
    ((s1.pending = s.pending ∧
        s1.invoked = s.invoked ++ [{ callback := cb, cmd := cmd, dec := none, data := ctx }]) ∨
      ((s.pending cmd.toNat).done_callback = none ∧
        s1.pending = set_slot s.pending cmd.toNat
          { seq := s.seq, done_callback := some cb, done_data := ctx } ∧
        s1.invoked = s.invoked) ∨
      ((s.pending cmd.toNat).done_callback = none ∧
        s1.pending = set_slot s.pending cmd.toNat
          { seq := s.seq, done_callback := none, done_data := ctx } ∧
        s1.invoked = s.invoked ++
          [{ callback := cb, cmd := cmd, dec := none, data := ctx }])) := by
  by_cases hcmd : 0 ≤ cmd ∧ cmd < (P.APTCMD_MAX : Int)
  swap
  · simp [call_apt_worker, hcmd] at h
  refine ⟨hcmd, ?_⟩
  by_cases hrej : s.apt_worker_started = false ∨ (s.pending cmd.toNat).done_callback ≠ none
  · rw [call_apt_worker_rejected P s cmd state data len cb ctx wr hcmd hrej] at h
    simp only [Except.ok.injEq, Prod.mk.injEq] at h
    left
    rw [← h.1]
    exact ⟨rfl, rfl⟩
  · have hst : s.apt_worker_started = true := by
      cases h1 : s.apt_worker_started
      · exact absurd (Or.inl h1) hrej
      · rfl
    have hfree : (s.pending cmd.toNat).done_callback = none := by
      by_contra h1
      exact hrej (Or.inr h1)
    have hnat : ((cmd.toNat : Nat) : Int) = cmd := Int.toNat_of_nonneg hcmd.1
    right
    simp [call_apt_worker, hcmd, hst, hfree, next_seq] at h
    split at h
    · simp at h
    · rename_i s3 rest3 hsend
      obtain ⟨out, hs3⟩ := send_apt_worker_request_frame _ _ _ _ _ _ _ _ _ _ hsend
      simp only [Except.ok.injEq, Prod.mk.injEq] at h
      left
      rw [← h.1, hs3]
      exact ⟨hfree, rfl, rfl⟩
    · rename_i s3 rest3 hsend
      obtain ⟨out, hs3⟩ := send_apt_worker_request_frame _ _ _ _ _ _ _ _ _ _ hsend
      simp only [Except.ok.injEq, Prod.mk.injEq] at h
      right
      rw [← h.1, hs3]
      refine ⟨hfree, ?_, ?_⟩
      · rw [cancel_request_pending]
        funext j
        by_cases hj : j = cmd.toNat <;> simp [set_slot, annoy_user_with_log, hj]
      · rw [cancel_request_invoked]
        simp [annoy_user_with_log, set_slot, hnat]

/-- The ways `dispatch_response` returns, as far as the table and the invocations
go: nothing, the status callback, or the answer to the request of a slot. -/
theorem dispatch_response_shape (P : Proto) (s s1 : State) (res : apt_header)
    (payload : List Nat) (h : dispatch_response P s res payload = Except.ok s1) :
    (s1.pending = s.pending ∧ s1.invoked = s.invoked) ∨
    (0 ≤ res.cmd ∧ (s.pending P.APTCMD_STATUS).done_callback ≠ none) ∨
    (∃ c cb, (s.pending c).done_callback = some cb ∧
      s1.pending = set_slot s.pending c { s.pending c with done_callback := none } ∧
      s1.invoked = s.invoked ++ [{ callback := cb, cmd := (c : Int), dec := some payload,
                                   data := (s.pending c).done_data }]) := by
  unfold dispatch_response at h
  simp only at h
  split at h
  · simp only [Except.ok.injEq] at h
    subst h
    exact Or.inl ⟨rfl, rfl⟩
  · rename_i hrange
    have hnat : ((res.cmd.toNat : Nat) : Int) = res.cmd := Int.toNat_of_nonneg (by omega)
    split at h
    · rename_i hst
      split at h
      · rename_i cb hcb
        right; left
        refine ⟨by omega, ?_⟩
        have : res.cmd.toNat = P.APTCMD_STATUS := by omega
        rw [this] at hcb
        rw [hcb]
        simp
      · simp only [Except.ok.injEq] at h
        subst h
        exact Or.inl ⟨rfl, rfl⟩
    · split at h
      · simp only [Except.ok.injEq] at h
        subst h
        exact Or.inl ⟨rfl, rfl⟩
      · split at h
        · simp at h
        · rename_i cb hcb
          simp only [Except.ok.injEq] at h
          subst h
          right; right
          refine ⟨res.cmd.toNat, cb, hcb, rfl, ?_⟩
          simp [invoke, set_slot, hnat]

theorem DispatchInv.times_invoked_new {P : Proto} {pending : Nat → pending_request}
    {invoked : List Invocation} {issued : List (Int × Nat)}
    (h : DispatchInv P pending invoked issued) : times_invoked invoked issued.length = 0 := by
  unfold times_invoked
  rw [List.length_eq_zero, List.filter_eq_nil_iff]
  intro e he
  have := getElem?_lt_of_some _ _ _ (h.answer e he)
  simp only [decide_eq_true_eq]
  omega

theorem DispatchInv.occupies_new {P : Proto} {pending : Nat → pending_request}
    {invoked : List Invocation} {issued : List (Int × Nat)}
    (h : DispatchInv P pending invoked issued) (cmd : Int) :
    occupies pending cmd issued.length = false := by
  unfold occupies
  cases hcb : (pending cmd.toNat).done_callback with
  | none => simp
  | some cb =>
    have := getElem?_lt_of_some _ _ _ (h.slot _ cb hcb)
    simp only [Option.isSome_some, Bool.true_and, beq_eq_false_iff_ne, ne_eq]
    omega

theorem getElem?_append_length (issued : List (Int × Nat)) (y : Int × Nat) :
    (issued ++ [y])[issued.length]? = some y := by
  rw [List.getElem?_append_right (Nat.le_refl _)]
  simp

/-- A rejected call keeps the invariant. -/
theorem DispatchInv.reject {P : Proto} {pending : Nat → pending_request}
    {invoked : List Invocation} {issued : List (Int × Nat)}
    (h : DispatchInv P pending invoked issued) (cmd : Int) (cb : Nat)
    (hcmd : 0 ≤ cmd) (hkind : cmd ≠ (P.APTCMD_STATUS : Int)) :
    DispatchInv P pending
      (invoked ++ [{ callback := cb, cmd := cmd, dec := none, data := issued.length }])
      (issued ++ [(cmd, cb)]) := by
  refine ⟨?_, ?_, ?_, ?_⟩
  · intro c cb1 h1
    exact getElem?_append_of_some _ _ _ _ (h.slot c cb1 h1)
  · intro k cmd1 cb1 hk
    rcases getElem?_append_cases _ _ _ _ hk with h1 | ⟨_, h1⟩
    · exact h.kind k cmd1 cb1 h1
    · simp only [Prod.mk.injEq] at h1
      rw [h1.1]
      exact ⟨hcmd, hkind⟩
  · intro k cmd1 cb1 hk
    rw [times_invoked_append]
    simp only
    rcases getElem?_append_cases _ _ _ _ hk with h1 | ⟨h1, h2⟩
    · have hlt := getElem?_lt_of_some _ _ _ h1
      have hne : ¬ issued.length = k := by omega
      simp only [hne, if_false, Nat.add_zero]
      exact h.count k cmd1 cb1 h1
    · subst h1
      rw [h.times_invoked_new, h.occupies_new]
      simp
  · intro e he
    rcases List.mem_append.mp he with h1 | h1
    · exact getElem?_append_of_some _ _ _ _ (h.answer e h1)
    · simp only [List.mem_singleton] at h1
      subst h1
      exact getElem?_append_length _ _

/-- A call that stores its request in a free slot keeps the invariant. -/
theorem DispatchInv.store {P : Proto} {pending : Nat → pending_request}
    {invoked : List Invocation} {issued : List (Int × Nat)}
    (h : DispatchInv P pending invoked issued) (cmd sq : Int) (cb : Nat)
    (hcmd : 0 ≤ cmd) (hkind : cmd ≠ (P.APTCMD_STATUS : Int))
    (hfree : (pending cmd.toNat).done_callback = none) :
    DispatchInv P
      (set_slot pending cmd.toNat
        { seq := sq, done_callback := some cb, done_data := issued.length })
      invoked (issued ++ [(cmd, cb)]) := by
  have hnat : ((cmd.toNat : Nat) : Int) = cmd := Int.toNat_of_nonneg hcmd
  refine ⟨?_, ?_, ?_, ?_⟩
  · intro c cb1 h1
    by_cases hc : c = cmd.toNat
    · subst hc
      simp only [set_slot, if_true, Option.some.injEq] at h1 ⊢
      subst h1
      rw [hnat]
      exact getElem?_append_length _ _
    · simp only [set_slot, hc, if_false] at h1 ⊢
      exact getElem?_append_of_some _ _ _ _ (h.slot c cb1 h1)
  · intro k cmd1 cb1 hk
    rcases getElem?_append_cases _ _ _ _ hk with h1 | ⟨_, h1⟩
    · exact h.kind k cmd1 cb1 h1
    · simp only [Prod.mk.injEq] at h1
      rw [h1.1]
      exact ⟨hcmd, hkind⟩
  · intro k cmd1 cb1 hk
    rcases getElem?_append_cases _ _ _ _ hk with h1 | ⟨h1, h2⟩
    · have hlt := getElem?_lt_of_some _ _ _ h1
      rw [h.count k cmd1 cb1 h1]
      by_cases hc : cmd1.toNat = cmd.toNat
      · have hne : ¬ issued.length = k := by omega
        simp [occupies, set_slot, hc, hfree, hne]
      · simp [occupies, set_slot, hc]
    · subst h1
      simp only [Prod.mk.injEq] at h2
      rw [h.times_invoked_new, h2.1]
      simp [occupies, set_slot]
  · intro e he
    exact getElem?_append_of_some _ _ _ _ (h.answer e he)

/-- Every `call_apt_worker` call that returns keeps the invariant. -/
theorem DispatchInv.after_call {P : Proto} {s s1 : State} {issued : List (Int × Nat)}
    (h : DispatchInv P s.pending s.invoked issued) (cmd state : Int) (data : List Nat)
    (len : Int) (cb : Nat) (wr rest : List WriteEvent)
    (hkind : cmd ≠ (P.APTCMD_STATUS : Int))
    (hcall : AptWorkerClient.call_apt_worker P s cmd state data len cb issued.length wr =
      Except.ok (s1, rest)) :
    DispatchInv P s1.pending s1.invoked (issued ++ [(cmd, cb)]) := by
  obtain ⟨hcmd, hshape⟩ := call_apt_worker_shape P s cmd state data len cb _ wr s1 rest hcall
  have hnat : ((cmd.toNat : Nat) : Int) = cmd := Int.toNat_of_nonneg hcmd.1
  rcases hshape with ⟨h1, h2⟩ | ⟨hfree, h1, h2⟩ | ⟨hfree, h1, h2⟩
  · rw [h1, h2]
    exact h.reject cmd cb hcmd.1 hkind
  · rw [h1, h2]
    exact h.store cmd s.seq cb hcmd.1 hkind hfree
  · have hst := h.store cmd s.seq cb hcmd.1 hkind hfree
    have hres := hst.resolve cmd.toNat cb none (by simp [set_slot])
    have hp : set_slot (set_slot s.pending cmd.toNat
          { seq := s.seq, done_callback := some cb, done_data := issued.length }) cmd.toNat
          { set_slot s.pending cmd.toNat
              { seq := s.seq, done_callback := some cb, done_data := issued.length } cmd.toNat
            with done_callback := none } =
        set_slot s.pending cmd.toNat
          { seq := s.seq, done_callback := none, done_data := issued.length } := by
      funext j
      by_cases hj : j = cmd.toNat <;> simp [set_slot, hj]
    rw [hp] at hres
    rw [h1, h2]
    simpa [set_slot, hnat] using hres

/-- Every `handle_one_apt_worker_response` call that returns keeps the invariant. -/
theorem DispatchInv.after_response {P : Proto} {s s1 : State}
    {issued : List (Int × Nat)} (h : DispatchInv P s.pending s.invoked issued)
    (pipe rest : List ReadEvent)
    (hcall : AptWorkerClient.handle_one_apt_worker_response P s pipe = Except.ok (s1, rest)) :
    DispatchInv P s1.pending s1.invoked issued := by
  unfold AptWorkerClient.handle_one_apt_worker_response at hcall
  split at hcall
  · simp at hcall
  · simp at hcall
  · simp only [Except.ok.injEq, Prod.mk.injEq] at hcall
    rename_i rl1 rest1 _
    rw [← hcall.1]
    have h1 : DispatchInv P ({ s with response_len := rl1 } : State).pending
        ({ s with response_len := rl1 } : State).invoked issued := h
    exact h1.after_failure
  · split at hcall
    · simp at hcall
    · rename_i s2 hd
      simp only [Except.ok.injEq, Prod.mk.injEq] at hcall
      rw [← hcall.1]
      rcases dispatch_response_shape P _ _ _ _ hd with ⟨h1, h2⟩ | ⟨_, h1⟩ | ⟨c, cb, h1, h2, h3⟩
      · rw [h1, h2]
        exact h
      · exfalso
        cases hcb : (s.pending P.APTCMD_STATUS).done_callback with
        | none => exact h1 hcb
        | some cb =>
          have hk := h.kind _ _ _ (h.slot _ cb hcb)
          exact hk.2 rfl
      · rw [h2, h3]
        exact h.resolve c cb _ h1

/-- Every step of a run keeps the invariant and records exactly the calls made. -/
theorem DispatchInv.step {P : Proto} {r r1 : Run} (e : Step)
    (h : DispatchInv P r.st.pending r.st.invoked r.issued)
    (hkind : ∀ cmd state data len cb wr, e = Step.call cmd state data len cb wr →
      cmd ≠ (P.APTCMD_STATUS : Int))
    (hstep : AptWorkerClient.step P r e = Except.ok r1) :
    DispatchInv P r1.st.pending r1.st.invoked r1.issued ∧
      r1.issued = r.issued ++ calls_of [e] := by
  cases e with
  | call cmd state data len cb wr =>
    simp only [AptWorkerClient.step] at hstep
    split at hstep
    · rename_i s1 rest hcall
      simp only [Except.ok.injEq] at hstep
      subst hstep
      exact ⟨h.after_call cmd state data len cb wr rest (hkind _ _ _ _ _ _ rfl) hcall, rfl⟩
    · simp at hstep
  | response pipe =>
    simp only [AptWorkerClient.step] at hstep
    split at hstep
    · rename_i s1 rest hcall
      simp only [Except.ok.injEq] at hstep
      subst hstep
      exact ⟨h.after_response pipe rest hcall, by simp [calls_of]⟩
    · simp at hstep
  | failure =>
    simp only [AptWorkerClient.step, Except.ok.injEq] at hstep
    subst hstep
    exact ⟨h.after_failure, by simp [calls_of]⟩

theorem calls_of_cons (e : Step) (es : List Step) :
    calls_of (e :: es) = calls_of [e] ++ calls_of es := by
  cases e <;> simp [calls_of]

/-- Every run keeps the invariant and records exactly the calls made. -/
theorem DispatchInv.run {P : Proto} (steps : List Step) : ∀ (r r1 : Run),
    DispatchInv P r.st.pending r.st.invoked r.issued →
    (∀ cmd state data len cb wr, Step.call cmd state data len cb wr ∈ steps →
      cmd ≠ (P.APTCMD_STATUS : Int)) →
    AptWorkerClient.run P r steps = Except.ok r1 →
    DispatchInv P r1.st.pending r1.st.invoked r1.issued ∧
      r1.issued = r.issued ++ calls_of steps := by
  induction steps with
  | nil =>
    intro r r1 h _ hrun
    simp only [AptWorkerClient.run, Except.ok.injEq] at hrun
    subst hrun
    exact ⟨h, by simp [calls_of]⟩
  | cons e es ih =>
    intro r r1 h hkind hrun
    simp only [AptWorkerClient.run] at hrun
    split at hrun
    · rename_i r2 hstep
      obtain ⟨h2, hi2⟩ := h.step e
        (fun cmd state data len cb wr he => hkind cmd state data len cb wr
          (he ▸ List.mem_cons_self _ _)) hstep
      obtain ⟨h3, hi3⟩ := ih r2 r1 h2
        (fun cmd state data len cb wr he => hkind cmd state data len cb wr
          (List.mem_cons_of_mem _ he)) hrun
      refine ⟨h3, ?_⟩
      rw [hi3, hi2, calls_of_cons e es, List.append_assoc]
    · simp at hrun

/-- The invariant holds when no slot is occupied and nothing has happened yet. -/
theorem DispatchInv.start (P : Proto) (s : State)
    (hempty : ∀ c, (s.pending c).done_callback = none) (hfresh : s.invoked = []) :
    DispatchInv P s.pending s.invoked [] := by
  refine ⟨?_, ?_, ?_, ?_⟩
  · intro c cb h
    rw [hempty c] at h
    cases h
  · intro k cmd cb h
    simp at h
  · intro k cmd cb h
    simp at h
  · intro e he
    rw [hfresh] at he
    cases he

/-- C1: exactly-one-callback invariant of the dispatch table.  Start with no slot
occupied and no callback invoked yet, and take any sequence of `call_apt_worker`
calls on non-status command kinds, `handle_one_apt_worker_response` calls and
transport failures that return (callbacks being recorded, not run; the k-th call
carries `done_data = k`).  In the state reached, the calls recorded are exactly
the calls made, and for each of them, call `k` for command `cmd` with callback
`cb`: its callback has been invoked exactly once if its request does not occupy
`pending[cmd]` and not at all if it does; never more than once; and every
invocation carrying `k` is an invocation of `cb` for `cmd`. -/
theorem exactly_one_callback (P : Proto) (s0 : State) (steps : List Step) (r : Run)
    (hempty : ∀ c, (s0.pending c).done_callback = none)
    (hfresh : s0.invoked = [])
    (hkinds : ∀ cmd state data len cb wr, Step.call cmd state data len cb wr ∈ steps →
      cmd ≠ (P.APTCMD_STATUS : Int))
    (hrun : run P { st := s0, issued := [] } steps = Except.ok r) :
    r.issued = calls_of steps ∧
    ∀ (k : Nat) (cmd : Int) (cb : Nat), r.issued[k]? = some (cmd, cb) →
      times_invoked r.st.invoked k = (if occupies r.st.pending cmd k then 0 else 1) ∧
      times_invoked r.st.invoked k ≤ 1 ∧
      ∀ e ∈ r.st.invoked, e.data = k → e.callback = cb ∧ e.cmd = cmd := by
  obtain ⟨hinv, hiss⟩ := DispatchInv.run steps { st := s0, issued := [] } r
    (DispatchInv.start P s0 hempty hfresh) hkinds hrun
  refine ⟨by simpa using hiss, ?_⟩
  intro k cmd cb hk
  have hc := hinv.count k cmd cb hk
  refine ⟨hc, ?_, ?_⟩
  · rw [hc]
    split <;> omega
  · intro e he hd
    have ha := hinv.answer e he
    rw [hd, hk] at ha
    simp only [Option.some.injEq, Prod.mk.injEq] at ha
    exact ⟨ha.2.symm, ha.1.symm⟩

/-- Witness for C1: the example run returns, and the invariant holds for each of
its four calls. -/
theorem exactly_one_callback_witness :
    ∃ r, run demo_proto { st := demo_started, issued := [] } demo_steps = Except.ok r ∧
      r.issued = [(2, 11), (2, 12), (3, 13), (5, 14)] ∧
      ∀ (k : Nat) (cmd : Int) (cb : Nat), r.issued[k]? = some (cmd, cb) →
        times_invoked r.st.invoked k = (if occupies r.st.pending cmd k then 0 else 1) ∧
        times_invoked r.st.invoked k ≤ 1 ∧
        ∀ e ∈ r.st.invoked, e.data = k → e.callback = cb ∧ e.cmd = cmd := by
  have hrun : ∃ r, run demo_proto { st := demo_started, issued := [] } demo_steps =
      Except.ok r := by
    simp [run, step, demo_steps, demo_started, demo_proto, initial_state, call_apt_worker,
      next_seq, send_apt_worker_request, must_write, must_write_loop, sys_write, set_slot,
      handle_one_apt_worker_response, read_response, must_read, must_read_loop, sys_read,
      bytes_header, bytes_int32, wrap32, dispatch_response, invoke, cancel_request,
      annoy_user_with_log]
  obtain ⟨r, hr⟩ := hrun
  have h := exactly_one_callback demo_proto demo_started demo_steps r
    (fun c => rfl) rfl
    (by
      intro cmd state data len cb wr hmem
      simp [demo_steps] at hmem
      rcases hmem with h | h | h | h <;> (rw [h.1]; decide))
    hr
  refine ⟨r, hr, ?_, h.2⟩
  rw [h.1]
  rfl

/-! ## The progress stream: line reconstruction -/

theorem line_end_cons (b : Nat) (bs : List Nat) :
    (line_end (b :: bs)).map Fin.val =
      if b = 10 then some 0 else if b = 0 then none
      else ((line_end bs).map Fin.val).map (fun i => i + 1) := by
  by_cases h10 : b = 10
  · simp [line_end, h10]
  · by_cases h0 : b = 0
    · simp [line_end, h0]
    · simp only [line_end, h10, h0, if_false, Option.map_map]
      cases line_end bs <;> simp

theorem line_end_lt (s : List Nat) (i : Nat) (h : (line_end s).map Fin.val = some i) :
    i < s.length := by
  cases hl : line_end s with
  | none => rw [hl] at h; simp at h
  | some j =>
    rw [hl] at h
    simp only [Option.map_some', Option.some.injEq] at h
    rw [← h]
    exact j.isLt

/-- Bytes appended after a newline do not move it. -/
theorem line_end_append (s c : List Nat) (i : Nat)
    (h : (line_end s).map Fin.val = some i) : (line_end (s ++ c)).map Fin.val = some i := by
  induction s generalizing i with
  | nil => simp [line_end] at h
  | cons b bs ih =>
    rw [line_end_cons] at h
    rw [List.cons_append, line_end_cons]
    by_cases h10 : b = 10
    · simpa [h10] using h
    · by_cases h0 : b = 0
      · simp [h10, h0] at h
      · simp only [h10, h0, if_false] at h ⊢
        cases hl : (line_end bs).map Fin.val with
        | none => rw [hl] at h; simp at h
        | some j =>
          rw [hl] at h
          rw [ih j hl]
          exact h

/-- One turn of the loop of `read_pmstatus`. -/
theorem extract_lines_eq (atof_int : List Nat → Int) (p : PmStatus) :
    extract_lines atof_int p =
      match (line_end p.pmstatus_line).map Fin.val with
      | none => p
      | some i =>
        extract_lines atof_int
          { p with
              pmstatus_line := p.pmstatus_line.drop (i + 1)
              interpreted := p.interpreted ++ [p.pmstatus_line.take i]
              progress := interpret_pmstatus atof_int p.progress (p.pmstatus_line.take i) } := by
  rw [extract_lines]
  cases line_end p.pmstatus_line <;> rfl

/-- Taking out the lines, appending bytes and taking out the lines again gives
the same as appending the bytes first. -/
theorem extract_lines_append (atof_int : List Nat → Int) (n : Nat) :
    ∀ (p : PmStatus) (c : List Nat), p.pmstatus_line.length = n →
    extract_lines atof_int { p with pmstatus_line := p.pmstatus_line ++ c } =
      extract_lines atof_int
        { extract_lines atof_int p with
            pmstatus_line := (extract_lines atof_int p).pmstatus_line ++ c } := by
  induction n using Nat.strong_induction_on with
  | _ n ih =>
    intro p c hn
    cases hl : (line_end p.pmstatus_line).map Fin.val with
    | none =>
      have : extract_lines atof_int p = p := by
        rw [extract_lines_eq, hl]
      rw [this]
    | some i =>
      have hlt := line_end_lt _ _ hl
      have hp : extract_lines atof_int p = extract_lines atof_int
          { p with
              pmstatus_line := p.pmstatus_line.drop (i + 1)
              interpreted := p.interpreted ++ [p.pmstatus_line.take i]
              progress := interpret_pmstatus atof_int p.progress (p.pmstatus_line.take i) } := by
        rw [extract_lines_eq atof_int p, hl]
      have hq : extract_lines atof_int { p with pmstatus_line := p.pmstatus_line ++ c } =
          extract_lines atof_int
            { p with
                pmstatus_line := p.pmstatus_line.drop (i + 1) ++ c
                interpreted := p.interpreted ++ [p.pmstatus_line.take i]
                progress :=
                  interpret_pmstatus atof_int p.progress (p.pmstatus_line.take i) } := by
        rw [extract_lines_eq atof_int { p with pmstatus_line := p.pmstatus_line ++ c }]
        simp only [line_end_append _ c i hl]
        rw [List.drop_append_of_le_length (by omega), List.take_append_of_le_length (by omega)]
      rw [hq, hp]
      exact ih (n - (i + 1)) (by omega)
        { p with
            pmstatus_line := p.pmstatus_line.drop (i + 1)
            interpreted := p.interpreted ++ [p.pmstatus_line.take i]
            progress := interpret_pmstatus atof_int p.progress (p.pmstatus_line.take i) }
        c (by simp only [List.length_drop]; omega)

/-- After the loop of `read_pmstatus` no complete line is left. -/
theorem extract_lines_done (atof_int : List Nat → Int) (n : Nat) :
    ∀ (p : PmStatus), p.pmstatus_line.length = n →
    (line_end (extract_lines atof_int p).pmstatus_line).map Fin.val = none := by
  induction n using Nat.strong_induction_on with
  | _ n ih =>
    intro p hn
    cases hl : (line_end p.pmstatus_line).map Fin.val with
    | none =>
      rw [extract_lines_eq, hl]
      exact hl
    | some i =>
      have hlt := line_end_lt _ _ hl
      rw [extract_lines_eq atof_int p, hl]
      exact ih (n - (i + 1)) (by omega) _ (by simp only [List.length_drop]; omega)

theorem extract_lines_of_done (atof_int : List Nat → Int) (p : PmStatus)
    (h : (line_end p.pmstatus_line).map Fin.val = none) : extract_lines atof_int p = p := by
  rw [extract_lines_eq, h]

/-- Receiving a byte string piece by piece gives the same as receiving it in one
piece. -/
theorem foldl_pmstatus_receive (atof_int : List Nat → Int) (chunks : List (List Nat)) :
    ∀ (p : PmStatus), (line_end p.pmstatus_line).map Fin.val = none →
    chunks.foldl (pmstatus_receive atof_int) p = pmstatus_receive atof_int p chunks.flatten := by
  induction chunks with
  | nil =>
    intro p hp
    simp only [List.foldl_nil, List.flatten_nil, pmstatus_receive, List.append_nil]
    exact (extract_lines_of_done atof_int p hp).symm
  | cons c cs ih =>
    intro p _
    simp only [List.foldl_cons, List.flatten_cons]
    rw [ih (pmstatus_receive atof_int p c) (extract_lines_done atof_int _ _ rfl)]
    simp only [pmstatus_receive]
    have := extract_lines_append atof_int _ { p with pmstatus_line := p.pmstatus_line ++ c }
      cs.flatten rfl
    simp only [List.append_assoc] at this
    exact this.symm

theorem line_chunks_from_flatten (s : List Nat) :
    ∀ cur, (line_chunks_from s cur).flatten = cur ++ s := by
  induction s with
  | nil =>
    intro cur
    by_cases h : cur = [] <;> simp [line_chunks_from, h]
  | cons b bs ih =>
    intro cur
    by_cases hb : b = 10
    · simp [line_chunks_from, hb, ih]
    · simp [line_chunks_from, hb, ih]

/-- The watch, fed with one non-empty piece of at most 256 bytes per
notification, receives the pieces one after the other. -/
theorem pmstatus_watch_chunks (atof_int : List Nat → Int) (fd : Int) (hfd : 0 ≤ fd)
    (rest : List ReadEvent) (chunks : List (List Nat)) :
    ∀ (p : PmStatus), (∀ c ∈ chunks, c ≠ [] ∧ c.length ≤ 256) →
    pmstatus_watch atof_int fd chunks.length p (chunks.map ReadEvent.chunk ++ rest) =
      (chunks.foldl (pmstatus_receive atof_int) p, rest) := by
  have hfd1 : ¬ fd < 0 := by omega
  induction chunks with
  | nil => intro p _; rfl
  | cons c cs ih =>
    intro p h
    obtain ⟨hne, hle⟩ := h c (List.mem_cons_self _ _)
    have hpos : 0 < c.length := List.length_pos.mpr hne
    have hpos1 : (0 : Int) < (c.length : Int) := by omega
    simp only [List.length_cons, List.map_cons, List.cons_append, pmstatus_watch, read_pmstatus,
      sys_read, hfd1, if_false, hle, if_true, hpos1, List.foldl_cons]
    exact ih _ (fun d hd => h d (List.mem_cons_of_mem _ hd))

/-- Where the reader finds the first line end of a NUL-free byte string, and how
the string splits into lines there. -/
theorem split_lines_from_line_end (s : List Nat) : ∀ (cur : List Nat), 0 ∉ s →
    match (line_end s).map Fin.val with
    | none => split_lines_from s cur = ([], cur ++ s)
    | some i => split_lines_from s cur =
        ((cur ++ s.take i) :: (split_lines_from (s.drop (i + 1)) []).1,
         (split_lines_from (s.drop (i + 1)) []).2) := by
  induction s with
  | nil => intro cur _; simp [line_end, split_lines_from]
  | cons b bs ih =>
    intro cur h0
    have hb0 : ¬ b = 0 := fun e => h0 (e ▸ List.mem_cons_self _ _)
    have hbs : 0 ∉ bs := fun e => h0 (List.mem_cons_of_mem _ e)
    rw [line_end_cons]
    by_cases h10 : b = 10
    · simp [h10, split_lines_from]
    · simp only [h10, hb0, if_false]
      have := ih (cur ++ [b]) hbs
      cases hl : (line_end bs).map Fin.val with
      | none =>
        rw [hl] at this
        simp only at this
        simp [split_lines_from, h10, this]
      | some i =>
        rw [hl] at this
        simp only at this
        simp [split_lines_from, h10, this]

/-- On a NUL-free byte string the loop of `read_pmstatus` interprets the
newline-terminated lines in order and leaves the unterminated rest. -/
theorem extract_lines_split (atof_int : List Nat → Int) (n : Nat) :
    ∀ (p : PmStatus), p.pmstatus_line.length = n → 0 ∉ p.pmstatus_line →
    extract_lines atof_int p =
      { pmstatus_line := (split_lines_from p.pmstatus_line []).2
        channel_up := p.channel_up
        interpreted := p.interpreted ++ (split_lines_from p.pmstatus_line []).1
        progress := (split_lines_from p.pmstatus_line []).1.foldl
          (interpret_pmstatus atof_int) p.progress } := by
  induction n using Nat.strong_induction_on with
  | _ n ih =>
    intro p hn h0
    have hs := split_lines_from_line_end p.pmstatus_line [] h0
    rw [extract_lines_eq]
    cases hl : (line_end p.pmstatus_line).map Fin.val with
    | none =>
      rw [hl] at hs
      simp only at hs
      simp [hs]
    | some i =>
      rw [hl] at hs
      simp only at hs
      have hlt := line_end_lt _ _ hl
      have h0d : 0 ∉ p.pmstatus_line.drop (i + 1) := fun e => h0 (List.mem_of_mem_drop e)
      simp only
      rw [ih (n - (i + 1)) (by omega) _ (by simp only [List.length_drop]; omega) h0d]
      simp [hs]

/-- C11: progress line reconstruction is independent of chunking.  Starting from
an empty accumulator, feeding a byte string to `read_pmstatus` in any
consecutive non-empty pieces of at most 256 bytes, one per notification, makes
the same `interpret_pmstatus` calls with the same results, and leaves the same
accumulator, as feeding it line by line; and when the string holds no NUL byte
the calls are exactly one per newline-terminated line, in order, and the
accumulator is the unterminated rest after the last newline. -/
theorem progress_lines_chunking (atof_int : List Nat → Int) (fd : Int)
    (chunks : List (List Nat)) (rest : List ReadEvent)
    (hfd : 0 ≤ fd) (hchunks : ∀ c ∈ chunks, c ≠ [] ∧ c.length ≤ 256) :
    (pmstatus_watch atof_int fd chunks.length pmstatus_fresh
        (chunks.map ReadEvent.chunk ++ rest)).1 =
      (line_chunks chunks.flatten).foldl (pmstatus_receive atof_int) pmstatus_fresh ∧
    (0 ∉ chunks.flatten →
      (pmstatus_watch atof_int fd chunks.length pmstatus_fresh
          (chunks.map ReadEvent.chunk ++ rest)).1 =
        { pmstatus_line := (split_lines_from chunks.flatten []).2
          channel_up := true
          interpreted := (split_lines_from chunks.flatten []).1
          progress := (split_lines_from chunks.flatten []).1.foldl
            (interpret_pmstatus atof_int) [] }) := by
  have hfresh : (line_end pmstatus_fresh.pmstatus_line).map Fin.val = none := by
    simp [pmstatus_fresh, line_end]
  rw [pmstatus_watch_chunks atof_int fd hfd rest chunks pmstatus_fresh hchunks]
  simp only
  rw [foldl_pmstatus_receive atof_int chunks pmstatus_fresh hfresh,
    foldl_pmstatus_receive atof_int (line_chunks chunks.flatten) pmstatus_fresh hfresh]
  refine ⟨?_, ?_⟩
  · simp [line_chunks, line_chunks_from_flatten]
  · intro h0
    simp only [pmstatus_receive]
    rw [extract_lines_split atof_int _ _ rfl (by simpa [pmstatus_fresh] using h0)]
    simp [pmstatus_fresh]

/-- Witness for C11: "pmstat", "us:x:42:Inst", "alling\n" arrive in three
notifications; one line is interpreted and gives percentage 42 and title
"Installing". -/
theorem progress_lines_chunking_witness :
    (pmstatus_watch leading_decimal 6 3 pmstatus_fresh
        [ReadEvent.chunk [112, 109, 115, 116, 97, 116],
         ReadEvent.chunk [117, 115, 58, 120, 58, 52, 50, 58, 73, 110, 115, 116],
         ReadEvent.chunk [97, 108, 108, 105, 110, 103, 10]]).1 =
      { pmstatus_line := []
        channel_up := true
        interpreted := [[112, 109, 115, 116, 97, 116, 117, 115, 58, 120, 58, 52, 50, 58,
                         73, 110, 115, 116, 97, 108, 108, 105, 110, 103]]
        progress := [(42, 100)] } ∧
    interpret_pmstatus_locals leading_decimal
        [112, 109, 115, 116, 97, 116, 117, 115, 58, 120, 58, 52, 50, 58,
         73, 110, 115, 116, 97, 108, 108, 105, 110, 103] =
      some (42, [73, 110, 115, 116, 97, 108, 108, 105, 110, 103]) := by
  have h := (progress_lines_chunking leading_decimal 6
    [[112, 109, 115, 116, 97, 116], [117, 115, 58, 120, 58, 52, 50, 58, 73, 110, 115, 116],
     [97, 108, 108, 105, 110, 103, 10]] [] (by decide) (by simp)).2 (by simp)
  simp only [List.map_cons, List.map_nil, List.append_nil, List.length_cons, List.length_nil]
    at h
  refine ⟨?_, ?_⟩
  · rw [h]
    simp [split_lines_from, interpret_pmstatus, interpret_pmstatus_locals, c_string, c_strchr,
      pmstatus_tag, leading_decimal, decimal_value]
  · simp [interpret_pmstatus_locals, c_string, c_strchr, pmstatus_tag, leading_decimal,
      decimal_value]

/-! ## The progress stream: status lines -/

theorem c_string_of_no_nul (s : List Nat) (h : 0 ∉ s) : c_string s = s := by
  unfold c_string
  rw [List.takeWhile_eq_self_iff]
  intro b hb
  have : b ≠ 0 := fun e => h (e ▸ hb)
  simpa using this

theorem c_strchr_append (l x : List Nat) (c : Nat) (h : c ∉ l) :
    c_strchr (l ++ c :: x) c = some (c :: x) := by
  induction l with
  | nil => simp [c_strchr]
  | cons b bs ih =>
    have hb : ¬ b = c := fun e => h (e ▸ List.mem_cons_self _ _)
    simp only [List.cons_append, c_strchr, hb, if_false]
    exact ih (fun e => h (List.mem_cons_of_mem _ e))

theorem c_strchr_none (l : List Nat) (c : Nat) (h : c ∉ l) : c_strchr l c = none := by
  induction l with
  | nil => simp [c_strchr]
  | cons b bs ih =>
    have hb : ¬ b = c := fun e => h (e ▸ List.mem_cons_self _ _)
    simp only [c_strchr, hb, if_false]
    exact ih (fun e => h (List.mem_cons_of_mem _ e))

/-- The locals of `interpret_pmstatus` on a status line. -/
theorem interpret_pmstatus_locals_status_line (atof_int : List Nat → Int)
    (token digits : List Nat) (label : Option (List Nat))
    (htoken : 58 ∉ token ∧ 0 ∉ token)
    (hdigits : ∀ d ∈ digits, 48 ≤ d ∧ d ≤ 57)
    (hlabel : ∀ l, label = some l → 0 ∉ l) :
    interpret_pmstatus_locals atof_int (status_line token digits label) =
      some (atof_int (digits ++ match label with
                                | none => []
                                | some l => 58 :: l),
            label.getD working_title) := by
  have hd58 : 58 ∉ digits := fun e => by have := hdigits 58 e; omega
  have hd0 : 0 ∉ digits := fun e => by have := hdigits 0 e; omega
  have hnul : 0 ∉ status_line token digits label := by
    cases label with
    | none =>
      simp only [status_line, pmstatus_tag, List.append_nil]
      intro e
      simp only [List.mem_append, List.mem_cons] at e
      rcases e with e | e | e | e
      · simp at e
      · exact htoken.2 e
      · omega
      · exact hd0 e
    | some l =>
      have hl := hlabel l rfl
      simp only [status_line, pmstatus_tag]
      intro e
      simp only [List.mem_append, List.mem_cons] at e
      rcases e with e | e | e | e | e | e
      · simp at e
      · exact htoken.2 e
      · omega
      · exact hd0 e
      · omega
      · exact hl e
  have htake : (status_line token digits label).take 9 = pmstatus_tag := by
    unfold status_line
    exact List.take_left' rfl
  have hdrop : (status_line token digits label).drop 9 =
      token ++ 58 :: (digits ++ match label with
                                | none => []
                                | some l => 58 :: l) := by
    unfold status_line
    exact List.drop_left' rfl
  unfold interpret_pmstatus_locals
  simp only [c_string_of_no_nul _ hnul, htake, if_true, hdrop, c_strchr_append _ _ 58 htoken.1,
    List.drop_succ_cons, List.drop_zero]
  cases label with
  | none =>
    simp only [List.append_nil, c_strchr_none _ 58 hd58, Option.getD_none]
  | some l =>
    simp only [c_strchr_append _ _ 58 hd58, List.drop_succ_cons, List.drop_zero,
      Option.getD_some]

/-- C12 (counterexample): the lines "pmstatus:x:42:Installing" and
"pmstatus:x:42" have the titles "Installing" and "Working", and both forward
the same update, 42 out of 100: the update does not carry the label. -/
theorem label_is_not_forwarded :
    interpret_pmstatus_locals leading_decimal
        (status_line [120] [52, 50] (some [73, 110, 115, 116, 97, 108, 108, 105, 110, 103])) =
      some (42, [73, 110, 115, 116, 97, 108, 108, 105, 110, 103]) ∧
    interpret_pmstatus_locals leading_decimal (status_line [120] [52, 50] none) =
      some (42, working_title) ∧
    interpret_pmstatus leading_decimal []
        (status_line [120] [52, 50] (some [73, 110, 115, 116, 97, 108, 108, 105, 110, 103])) =
      [(42, 100)] ∧
    interpret_pmstatus leading_decimal [] (status_line [120] [52, 50] none) = [(42, 100)] := by
  refine ⟨?_, ?_, ?_, ?_⟩ <;>
    simp [interpret_pmstatus, interpret_pmstatus_locals, status_line, c_string, c_strchr,
      pmstatus_tag, leading_decimal, decimal_value, working_title]

/-- C12 (amended): for a line `pmstatus:<token>:<percentage>[:<label>]` whose token
holds no colon and whose percentage is a run of decimal digits (a decimal
integer in 0..100 among them) that the C library reads as its value,
`interpret_pmstatus` makes
exactly one call `set_progress (op_general, percentage, 100)`; its local `title`
is the text after the third colon, or "Working" when there is none, and is not
passed on.  For a line that does not begin with "pmstatus:" it makes no call. -/
theorem interpret_pmstatus_forwards (atof_int : List Nat → Int) (progress : List (Int × Int))
    (token digits : List Nat) (label : Option (List Nat)) (other : List Nat)
    (htoken : 58 ∉ token ∧ 0 ∉ token)
    (hdigits : digits ≠ [] ∧ ∀ d ∈ digits, 48 ≤ d ∧ d ≤ 57)
    (hlabel : ∀ l, label = some l → 0 ∉ l)
    (hatof : atof_int (digits ++ match label with
                                 | none => []
                                 | some l => 58 :: l) = decimal_value digits)
    (hother : other.take 9 ≠ pmstatus_tag) :
    interpret_pmstatus atof_int progress (status_line token digits label) =
      progress ++ [(decimal_value digits, 100)] ∧
    interpret_pmstatus_locals atof_int (status_line token digits label) =
      some (decimal_value digits, label.getD working_title) ∧
    interpret_pmstatus atof_int progress other = progress := by
  have hloc := interpret_pmstatus_locals_status_line atof_int token digits label htoken
    hdigits.2 hlabel
  rw [hatof] at hloc
  refine ⟨?_, hloc, ?_⟩
  · simp [interpret_pmstatus, hloc]
  · have hne : ¬ (c_string other).take 9 = pmstatus_tag := by
      intro e
      apply hother
      have hpre : pmstatus_tag <+: other := by
        have h1 : pmstatus_tag <+: c_string other := by
          rw [← e]
          exact List.take_prefix _ _
        exact h1.trans (List.takeWhile_prefix _)
      have := List.prefix_iff_eq_take.mp hpre
      simpa [pmstatus_tag] using this.symm
    simp [interpret_pmstatus, interpret_pmstatus_locals, hne]

/-- Witness for C12 (amended): the line "pmstatus:x:42:Installing", and
"status:42" as a line without the tag. -/
theorem interpret_pmstatus_forwards_witness :
    interpret_pmstatus leading_decimal []
        (status_line [120] [52, 50] (some [73, 110, 115, 116, 97, 108, 108, 105, 110, 103])) =
      [] ++ [(decimal_value [52, 50], 100)] ∧
    interpret_pmstatus_locals leading_decimal
        (status_line [120] [52, 50] (some [73, 110, 115, 116, 97, 108, 108, 105, 110, 103])) =
      some (decimal_value [52, 50],
        (some [73, 110, 115, 116, 97, 108, 108, 105, 110, 103]).getD working_title) ∧
    interpret_pmstatus leading_decimal [] [115, 116, 97, 116, 117, 115, 58, 52, 50] = [] :=
  interpret_pmstatus_forwards leading_decimal [] [120] [52, 50]
    (some [73, 110, 115, 116, 97, 108, 108, 105, 110, 103])
    [115, 116, 97, 116, 117, 115, 58, 52, 50]
    (by simp) ⟨by simp, by simp⟩ (by simp)
    (by simp [leading_decimal, decimal_value]) (by simp [pmstatus_tag])

/-! ## The startup handshake: order of the opens -/

theorem successes_append (opened : List (Nat × Option Nat)) (k : Nat) (res : Option Nat) :
    successes (opened ++ [(k, res)]) =
      if res.isSome then successes opened ++ [k] else successes opened := by
  cases res <;> simp [successes, List.filterMap_append]

theorem fd_of_assign_fd_ne (g : State) (step k : Nat) (v : Int) (h : k ≠ step) :
    fd_of (assign_fd g step v) k = fd_of g k := by
  rcases step with _ | _ | _ | _ | step <;> rcases k with _ | _ | _ | _ | k <;>
    simp_all [fd_of, assign_fd]

theorem fd_of_assign_fd (g : State) (step : Nat) (v : Int) (h : step < 4) :
    fd_of (assign_fd g step v) step = v := by
  rcases step with _ | _ | _ | _ | step
  · rfl
  · rfl
  · rfl
  · rfl
  · omega

theorem assign_fd_frame (g : State) (step : Nat) (v : Int) :
    (assign_fd g step v).apt_worker_started = g.apt_worker_started ∧
    (assign_fd g step v).pending = g.pending ∧
    (assign_fd g step v).seq = g.seq ∧
    (assign_fd g step v).invoked = g.invoked := by
  rcases step with _ | _ | _ | _ | step <;> simp [assign_fd]

theorem mem_successes (opened : List (Nat × Option Nat)) (k fd : Nat)
    (h : (k, some fd) ∈ opened) : k ∈ successes opened := by
  unfold successes
  rw [List.mem_filterMap]
  exact ⟨(k, some fd), h, by simp⟩

/-- What one run of the loop of `try_apt_worker_start` keeps and establishes. -/
theorem open_files_inv (opens : Nat → Option Nat) (m : Nat) :
    ∀ (step : Nat) (g : State) (opened : List (Nat × Option Nat)), 4 - step = m →
    (∀ (i k : Nat) (res : Option Nat), opened[i]? = some (k, res) →
      k < 4 ∧ successes (opened.take i) = List.range k) →
    successes opened = List.range step → step ≤ 4 →
    (∀ (k fd : Nat), (k, some fd) ∈ opened → fd_of g k = (fd : Int)) →
    (∀ (i k : Nat) (res : Option Nat),
        (open_files opens step g opened).2.2[i]? = some (k, res) →
        k < 4 ∧ successes ((open_files opens step g opened).2.2.take i) = List.range k) ∧
      successes (open_files opens step g opened).2.2 =
        List.range (open_files opens step g opened).1 ∧
      step ≤ (open_files opens step g opened).1 ∧ (open_files opens step g opened).1 ≤ 4 ∧
      (∀ (k fd : Nat), (k, some fd) ∈ (open_files opens step g opened).2.2 →
        fd_of (open_files opens step g opened).2.1 k = (fd : Int)) ∧
      (open_files opens step g opened).2.1.apt_worker_started = g.apt_worker_started ∧
      (open_files opens step g opened).2.1.pending = g.pending ∧
      (open_files opens step g opened).2.1.seq = g.seq ∧
      (open_files opens step g opened).2.1.invoked = g.invoked := by
  induction m using Nat.strong_induction_on with
  | _ m ih =>
    intro step g opened hm hord hsucc hle hfds
    rw [open_files]
    by_cases hlt : step < 4
    swap
    · rw [if_neg hlt]
      exact ⟨hord, hsucc, Nat.le_refl _, hle, hfds, rfl, rfl, rfl, rfl⟩
    rw [if_pos hlt]
    -- the record after the attempt for `step`
    have hord1 : ∀ (res0 : Option Nat) (i k : Nat) (res : Option Nat),
        (opened ++ [(step, res0)])[i]? = some (k, res) →
        k < 4 ∧ successes ((opened ++ [(step, res0)]).take i) = List.range k := by
      intro res0 i k res h
      by_cases hi : i < opened.length
      · rw [List.getElem?_append_left hi] at h
        rw [List.take_append_of_le_length (by omega)]
        exact hord i k res h
      · rw [List.getElem?_append_right (by omega)] at h
        by_cases hi0 : i - opened.length = 0
        · rw [hi0] at h
          simp only [List.getElem?_cons_zero, Option.some.injEq, Prod.mk.injEq] at h
          have hie : i = opened.length := by omega
          rw [← h.1, hie, List.take_left]
          exact ⟨hlt, hsucc⟩
        · obtain ⟨j, hj⟩ := Nat.exists_eq_succ_of_ne_zero hi0
          rw [hj] at h
          simp at h
    have hfds1 : ∀ (v : Int) (k fd : Nat), (k, some fd) ∈ opened →
        fd_of (assign_fd g step v) k = (fd : Int) := by
      intro v k fd h
      have hk : k ∈ List.range step := hsucc ▸ mem_successes opened k fd h
      rw [List.mem_range] at hk
      rw [fd_of_assign_fd_ne g step k v (by omega)]
      exact hfds k fd h
    cases ho : opens opened.length with
    | none =>
      simp only
      refine ⟨hord1 none, ?_, Nat.le_refl _, hle, ?_, ?_, ?_, ?_, ?_⟩
      · rw [successes_append]
        simpa using hsucc
      · intro k fd h
        rcases List.mem_append.mp h with h1 | h1
        · exact hfds1 (-1) k fd h1
        · simp at h1
      · exact (assign_fd_frame g step (-1)).1
      · exact (assign_fd_frame g step (-1)).2.1
      · exact (assign_fd_frame g step (-1)).2.2.1
      · exact (assign_fd_frame g step (-1)).2.2.2
    | some fd0 =>
      simp only
      have hsucc1 : successes (opened ++ [(step, some fd0)]) = List.range (step + 1) := by
        rw [successes_append, List.range_succ, hsucc]
        simp
      have hfds2 : ∀ (k fd : Nat), (k, some fd) ∈ opened ++ [(step, some fd0)] →
          fd_of (assign_fd g step (fd0 : Int)) k = (fd : Int) := by
        intro k fd h
        rcases List.mem_append.mp h with h1 | h1
        · exact hfds1 _ k fd h1
        · simp only [List.mem_singleton, Prod.mk.injEq, Option.some.injEq] at h1
          rw [h1.1, h1.2]
          exact fd_of_assign_fd g step _ hlt
      obtain ⟨i1, i2, i3, i4, i5, i6, i7, i8, i9⟩ := ih (4 - (step + 1)) (by omega) (step + 1)
        (assign_fd g step (fd0 : Int)) (opened ++ [(step, some fd0)]) rfl (hord1 (some fd0))
        hsucc1 (by omega) hfds2
      refine ⟨i1, i2, by omega, i4, i5, ?_, ?_, ?_, ?_⟩
      · rw [i6]; exact (assign_fd_frame g step _).1
      · rw [i7]; exact (assign_fd_frame g step _).2.1
      · rw [i8]; exact (assign_fd_frame g step _).2.2.1
      · rw [i9]; exact (assign_fd_frame g step _).2.2.2

/-- The record of opens only grows in the loop of `try_apt_worker_start`, and it
counts the successful opens. -/
theorem open_files_grows (opens : Nat → Option Nat) (m : Nat) :
    ∀ (step : Nat) (g : State) (opened : List (Nat × Option Nat)), 4 - step = m →
    opened <+: (open_files opens step g opened).2.2 ∧
    ((successes opened).length = open_count opens opened.length →
      (successes (open_files opens step g opened).2.2).length =
        open_count opens (open_files opens step g opened).2.2.length) := by
  induction m using Nat.strong_induction_on with
  | _ m ih =>
    intro step g opened hm
    rw [open_files]
    by_cases hlt : step < 4
    swap
    · rw [if_neg hlt]
      exact ⟨List.prefix_refl _, fun h => h⟩
    rw [if_pos hlt]
    cases ho : opens opened.length with
    | none =>
      simp only
      refine ⟨List.prefix_append _ _, ?_⟩
      intro h
      rw [successes_append]
      simp [open_count, ho, h]
    | some fd0 =>
      simp only
      obtain ⟨i1, i2⟩ := ih (4 - (step + 1)) (by omega) (step + 1)
        (assign_fd g step (fd0 : Int)) (opened ++ [(step, some fd0)]) rfl
      refine ⟨(List.prefix_append _ _).trans i1, ?_⟩
      intro h
      apply i2
      rw [successes_append]
      simp [open_count, ho, h]

theorem fd_of_started (g : State) (k : Nat) (b : Bool) :
    fd_of { g with apt_worker_started := b } k = fd_of g k := by
  rcases k with _ | _ | _ | _ | k <;> rfl

/-- The branch of `try_apt_worker_start` in which all four files are open. -/
theorem try_apt_worker_start_done (opens : Nat → Option Nat) (w : Lifecycle)
    (c : try_apt_worker_closure) (hc : w.closure = some c)
    (h4 : (open_files opens c.start_step w.g w.opened).1 = 4) :
    try_apt_worker_start opens w =
      (false,
        { g := { (open_files opens c.start_step w.g w.opened).2.1 with
                   apt_worker_started := true }
          closure := none
          opened := (open_files opens c.start_step w.g w.opened).2.2
          finished := if c.finished_cb.isSome then w.finished ++ [true] else w.finished
          ticks := w.ticks }) := by
  simp [try_apt_worker_start, hc, h4]

/-- The branch of `try_apt_worker_start` that installs the timer. -/
theorem try_apt_worker_start_install (opens : Nat → Option Nat) (w : Lifecycle)
    (c : try_apt_worker_closure) (hc : w.closure = some c)
    (h4 : (open_files opens c.start_step w.g w.opened).1 ≠ 4) (ht : c.timeout_id = 0) :
    try_apt_worker_start opens w =
      (false,
        { g := (open_files opens c.start_step w.g w.opened).2.1
          closure := some { c with
            start_step := (open_files opens c.start_step w.g w.opened).1
            timeout_id := 1 }
          opened := (open_files opens c.start_step w.g w.opened).2.2
          finished := w.finished
          ticks := w.ticks }) := by
  simp [try_apt_worker_start, hc, h4, ht]

/-- The branch of `try_apt_worker_start` that gives up. -/
theorem try_apt_worker_start_abort (opens : Nat → Option Nat) (w : Lifecycle)
    (c : try_apt_worker_closure) (hc : w.closure = some c)
    (h4 : (open_files opens c.start_step w.g w.opened).1 ≠ 4) (ht : c.timeout_id ≠ 0)
    (hr : c.rounds_passed + 100 > APT_WORKER_START_TIMEOUT) :
    try_apt_worker_start opens w =
      (false,
        { g := (open_files opens c.start_step w.g w.opened).2.1
          closure := none
          opened := (open_files opens c.start_step w.g w.opened).2.2
          finished := if c.finished_cb.isSome then w.finished ++ [false] else w.finished
          ticks := w.ticks }) := by
  simp [try_apt_worker_start, hc, h4, ht, hr]

/-- The branch of `try_apt_worker_start` that ticks and waits on. -/
theorem try_apt_worker_start_tick (opens : Nat → Option Nat) (w : Lifecycle)
    (c : try_apt_worker_closure) (hc : w.closure = some c)
    (h4 : (open_files opens c.start_step w.g w.opened).1 ≠ 4) (ht : c.timeout_id ≠ 0)
    (hr : ¬ c.rounds_passed + 100 > APT_WORKER_START_TIMEOUT) :
    try_apt_worker_start opens w =
      (true,
        { g := (open_files opens c.start_step w.g w.opened).2.1
          closure := some { c with
            start_step := (open_files opens c.start_step w.g w.opened).1
            rounds_passed := c.rounds_passed + 100 }
          opened := (open_files opens c.start_step w.g w.opened).2.2
          finished := w.finished
          ticks := if c.tick_cb.isSome then w.ticks + 1 else w.ticks }) := by
  simp [try_apt_worker_start, hc, h4, ht, hr]

theorem range_four : List.range 4 = [0, 1, 2, 3] := by decide

/-- Every call of `try_apt_worker_start` keeps the invariant of the handshake,
only adds to the record of opens, and does not decrease `start_step`. -/
theorem try_apt_worker_start_inv (opens : Nat → Option Nat) (w : Lifecycle)
    (h : LifecycleInv w) :
    LifecycleInv (try_apt_worker_start opens w).2 ∧
    w.opened <+: (try_apt_worker_start opens w).2.opened ∧
    (∀ c c1, w.closure = some c → (try_apt_worker_start opens w).2.closure = some c1 →
      c.start_step ≤ c1.start_step ∧ c1.start_step ≤ 4) ∧
    ((successes w.opened).length = open_count opens w.opened.length →
      (successes (try_apt_worker_start opens w).2.opened).length =
        open_count opens (try_apt_worker_start opens w).2.opened.length) := by
  cases hc : w.closure with
  | none =>
    have : try_apt_worker_start opens w = (false, w) := by simp [try_apt_worker_start, hc]
    rw [this]
    refine ⟨h, List.prefix_refl _, ?_, fun e => e⟩
    intro c c1 h1
    cases h1
  | some c =>
    have hstep := h.step c hc
    have hsucc : successes w.opened = List.range c.start_step := by
      rw [hstep]; exact h.count.1
    obtain ⟨i1, i2, i3, i4, i5, i6, _, _, _⟩ := open_files_inv opens _ c.start_step w.g w.opened
      rfl h.order hsucc (by rw [hstep]; exact h.count.2) h.fds
    obtain ⟨j1, j2⟩ := open_files_grows opens _ c.start_step w.g w.opened rfl
    have hlen : (successes (open_files opens c.start_step w.g w.opened).2.2).length =
        (open_files opens c.start_step w.g w.opened).1 := by
      rw [i2, List.length_range]
    have hcount : successes (open_files opens c.start_step w.g w.opened).2.2 =
          List.range (successes (open_files opens c.start_step w.g w.opened).2.2).length ∧
        (successes (open_files opens c.start_step w.g w.opened).2.2).length ≤ 4 := by
      rw [hlen]; exact ⟨i2, i4⟩
    have hfull : successes w.opened = [0, 1, 2, 3] →
        (open_files opens c.start_step w.g w.opened).1 = 4 := by
      intro e
      have : c.start_step = 4 := by rw [hstep, e]; rfl
      omega
    by_cases h4 : (open_files opens c.start_step w.g w.opened).1 = 4
    · rw [try_apt_worker_start_done opens w c hc h4]
      have hall : successes (open_files opens c.start_step w.g w.opened).2.2 = [0, 1, 2, 3] := by
        rw [i2, h4, range_four]
      refine ⟨⟨i1, hcount, ?_, ?_, fun _ => hall, fun _ => hall⟩, j1, ?_, j2⟩
      · intro k fd hk
        simp only
        rw [fd_of_started]
        exact i5 k fd hk
      · intro c1 h1
        cases h1
      · intro c0 c1 _ h1
        cases h1
    · have hstarted : (open_files opens c.start_step w.g w.opened).2.1.apt_worker_started = true →
          successes (open_files opens c.start_step w.g w.opened).2.2 = [0, 1, 2, 3] := by
        intro e
        rw [i6] at e
        exact absurd (hfull (h.started e)) h4
      have hreported : true ∈ w.finished →
          successes (open_files opens c.start_step w.g w.opened).2.2 = [0, 1, 2, 3] := by
        intro e
        exact absurd (hfull (h.reported e)) h4
      by_cases ht : c.timeout_id = 0
      · rw [try_apt_worker_start_install opens w c hc h4 ht]
        refine ⟨⟨i1, hcount, i5, ?_, hstarted, hreported⟩, j1, ?_, j2⟩
        · intro c1 h1
          simp only [Option.some.injEq] at h1
          rw [← h1, hlen]
        · intro c0 c1 h0 h1
          simp only [Option.some.injEq] at h0 h1
          rw [← h1, ← h0]
          exact ⟨i3, i4⟩
      · by_cases hr : c.rounds_passed + 100 > APT_WORKER_START_TIMEOUT
        · rw [try_apt_worker_start_abort opens w c hc h4 ht hr]
          refine ⟨⟨i1, hcount, i5, ?_, hstarted, ?_⟩, j1, ?_, j2⟩
          · intro c1 h1
            cases h1
          · intro e
            simp only at e
            apply hreported
            split at e
            · simpa using e
            · exact e
          · intro c0 c1 _ h1
            cases h1
        · rw [try_apt_worker_start_tick opens w c hc h4 ht hr]
          refine ⟨⟨i1, hcount, i5, ?_, hstarted, hreported⟩, j1, ?_, j2⟩
          · intro c1 h1
            simp only [Option.some.injEq] at h1
            rw [← h1, hlen]
          · intro c0 c1 h0 h1
            simp only [Option.some.injEq] at h0 h1
            rw [← h1, ← h0]
            exact ⟨i3, i4⟩

/-- The timer keeps the invariant of the handshake. -/
theorem timer_fires_inv (opens : Nat → Option Nat) (n : Nat) : ∀ (w : Lifecycle),
    LifecycleInv w → LifecycleInv (timer_fires opens n w) := by
  induction n with
  | zero => intro w h; exact h
  | succ n ih =>
    intro w h
    have h1 := (try_apt_worker_start_inv opens w h).1
    simp only [timer_fires]
    split
    · exact ih _ h1
    · exact h1

theorem lifecycle_start_inv : LifecycleInv lifecycle_start := by
  refine ⟨?_, ?_, ?_, ?_, ?_, ?_⟩ <;> simp [lifecycle_start, successes, initial_state]

/-- The lifecycle that `start_apt_worker` leaves at program start satisfies the
invariant of the handshake. -/
theorem start_apt_worker_inv (mkfifo_ok : Nat → Bool) (spawn : Option (Int × Int))
    (opens : Nat → Option Nat) (finished_cb : Option Nat) (finished_data : Nat)
    (tick_cb : Option Nat) (tick_data : Nat) :
    LifecycleInv (start_apt_worker mkfifo_ok spawn opens finished_cb finished_data tick_cb
      tick_data lifecycle_start).2 := by
  unfold start_apt_worker
  split
  · exact lifecycle_start_inv
  · split
    · exact lifecycle_start_inv
    · apply (try_apt_worker_start_inv opens _ _).1
      refine ⟨?_, ?_, ?_, ?_, ?_, ?_⟩ <;> simp [lifecycle_start, successes, initial_state]

/-- C13: handshake ordering invariant.  In every run of the handshake from
program start, that is `start_apt_worker` followed by any number of firings of
its timer, over any sequence of open outcomes: `start_step` stays in 0..4 and
the next call of `try_apt_worker_start` does not decrease it; the open of file
k (0: /tmp/apt-worker.to, 1: /tmp/apt-worker.from, 2: /tmp/apt-worker.status,
3: /tmp/apt-worker.cancel) is attempted only when the files opened
successfully so far are exactly 0 to k-1, in this order; and
`apt_worker_started` is true, and `finished_cb (TRUE)` has fired, only when the
successful opens are those of files 0, 1, 2, 3 in this order. -/
theorem handshake_order (mkfifo_ok : Nat → Bool) (spawn : Option (Int × Int))
    (opens : Nat → Option Nat) (finished_cb : Option Nat) (finished_data : Nat)
    (tick_cb : Option Nat) (tick_data : Nat) (n : Nat) :
    (∀ c, (handshake_run mkfifo_ok spawn opens finished_cb finished_data tick_cb tick_data
        n).closure = some c →
      c.start_step ≤ 4 ∧
      successes (handshake_run mkfifo_ok spawn opens finished_cb finished_data tick_cb tick_data
        n).opened = List.range c.start_step ∧
      ∀ c1, (try_apt_worker_start opens (handshake_run mkfifo_ok spawn opens finished_cb
          finished_data tick_cb tick_data n)).2.closure = some c1 →
        c.start_step ≤ c1.start_step ∧ c1.start_step ≤ 4) ∧
    (∀ (i k : Nat) (res : Option Nat),
      (handshake_run mkfifo_ok spawn opens finished_cb finished_data tick_cb tick_data
        n).opened[i]? = some (k, res) →
      k < 4 ∧
      successes ((handshake_run mkfifo_ok spawn opens finished_cb finished_data tick_cb
        tick_data n).opened.take i) = List.range k) ∧
    ((handshake_run mkfifo_ok spawn opens finished_cb finished_data tick_cb tick_data
        n).g.apt_worker_started = true →
      successes (handshake_run mkfifo_ok spawn opens finished_cb finished_data tick_cb tick_data
        n).opened = [0, 1, 2, 3]) ∧
    (true ∈ (handshake_run mkfifo_ok spawn opens finished_cb finished_data tick_cb tick_data
        n).finished →
      successes (handshake_run mkfifo_ok spawn opens finished_cb finished_data tick_cb tick_data
        n).opened = [0, 1, 2, 3]) := by
  have h : LifecycleInv (handshake_run mkfifo_ok spawn opens finished_cb finished_data tick_cb
      tick_data n) :=
    timer_fires_inv opens n _ (start_apt_worker_inv mkfifo_ok spawn opens finished_cb
      finished_data tick_cb tick_data)
  refine ⟨?_, h.order, h.started, h.reported⟩
  intro c hc
  have hstep := h.step c hc
  refine ⟨by rw [hstep]; exact h.count.2, by rw [hstep]; exact h.count.1, ?_⟩
  intro c1 hc1
  exact (try_apt_worker_start_inv opens _ h).2.2.1 c c1 hc hc1

/-! ## The startup handshake: retries and timeout -/

theorem open_count_le_self (opens : Nat → Option Nat) (n : Nat) : open_count opens n ≤ n := by
  induction n with
  | zero => simp [open_count]
  | succ n ih =>
    simp only [open_count]
    split <;> omega

/-- When no open from the m-th on succeeds, at most m opens succeed. -/
theorem open_count_le (opens : Nat → Option Nat) (m : Nat)
    (hstuck : ∀ i, m ≤ i → opens i = none) (n : Nat) : open_count opens n ≤ m := by
  induction n with
  | zero => simp [open_count]
  | succ n ih =>
    simp only [open_count]
    by_cases hn : m ≤ n
    · simp [hstuck n hn, ih]
    · have := open_count_le_self opens n
      split <;> omega

/-- One firing of the timer of a waiting handshake whose pending open does not
succeed: it ticks and waits on while the time is not up, and gives up with
`finished_cb (FALSE)` when it is. -/
theorem waiting_step (opens : Nat → Option Nat) (m : Nat) (hm : m ≤ 3)
    (hstuck : ∀ i, m ≤ i → opens i = none) (w : Lifecycle) (rounds ticks : Nat)
    (h : HandshakeWaiting opens w rounds ticks) :
    (rounds + 100 ≤ 3000 →
      (try_apt_worker_start opens w).1 = true ∧
      HandshakeWaiting opens (try_apt_worker_start opens w).2 (rounds + 100) (ticks + 1)) ∧
    (3000 < rounds + 100 →
      (try_apt_worker_start opens w).1 = false ∧
      (try_apt_worker_start opens w).2.closure = none ∧
      (try_apt_worker_start opens w).2.finished = [false] ∧
      (try_apt_worker_start opens w).2.ticks = ticks ∧
      (try_apt_worker_start opens w).2.g.apt_worker_started = false ∧
      LifecycleInv (try_apt_worker_start opens w).2 ∧
      w.opened <+: (try_apt_worker_start opens w).2.opened) := by
  obtain ⟨c, hc, ht, hr, hf, htick⟩ := h.live
  obtain ⟨k1, k2, _, k4⟩ := try_apt_worker_start_inv opens w h.inv
  have hstep := h.inv.step c hc
  have hsucc : successes w.opened = List.range c.start_step := by
    rw [hstep]; exact h.inv.count.1
  obtain ⟨_, i2, _, _, _, i6, _, _, _⟩ := open_files_inv opens _ c.start_step w.g w.opened
    rfl h.inv.order hsucc (by rw [hstep]; exact h.inv.count.2) h.inv.fds
  obtain ⟨_, j2⟩ := open_files_grows opens _ c.start_step w.g w.opened rfl
  have h4 : (open_files opens c.start_step w.g w.opened).1 ≠ 4 := by
    have e := j2 h.counted
    rw [i2, List.length_range] at e
    have := open_count_le opens m hstuck (open_files opens c.start_step w.g w.opened).2.2.length
    omega
  refine ⟨?_, ?_⟩
  · intro hle
    have hr1 : ¬ c.rounds_passed + 100 > APT_WORKER_START_TIMEOUT := by
      simp only [APT_WORKER_START_TIMEOUT]; omega
    have heq := try_apt_worker_start_tick opens w c hc h4 ht hr1
    refine ⟨by rw [heq], ⟨k1, k4 h.counted, ?_, ?_, ?_, ?_⟩⟩
    · rw [heq]
      exact ⟨_, rfl, ht, by simp [hr], hf, htick⟩
    · rw [heq]
      simp [htick, h.ticked]
    · rw [heq]
      exact h.silent
    · rw [heq]
      simp only
      rw [i6]
      exact h.idle
  · intro hgt
    have hr1 : c.rounds_passed + 100 > APT_WORKER_START_TIMEOUT := by
      simp only [APT_WORKER_START_TIMEOUT]; omega
    have heq := try_apt_worker_start_abort opens w c hc h4 ht hr1
    refine ⟨by rw [heq], by rw [heq], ?_, ?_, ?_, k1, k2⟩
    · rw [heq]
      simp [hf, h.silent]
    · rw [heq]
      exact h.ticked
    · rw [heq]
      simp only
      rw [i6]
      exact h.idle

/-- While the time is not up, the timer of a waiting handshake keeps firing. -/
theorem waiting_timer (opens : Nat → Option Nat) (m : Nat) (hm : m ≤ 3)
    (hstuck : ∀ i, m ≤ i → opens i = none) (j : Nat) :
    ∀ (w : Lifecycle) (rounds ticks : Nat), HandshakeWaiting opens w rounds ticks →
    rounds + 100 * j ≤ 3000 →
    HandshakeWaiting opens (timer_fires opens j w) (rounds + 100 * j) (ticks + j) := by
  induction j with
  | zero => intro w rounds ticks h _; simpa using h
  | succ j ih =>
    intro w rounds ticks h hle
    obtain ⟨h1, h2⟩ := (waiting_step opens m hm hstuck w rounds ticks h).1 (by omega)
    simp only [timer_fires, h1, if_true]
    have := ih _ _ _ h2 (by omega)
    have e1 : rounds + 100 + 100 * j = rounds + 100 * (j + 1) := by omega
    have e2 : ticks + 1 + j = ticks + (j + 1) := by omega
    rw [e1, e2] at this
    exact this

/-- Once the firing that gives up has happened, the timer is gone. -/
theorem waiting_timer_abort (opens : Nat → Option Nat) (m : Nat) (hm : m ≤ 3)
    (hstuck : ∀ i, m ≤ i → opens i = none) (j : Nat) :
    ∀ (w : Lifecycle) (rounds ticks : Nat), HandshakeWaiting opens w rounds ticks →
    rounds + 100 * j ≤ 3000 → 3000 < rounds + 100 * (j + 1) → ∀ n, j < n →
    timer_fires opens n w = (try_apt_worker_start opens (timer_fires opens j w)).2 := by
  induction j with
  | zero =>
    intro w rounds ticks h _ hgt n hn
    obtain ⟨n1, rfl⟩ := Nat.exists_eq_succ_of_ne_zero (by omega : n ≠ 0)
    have h1 := ((waiting_step opens m hm hstuck w rounds ticks h).2 (by omega)).1
    simp [timer_fires, h1]
  | succ j ih =>
    intro w rounds ticks h hle hgt n hn
    obtain ⟨n1, rfl⟩ := Nat.exists_eq_succ_of_ne_zero (by omega : n ≠ 0)
    obtain ⟨h1, h2⟩ := (waiting_step opens m hm hstuck w rounds ticks h).1 (by omega)
    simp only [timer_fires, h1, if_true]
    exact ih _ _ _ h2 (by omega) (by omega) n1 (by omega)

/-- After its initial attempt a handshake whose pending open does not succeed is
waiting for its timer, with no round passed and no tick made. -/
theorem start_apt_worker_waiting (mkfifo_ok : Nat → Bool) (so se : Int)
    (opens : Nat → Option Nat) (fcb fdata tcb tdata m : Nat)
    (hfifo : mkfifo_ok 0 = true ∧ mkfifo_ok 1 = true ∧ mkfifo_ok 2 = true ∧ mkfifo_ok 3 = true)
    (hm : m ≤ 3) (hstuck : ∀ i, m ≤ i → opens i = none) :
    (start_apt_worker mkfifo_ok (some (so, se)) opens (some fcb) fdata (some tcb) tdata
      lifecycle_start).1 = true ∧
    HandshakeWaiting opens (start_apt_worker mkfifo_ok (some (so, se)) opens (some fcb) fdata
      (some tcb) tdata lifecycle_start).2 0 0 := by
  have hinv := start_apt_worker_inv mkfifo_ok (some (so, se)) opens (some fcb) fdata (some tcb)
    tdata
  obtain ⟨_, j2⟩ := open_files_grows opens _ 0 initial_state [] rfl
  have hcnt := j2 (by simp [successes, open_count])
  obtain ⟨_, i2, _, _, _, i6, _, _, _⟩ := open_files_inv opens _ 0 initial_state [] rfl
    (by simp) (by simp [successes]) (by omega) (by simp)
  have h4 : (open_files opens 0 initial_state []).1 ≠ 4 := by
    have e := hcnt
    rw [i2, List.length_range] at e
    have := open_count_le opens m hstuck (open_files opens 0 initial_state []).2.2.length
    omega
  have heq := try_apt_worker_start_install opens
    { lifecycle_start with
        closure := some { start_step := 0, finished_cb := some fcb, finished_data := fdata,
                          tick_cb := some tcb, tick_data := tdata, timeout_id := 0,
                          rounds_passed := 0, stdout_fd := so, stderr_fd := se } }
    _ rfl h4 rfl
  have hrun : start_apt_worker mkfifo_ok (some (so, se)) opens (some fcb) fdata (some tcb) tdata
      lifecycle_start = (true, (try_apt_worker_start opens
        { lifecycle_start with
            closure := some { start_step := 0, finished_cb := some fcb, finished_data := fdata,
                              tick_cb := some tcb, tick_data := tdata, timeout_id := 0,
                              rounds_passed := 0, stdout_fd := so, stderr_fd := se } }).2) := by
    simp [start_apt_worker, hfifo]
  rw [hrun] at hinv ⊢
  refine ⟨rfl, ⟨hinv, ?_, ?_, ?_, ?_, ?_⟩⟩
  · simp only
    rw [heq]
    exact hcnt
  · simp only
    rw [heq]
    exact ⟨_, rfl, by simp, rfl, rfl, rfl⟩
  · simp only
    rw [heq]
    rfl
  · simp only
    rw [heq]
    rfl
  · simp only
    rw [heq]
    exact i6.trans rfl

/-- The timer only adds to the record of opens. -/
theorem timer_fires_grows (opens : Nat → Option Nat) (n : Nat) : ∀ (w : Lifecycle),
    LifecycleInv w → w.opened <+: (timer_fires opens n w).opened := by
  induction n with
  | zero => intro w _; exact List.prefix_refl _
  | succ n ih =>
    intro w h
    obtain ⟨h1, h2, _⟩ := try_apt_worker_start_inv opens w h
    simp only [timer_fires]
    split
    · exact h2.trans (ih _ h1)
    · exact h2

/-- A handshake whose pending open does not succeed: what is left once the timer
has fired 31 times or more. -/
theorem handshake_timeout (mkfifo_ok : Nat → Bool) (so se : Int)
    (opens : Nat → Option Nat) (fcb fdata tcb tdata m : Nat)
    (hfifo : mkfifo_ok 0 = true ∧ mkfifo_ok 1 = true ∧ mkfifo_ok 2 = true ∧ mkfifo_ok 3 = true)
    (hm : m ≤ 3) (hstuck : ∀ i, m ≤ i → opens i = none) (n : Nat) (hn : 31 ≤ n) :
    (handshake_run mkfifo_ok (some (so, se)) opens (some fcb) fdata (some tcb) tdata
      n).finished = [false] ∧
    (handshake_run mkfifo_ok (some (so, se)) opens (some fcb) fdata (some tcb) tdata
      n).ticks = 30 ∧
    (handshake_run mkfifo_ok (some (so, se)) opens (some fcb) fdata (some tcb) tdata
      n).closure = none ∧
    (handshake_run mkfifo_ok (some (so, se)) opens (some fcb) fdata (some tcb) tdata
      n).g.apt_worker_started = false ∧
    LifecycleInv (handshake_run mkfifo_ok (some (so, se)) opens (some fcb) fdata (some tcb)
      tdata n) ∧
    (start_apt_worker mkfifo_ok (some (so, se)) opens (some fcb) fdata (some tcb) tdata
      lifecycle_start).2.opened <+:
      (handshake_run mkfifo_ok (some (so, se)) opens (some fcb) fdata (some tcb) tdata
        n).opened := by
  obtain ⟨_, hw⟩ := start_apt_worker_waiting mkfifo_ok so se opens fcb fdata tcb tdata m hfifo hm
    hstuck
  have h30 := waiting_timer opens m hm hstuck 30 _ 0 0 hw (by omega)
  have heq := waiting_timer_abort opens m hm hstuck 30 _ 0 0 hw (by omega) (by omega) n
    (by omega)
  obtain ⟨_, k2, k3, k4, k5, k6, _⟩ := (waiting_step opens m hm hstuck _ _ _ h30).2 (by omega)
  have hgrow := timer_fires_grows opens n _ hw.inv
  unfold handshake_run
  rw [heq] at hgrow ⊢
  exact ⟨k3, by simpa using k4, k2, k5, k6, hgrow⟩

/-- While the time is not up, each firing of the timer is one more call of
`try_apt_worker_start`. -/
theorem waiting_timer_succ (opens : Nat → Option Nat) (m : Nat) (hm : m ≤ 3)
    (hstuck : ∀ i, m ≤ i → opens i = none) (j : Nat) :
    ∀ (w : Lifecycle) (rounds ticks : Nat), HandshakeWaiting opens w rounds ticks →
    rounds + 100 * (j + 1) ≤ 3000 →
    timer_fires opens (j + 1) w = (try_apt_worker_start opens (timer_fires opens j w)).2 := by
  induction j with
  | zero =>
    intro w rounds ticks h _
    simp [timer_fires]
  | succ j ih =>
    intro w rounds ticks h hle
    obtain ⟨h1, h2⟩ := (waiting_step opens m hm hstuck w rounds ticks h).1 (by omega)
    have e1 : timer_fires opens (j + 1 + 1) w =
        timer_fires opens (j + 1) (try_apt_worker_start opens w).2 := by
      rw [timer_fires]; simp [h1]
    have e2 : timer_fires opens (j + 1) w =
        timer_fires opens j (try_apt_worker_start opens w).2 := by
      rw [timer_fires]; simp [h1]
    rw [e1, e2]
    exact ih _ _ _ h2 (by omega)

/-- C18: bounded handshake retry.  When the files are made and the worker
spawned, both callbacks are set and no open from the m-th on succeeds, for
some m up to 3, so that all four opens never succeed: the initial attempt of
`start_apt_worker` only installs the timer, without a tick; each of the first
30 firings of the timer returns TRUE, adds 100 to `rounds_passed` and invokes
`tick_cb` once; the 31st, the first with `rounds_passed` above 3000, returns
FALSE; and from then on `finished_cb` has been invoked exactly once, with
FALSE, `tick_cb` 30 times, and the closure is gone. -/
theorem handshake_retry_bound (mkfifo_ok : Nat → Bool) (so se : Int)
    (opens : Nat → Option Nat) (fcb fdata tcb tdata m : Nat)
    (hfifo : mkfifo_ok 0 = true ∧ mkfifo_ok 1 = true ∧ mkfifo_ok 2 = true ∧ mkfifo_ok 3 = true)
    (hm : m ≤ 3) (hstuck : ∀ i, m ≤ i → opens i = none) :
    (∀ j, j ≤ 30 →
      (handshake_run mkfifo_ok (some (so, se)) opens (some fcb) fdata (some tcb) tdata
        j).ticks = j ∧
      (handshake_run mkfifo_ok (some (so, se)) opens (some fcb) fdata (some tcb) tdata
        j).finished = [] ∧
      ∃ c, (handshake_run mkfifo_ok (some (so, se)) opens (some fcb) fdata (some tcb) tdata
          j).closure = some c ∧ c.timeout_id ≠ 0 ∧ c.rounds_passed = 100 * j) ∧
    (∀ j, j < 30 →
      (try_apt_worker_start opens (handshake_run mkfifo_ok (some (so, se)) opens (some fcb)
        fdata (some tcb) tdata j)).1 = true ∧
      handshake_run mkfifo_ok (some (so, se)) opens (some fcb) fdata (some tcb) tdata (j + 1) =
        (try_apt_worker_start opens (handshake_run mkfifo_ok (some (so, se)) opens (some fcb)
          fdata (some tcb) tdata j)).2) ∧
    (try_apt_worker_start opens (handshake_run mkfifo_ok (some (so, se)) opens (some fcb)
      fdata (some tcb) tdata 30)).1 = false ∧
    (∀ n, 31 ≤ n →
      (handshake_run mkfifo_ok (some (so, se)) opens (some fcb) fdata (some tcb) tdata
        n).finished = [false] ∧
      (handshake_run mkfifo_ok (some (so, se)) opens (some fcb) fdata (some tcb) tdata
        n).ticks = 30 ∧
      (handshake_run mkfifo_ok (some (so, se)) opens (some fcb) fdata (some tcb) tdata
        n).closure = none) := by
  obtain ⟨_, hw⟩ := start_apt_worker_waiting mkfifo_ok so se opens fcb fdata tcb tdata m hfifo hm
    hstuck
  have hwait : ∀ j, j ≤ 30 → HandshakeWaiting opens
      (handshake_run mkfifo_ok (some (so, se)) opens (some fcb) fdata (some tcb) tdata j)
      (100 * j) j := by
    intro j hj
    have := waiting_timer opens m hm hstuck j _ 0 0 hw (by omega)
    simpa [handshake_run] using this
  refine ⟨?_, ?_, ?_, ?_⟩
  · intro j hj
    have h := hwait j hj
    obtain ⟨c, hc, ht, hr, _, _⟩ := h.live
    exact ⟨h.ticked, h.silent, c, hc, ht, hr⟩
  · intro j hj
    have h := hwait j (by omega)
    obtain ⟨h1, _⟩ := (waiting_step opens m hm hstuck _ _ _ h).1 (by omega)
    refine ⟨h1, ?_⟩
    have := waiting_timer_succ opens m hm hstuck j _ 0 0 hw (by omega)
    unfold handshake_run
    exact this
  · have h := hwait 30 (by omega)
    exact ((waiting_step opens m hm hstuck _ _ _ h).2 (by omega)).1
  · intro n hn
    obtain ⟨k1, k2, k3, _⟩ := handshake_timeout mkfifo_ok so se opens fcb fdata tcb tdata m hfifo
      hm hstuck n hn
    exact ⟨k1, k2, k3⟩

/-- Witness for C18: no open ever succeeds. -/
theorem handshake_retry_bound_witness :
    (handshake_run (fun _ => true) (some (10, 11)) (fun _ => none) (some 1) 0 (some 2) 0
      31).finished = [false] ∧
    (handshake_run (fun _ => true) (some (10, 11)) (fun _ => none) (some 1) 0 (some 2) 0
      31).ticks = 30 ∧
    (handshake_run (fun _ => true) (some (10, 11)) (fun _ => none) (some 1) 0 (some 2) 0
      31).closure = none :=
  (handshake_retry_bound (fun _ => true) 10 11 (fun _ => none) 1 0 2 0 0 ⟨rfl, rfl, rfl, rfl⟩
    (by omega) (fun _ _ => rfl)).2.2.2 31 (by omega)

/-- C15 (counterexample): the first `must_mkfifo` fails, or all four succeed and
the spawn fails.  `start_apt_worker` returns false and `finished_cb` is not
invoked at all. -/
theorem spawn_failure_is_silent :
    (start_apt_worker (fun _ => false) (some (10, 11)) demo_opens (some 1) 0 (some 2) 0
      lifecycle_start).1 = false ∧
    (start_apt_worker (fun _ => false) (some (10, 11)) demo_opens (some 1) 0 (some 2) 0
      lifecycle_start).2.finished = [] ∧
    (start_apt_worker (fun _ => true) none demo_opens (some 1) 0 (some 2) 0
      lifecycle_start).1 = false ∧
    (start_apt_worker (fun _ => true) none demo_opens (some 1) 0 (some 2) 0
      lifecycle_start).2.finished = [] ∧
    ¬ (start_apt_worker (fun _ => true) none demo_opens (some 1) 0 (some 2) 0
      lifecycle_start).2.finished = [false] := by
  refine ⟨?_, ?_, ?_, ?_, ?_⟩ <;> simp [start_apt_worker, lifecycle_start]

/-- C15 (amended): whenever `start_apt_worker` fails to start the worker (one of
the four `must_mkfifo` calls fails, or `g_spawn_async_with_pipes` fails), it
returns false and changes nothing: `finished_cb` is not invoked, no closure is
allocated and no open is attempted.  The failure is reported by the return
value only. -/
theorem spawn_failure_returns_false (mkfifo_ok : Nat → Bool) (spawn : Option (Int × Int))
    (opens : Nat → Option Nat) (finished_cb : Option Nat) (finished_data : Nat)
    (tick_cb : Option Nat) (tick_data : Nat) (w : Lifecycle)
    (hfail : (mkfifo_ok 0 = false ∨ mkfifo_ok 1 = false ∨ mkfifo_ok 2 = false ∨
      mkfifo_ok 3 = false) ∨ spawn = none) :
    start_apt_worker mkfifo_ok spawn opens finished_cb finished_data tick_cb tick_data w =
      (false, w) := by
  unfold start_apt_worker
  by_cases h : (!mkfifo_ok 0 || !mkfifo_ok 1 || !mkfifo_ok 2 || !mkfifo_ok 3) = true
  · rw [if_pos h]
  · rw [if_neg h]
    rcases hfail with hf | hs
    · exfalso
      apply h
      rcases hf with e | e | e | e <;> simp [e]
    · rw [hs]

/-- Witness for C15 (amended): the third `must_mkfifo` fails. -/
theorem spawn_failure_returns_false_witness :
    start_apt_worker (fun i => decide (i ≠ 2)) (some (10, 11)) demo_opens (some 1) 0 (some 2) 0
      lifecycle_start = (false, lifecycle_start) :=
  spawn_failure_returns_false (fun i => decide (i ≠ 2)) (some (10, 11)) demo_opens (some 1) 0
    (some 2) 0 lifecycle_start (Or.inl (Or.inr (Or.inr (Or.inl (by decide)))))

/-- Witness for C13: every open succeeds at once; the handshake completes in the
initial attempt and the files were opened in the order 0, 1, 2, 3. -/
theorem handshake_order_witness :
    (handshake_run (fun _ => true) (some (10, 11)) (fun i => some (i + 3)) (some 1) 0 (some 2) 0
      0).g.apt_worker_started = true ∧
    successes (handshake_run (fun _ => true) (some (10, 11)) (fun i => some (i + 3)) (some 1) 0
      (some 2) 0 0).opened = [0, 1, 2, 3] := by
  have hst : (handshake_run (fun _ => true) (some (10, 11)) (fun i => some (i + 3)) (some 1) 0
      (some 2) 0 0).g.apt_worker_started = true := by
    simp [handshake_run, timer_fires, start_apt_worker, try_apt_worker_start, open_files,
      lifecycle_start]
  exact ⟨hst, (handshake_order (fun _ => true) (some (10, 11)) (fun i => some (i + 3)) (some 1) 0
    (some 2) 0 0).2.2.1 hst⟩

/-! ## The status subscription -/

/-- C17: persistent status subscription.  `apt_worker_set_status_callback (cb,
ctx)` puts `cb` and `ctx` into the slot of the status kind and changes nothing
else; and while they are there, every completely read response frame whose
command is `APTCMD_STATUS`, whatever its sequence number, makes
`handle_one_apt_worker_response` invoke `cb` exactly once with a decoder over
the `res.len` payload bytes and `ctx`, and leaves the whole pending table, the
status slot included, as it was, so that the next status response does the
same. -/
theorem status_subscription_persists (P : Proto) (s0 s : State) (cb ctx : Nat)
    (pipe : List ReadEvent) (res : apt_header) (payload : List Nat) (rl : Int)
    (rest : List ReadEvent)
    (hstatus : P.APTCMD_STATUS < P.APTCMD_MAX)
    (hsub : (s.pending P.APTCMD_STATUS).done_callback = some cb ∧
      (s.pending P.APTCMD_STATUS).done_data = ctx)
    (hread : read_response s.apt_worker_in_fd s.response_len pipe =
      FrameOutcome.frame res payload rl rest)
    (hcmd : res.cmd = (P.APTCMD_STATUS : Int)) :
    ((apt_worker_set_status_callback P s0 (some cb) ctx).pending P.APTCMD_STATUS =
        { seq := (s0.pending P.APTCMD_STATUS).seq, done_callback := some cb,
          done_data := ctx } ∧
      ∀ c, c ≠ P.APTCMD_STATUS →
        (apt_worker_set_status_callback P s0 (some cb) ctx).pending c = s0.pending c) ∧
    ∃ s1, handle_one_apt_worker_response P s pipe = Except.ok (s1, rest) ∧
      s1.invoked = s.invoked ++
        [{ callback := cb, cmd := res.cmd, dec := some payload, data := ctx }] ∧
      (payload.length : Int) = res.len ∧
      s1.pending = s.pending := by
  refine ⟨⟨by simp [apt_worker_set_status_callback, set_slot], ?_⟩, ?_⟩
  · intro c hc
    simp [apt_worker_set_status_callback, set_slot, hc]
  · obtain ⟨_, _, _, _, _, _, hlen⟩ := read_response_frame _ _ _ _ _ _ _ hread
    refine ⟨invoke { s with response_len := rl } cb res.cmd (some payload) ctx, ?_, rfl, hlen,
      rfl⟩
    have hrange1 : ¬ (((P.APTCMD_STATUS : Nat) : Int) < 0 ∨ P.APTCMD_MAX ≤ P.APTCMD_STATUS) := by
      omega
    simp [handle_one_apt_worker_response, hread, dispatch_response, hrange1, hcmd, hsub.1,
      hsub.2]

/-- Witness for C17: a status frame with sequence number 99 and payload 97
arrives after the registration of callback 21 with context 9. -/
theorem status_subscription_persists_witness :
    ∃ s1, handle_one_apt_worker_response demo_proto
        (apt_worker_set_status_callback demo_proto demo_state (some 21) 9)
        [ReadEvent.chunk [1, 0, 0, 0, 0, 0, 0, 0, 99, 0, 0, 0, 1, 0, 0, 0, 97]] =
          Except.ok (s1, []) ∧
      s1.invoked = (apt_worker_set_status_callback demo_proto demo_state (some 21) 9).invoked ++
        [{ callback := 21, cmd := 1, dec := some [97], data := 9 }] ∧
      s1.pending = (apt_worker_set_status_callback demo_proto demo_state (some 21) 9).pending := by
  obtain ⟨_, s1, h1, h2, _, h3⟩ := status_subscription_persists demo_proto demo_state
    (apt_worker_set_status_callback demo_proto demo_state (some 21) 9) 21 9
    [ReadEvent.chunk [1, 0, 0, 0, 0, 0, 0, 0, 99, 0, 0, 0, 1, 0, 0, 0, 97]]
    { cmd := 1, state := 0, seq := 99, len := 1 } [97] 1 []
    (by decide)
    ⟨by simp [apt_worker_set_status_callback, set_slot, demo_proto],
     by simp [apt_worker_set_status_callback, set_slot, demo_proto]⟩
    (by simp [read_response, must_read, must_read_loop, sys_read,
          apt_worker_set_status_callback, demo_state, bytes_header, bytes_int32, wrap32])
    rfl
  exact ⟨s1, h1, h2, h3⟩

/-! ## The assertion on the stored callback -/

/-- C19: right after startup, with the pending table still zeroed, a response
frame for command 2 with sequence number 0 and no payload reaches
`assert (done_callback)` with a NULL callback; and so does the second of two
identical responses to a request that was sent. -/
theorem unsolicited_response_fails_assert :
    handle_one_apt_worker_response demo_proto demo_started
        [ReadEvent.chunk [2, 0, 0, 0, 0, 0, 0, 0, 0, 0, 0, 0, 0, 0, 0, 0]] =
      Except.error Fault.assert_failed ∧
    (demo_started.pending 2).seq = 0 ∧ (demo_started.pending 2).done_callback = none ∧
    run demo_proto { st := demo_started, issued := [] }
        [Step.call 2 0 [] 0 11 [WriteEvent.accept 16],
         Step.response [ReadEvent.chunk [2, 0, 0, 0, 0, 0, 0, 0, 0, 0, 0, 0, 0, 0, 0, 0]],
         Step.response [ReadEvent.chunk [2, 0, 0, 0, 0, 0, 0, 0, 0, 0, 0, 0, 0, 0, 0, 0]]] =
      Except.error Fault.assert_failed := by
  refine ⟨?_, rfl, rfl, ?_⟩
  · simp [handle_one_apt_worker_response, read_response, must_read, must_read_loop, sys_read,
      demo_started, initial_state, bytes_header, bytes_int32, wrap32, dispatch_response,
      demo_proto]
  · simp [run, step, demo_started, demo_proto, initial_state, call_apt_worker,
      next_seq, send_apt_worker_request, must_write, must_write_loop, sys_write, set_slot,
      handle_one_apt_worker_response, read_response, must_read, must_read_loop, sys_read,
      bytes_header, bytes_int32, wrap32, dispatch_response, invoke]

/-! ## Sequence numbers -/

theorem wrap32_succ (x : Int) (h1 : -2147483648 ≤ x) (h2 : x + 1 < 2147483648) :
    wrap32 (x + 1) = x + 1 := by
  unfold wrap32
  omega

/-- An accepted call of `call_apt_worker`: the sequence number stored is the value
of the counter, the counter is advanced, and a frame that was sent carries
that sequence number. -/
theorem call_apt_worker_accepted (P : Proto) (s : State) (cmd state : Int) (data : List Nat)
    (len : Int) (cb ctx : Nat) (wr : List WriteEvent) (s1 : State) (rest : List WriteEvent)
    (hcmd : 0 ≤ cmd ∧ cmd < (P.APTCMD_MAX : Int))
    (hstarted : s.apt_worker_started = true)
    (hfree : (s.pending cmd.toNat).done_callback = none)
    (h : call_apt_worker P s cmd state data len cb ctx wr = Except.ok (s1, rest)) :
    s1.seq = wrap32 (s.seq + 1) ∧ (s1.pending cmd.toNat).seq = s.seq ∧
    ((s1.pending cmd.toNat).done_callback = some cb →
      s1.written = s.written ++
        header_bytes { cmd := cmd, state := state, seq := s.seq, len := len } ++
        data.take len.toNat) ∧
    s1.apt_worker_started = s.apt_worker_started := by
  simp [call_apt_worker, hcmd, hstarted, hfree, next_seq] at h
  split at h
  · simp at h
  · rename_i s3 rest3 hsend
    obtain ⟨out, hs3⟩ := send_apt_worker_request_frame _ _ _ _ _ _ _ _ _ _ hsend
    have hw := send_apt_worker_request_written _ _ _ _ _ _ _ _ _ hsend
    simp only [Except.ok.injEq, Prod.mk.injEq] at h
    rw [← h.1]
    refine ⟨by rw [hs3], by rw [hs3]; simp [set_slot], ?_, by rw [hs3]; simp [hstarted]⟩
    intro _
    simpa [set_slot] using hw
  · rename_i s3 rest3 hsend
    obtain ⟨out, hs3⟩ := send_apt_worker_request_frame _ _ _ _ _ _ _ _ _ _ hsend
    simp only [Except.ok.injEq, Prod.mk.injEq] at h
    rw [← h.1, hs3]
    refine ⟨?_, ?_, ?_, ?_⟩
    · exact (cancel_request_frame _ _).2.2.2.2.2.1
    · rw [cancel_request_pending]
      simp [set_slot, annoy_user_with_log]
    · intro hocc
      rw [cancel_request_pending] at hocc
      simp [set_slot] at hocc
    · rw [(cancel_request_frame _ _).2.2.2.2.1]
      simp [annoy_user_with_log, hstarted]

/-- A call of `call_apt_worker` advances the counter by one or leaves it. -/
theorem call_apt_worker_seq (P : Proto) (s : State) (cmd state : Int) (data : List Nat)
    (len : Int) (cb ctx : Nat) (wr : List WriteEvent) (s1 : State) (rest : List WriteEvent)
    (h : call_apt_worker P s cmd state data len cb ctx wr = Except.ok (s1, rest)) :
    (s1.seq = s.seq ∨ s1.seq = wrap32 (s.seq + 1)) ∧
      s1.apt_worker_started = s.apt_worker_started := by
  by_cases hcmd : 0 ≤ cmd ∧ cmd < (P.APTCMD_MAX : Int)
  swap
  · simp [call_apt_worker, hcmd] at h
  by_cases hrej : s.apt_worker_started = false ∨ (s.pending cmd.toNat).done_callback ≠ none
  · rw [call_apt_worker_rejected P s cmd state data len cb ctx wr hcmd hrej] at h
    simp only [Except.ok.injEq, Prod.mk.injEq] at h
    rw [← h.1]
    exact ⟨Or.inl rfl, rfl⟩
  · have hst : s.apt_worker_started = true := by
      cases h1 : s.apt_worker_started
      · exact absurd (Or.inl h1) hrej
      · rfl
    have hfree : (s.pending cmd.toNat).done_callback = none := by
      by_contra h1
      exact hrej (Or.inr h1)
    have ha := call_apt_worker_accepted P s cmd state data len cb ctx wr s1 rest hcmd hst hfree h
    exact ⟨Or.inr ha.1, ha.2.2.2⟩

/-- A call of `handle_one_apt_worker_response` leaves the counter. -/
theorem handle_one_apt_worker_response_seq (P : Proto) (s s1 : State)
    (pipe rest : List ReadEvent)
    (h : handle_one_apt_worker_response P s pipe = Except.ok (s1, rest)) :
    s1.seq = s.seq ∧ s1.apt_worker_started = s.apt_worker_started := by
  unfold handle_one_apt_worker_response at h
  split at h
  · simp at h
  · simp at h
  · simp only [Except.ok.injEq, Prod.mk.injEq] at h
    rw [← h.1]
    exact ⟨(notice_apt_worker_failure_fields P _).2.2.2.2.2.2.2.1,
      (notice_apt_worker_failure_fields P _).2.2.2.2.2.2.1⟩
  · split at h
    · simp at h
    · rename_i s2 hd
      simp only [Except.ok.injEq, Prod.mk.injEq] at h
      rw [← h.1]
      unfold dispatch_response at hd
      simp only at hd
      split at hd
      · simp only [Except.ok.injEq] at hd
        rw [← hd]
        exact ⟨rfl, rfl⟩
      · split at hd
        · split at hd
          · simp only [Except.ok.injEq] at hd
            rw [← hd]
            exact ⟨rfl, rfl⟩
          · simp only [Except.ok.injEq] at hd
            rw [← hd]
            exact ⟨rfl, rfl⟩
        · split at hd
          · simp only [Except.ok.injEq] at hd
            rw [← hd]
            exact ⟨rfl, rfl⟩
          · split at hd
            · simp at hd
            · simp only [Except.ok.injEq] at hd
              rw [← hd]
              exact ⟨rfl, rfl⟩

/-- Along a run the counter does not go down and goes up by at most one per
step, as long as it stays below the largest `int`. -/
theorem run_seq_bounds (P : Proto) (steps : List Step) : ∀ (r0 r : Run),
    run P r0 steps = Except.ok r → -2147483648 ≤ r0.st.seq →
    r0.st.seq + (steps.length : Int) < 2147483648 →
    r0.st.seq ≤ r.st.seq ∧ r.st.seq ≤ r0.st.seq + (steps.length : Int) ∧
      r.st.apt_worker_started = r0.st.apt_worker_started := by
  induction steps with
  | nil =>
    intro r0 r h _ _
    simp only [run, Except.ok.injEq] at h
    subst h
    simp
  | cons e es ih =>
    intro r0 r h hlow hroom
    simp only [List.length_cons, Nat.cast_add, Nat.cast_one] at hroom ⊢
    simp only [run] at h
    split at h
    swap
    · simp at h
    rename_i r1 hstep
    have hone : (r1.st.seq = r0.st.seq ∨ r1.st.seq = wrap32 (r0.st.seq + 1)) ∧
        r1.st.apt_worker_started = r0.st.apt_worker_started := by
      cases e with
      | call cmd state data len cb wr =>
        simp only [step] at hstep
        split at hstep
        · rename_i s1 rest hcall
          simp only [Except.ok.injEq] at hstep
          subst hstep
          exact call_apt_worker_seq P _ _ _ _ _ _ _ _ _ _ hcall
        · simp at hstep
      | response pipe =>
        simp only [step] at hstep
        split at hstep
        · rename_i s1 rest hcall
          simp only [Except.ok.injEq] at hstep
          subst hstep
          have hh := handle_one_apt_worker_response_seq P _ _ _ _ hcall
          exact ⟨Or.inl hh.1, hh.2⟩
        · simp at hstep
      | failure =>
        simp only [step, Except.ok.injEq] at hstep
        subst hstep
        exact ⟨Or.inl (notice_apt_worker_failure_fields P _).2.2.2.2.2.2.2.1,
          (notice_apt_worker_failure_fields P _).2.2.2.2.2.2.1⟩
    have hw := wrap32_succ r0.st.seq hlow (by omega)
    have hb : r0.st.seq ≤ r1.st.seq ∧ r1.st.seq ≤ r0.st.seq + 1 := by
      rcases hone.1 with e1 | e1
      · omega
      · rw [hw] at e1; omega
    obtain ⟨i1, i2, i3⟩ := ih r1 r h (by omega) (by omega)
    exact ⟨by omega, by omega, by rw [i3, hone.2]⟩

/-- C16: global sequence allocation.  An accepted `call_apt_worker` call (worker
started, slot free) stores in `pending[cmd].seq` the value of the one counter
that all command kinds share and advances the counter by one, and the frame it
sends carries the header {cmd, state, that sequence number, len}.  Hence of
two accepted calls, of the same or of different kinds, with any steps in
between, the later one gets the strictly greater sequence number, as long as
the 32-bit counter does not wrap; and a rejected call (worker not started or
slot occupied) leaves the counter as it was. -/
theorem sequence_allocation (P : Proto) (s s1 : State) (cmd state : Int) (data : List Nat)
    (len : Int) (cb ctx : Nat) (wr rest : List WriteEvent)
    (issued : List (Int × Nat)) (steps : List Step) (r : Run)
    (cmd2 state2 : Int) (data2 : List Nat) (len2 : Int) (cb2 ctx2 : Nat)
    (wr2 rest2 : List WriteEvent) (s2 : State)
    (hcmd : 0 ≤ cmd ∧ cmd < (P.APTCMD_MAX : Int))
    (hstarted : s.apt_worker_started = true)
    (hfree : (s.pending cmd.toNat).done_callback = none)
    (hcall : call_apt_worker P s cmd state data len cb ctx wr = Except.ok (s1, rest))
    (hlow : -2147483648 ≤ s.seq)
    (hroom : s.seq + 1 + (steps.length : Int) < 2147483647)
    (hrun : run P { st := s1, issued := issued } steps = Except.ok r)
    (hcmd2 : 0 ≤ cmd2 ∧ cmd2 < (P.APTCMD_MAX : Int))
    (hfree2 : (r.st.pending cmd2.toNat).done_callback = none)
    (hcall2 : call_apt_worker P r.st cmd2 state2 data2 len2 cb2 ctx2 wr2 =
      Except.ok (s2, rest2)) :
    (s1.pending cmd.toNat).seq = s.seq ∧ s1.seq = s.seq + 1 ∧
    ((s1.pending cmd.toNat).done_callback = some cb →
      s1.written = s.written ++
        header_bytes { cmd := cmd, state := state, seq := s.seq, len := len } ++
        data.take len.toNat) ∧
    (s2.pending cmd2.toNat).seq = r.st.seq ∧ s2.seq = r.st.seq + 1 ∧
    (s1.pending cmd.toNat).seq < (s2.pending cmd2.toNat).seq ∧
    ∀ (t t1 : State) (cmd3 state3 : Int) (data3 : List Nat) (len3 : Int) (cb3 ctx3 : Nat)
      (wr3 rest3 : List WriteEvent),
      t.apt_worker_started = false ∨ (t.pending cmd3.toNat).done_callback ≠ none →
      call_apt_worker P t cmd3 state3 data3 len3 cb3 ctx3 wr3 = Except.ok (t1, rest3) →
      t1.seq = t.seq := by
  obtain ⟨a1, a2, a3, a4⟩ := call_apt_worker_accepted P s cmd state data len cb ctx wr s1 rest
    hcmd hstarted hfree hcall
  have hw1 := wrap32_succ s.seq hlow (by omega)
  rw [hw1] at a1
  obtain ⟨b1, b2, b3⟩ := run_seq_bounds P steps { st := s1, issued := issued } r hrun
    (by simp only; omega) (by simp only; omega)
  simp only at b1 b2 b3
  have hstarted2 : r.st.apt_worker_started = true := by rw [b3, a4, hstarted]
  obtain ⟨c1, c2, _, _⟩ := call_apt_worker_accepted P r.st cmd2 state2 data2 len2 cb2 ctx2 wr2
    s2 rest2 hcmd2 hstarted2 hfree2 hcall2
  have hw2 := wrap32_succ r.st.seq (by omega) (by omega)
  rw [hw2] at c1
  refine ⟨a2, a1, a3, c2, c1, by omega, ?_⟩
  intro t t1 cmd3 state3 data3 len3 cb3 ctx3 wr3 rest3 hrej h3
  by_cases hc3 : 0 ≤ cmd3 ∧ cmd3 < (P.APTCMD_MAX : Int)
  · rw [call_apt_worker_rejected P t cmd3 state3 data3 len3 cb3 ctx3 wr3 hc3 hrej] at h3
    simp only [Except.ok.injEq, Prod.mk.injEq] at h3
    rw [← h3.1]
    rfl
  · simp [call_apt_worker, hc3] at h3

/-- Witness for C16: command 2 is sent, a second call for command 2 is rejected,
then command 3 is sent. -/
theorem sequence_allocation_witness :
    (demo_sent.pending (2 : Int).toNat).seq = demo_started.seq ∧
    demo_sent.seq = demo_started.seq + 1 ∧
    (demo_sent_twice.pending (3 : Int).toNat).seq = 1 ∧
    (demo_sent.pending (2 : Int).toNat).seq < (demo_sent_twice.pending (3 : Int).toNat).seq := by
  obtain ⟨h1, h2, _, _, _, h6, _⟩ := sequence_allocation demo_proto demo_started demo_sent
    2 0 [] 0 11 5 [WriteEvent.accept 16] [] [] [Step.call 2 0 [] 0 12 []]
    { st := invoke demo_sent 12 2 none 0, issued := [(2, 12)] }
    3 0 [] 0 13 7 [WriteEvent.accept 16] [] (invoke demo_sent_twice 12 2 none 0)
    (by decide) rfl rfl
    (by simp [call_apt_worker, demo_started, demo_proto, initial_state, next_seq,
          send_apt_worker_request, must_write, must_write_loop, sys_write, header_bytes,
          int32_bytes, wrap32, demo_sent, set_slot])
    (by decide) (by decide)
    (by simp [run, step, call_apt_worker, demo_sent, demo_started, demo_proto, initial_state,
          set_slot])
    (by decide) (by simp [invoke, demo_sent, demo_started, initial_state, set_slot])
    (by simp [call_apt_worker, demo_sent, demo_sent_twice, demo_started, demo_proto,
          initial_state, next_seq, send_apt_worker_request, must_write, must_write_loop,
          sys_write, header_bytes, int32_bytes, wrap32, invoke, set_slot])
  exact ⟨h1, h2, by simp [demo_sent_twice, set_slot], h6⟩

/-! ## The startup handshake: timeout after some opens -/

end AptWorkerClient
